import Mathlib

/-!
# Hydrogen-bond accumulation of cpptraj (`Action_Hbond.cpp`)

A shallow embedding of `Action_Hbond` (`setup`, `AtomsAreHbonded`, `action`,
`print`) together with the containers it uses, of the atom loop of
`Action_Diffusion::action` and of the field parsers of `PDBfile`; the theorems
about them follow the definitions.

Conventions of the embedding

* `int` values (atom indices, registry keys, counters) are `Int`; no overflow is
  modelled (signed overflow has no defined behaviour in the source language).
* `double` values (squared distances, angles, cutoffs, sums) are exact rationals
  `ℚ`, so the comparisons `>` and `<` of the source are those of a linear order.
* `sqrt` of `<cmath>`, the topology (`currentParm`), the frame (`currentFrame`)
  and the data-set list (`DSL`) are collaborators; they are passed in.
* `std::map` is an association list kept in key order, `std::set<int>` is a
  strictly increasing list.
* `sort` of `<algorithm>` and the comparator `hbond_cmp` of `Action_Hbond.h` are
  collaborators of `print`; what a property needs of them is a hypothesis of it.
-/

namespace Cpptraj

/-! ## Containers -/

section Containers

variable {K V : Type}

/-- The lookup `std::map::find`: the value stored under `k`, `none` for `end()`. -/
def mapFind [DecidableEq K] (k : K) : List (K × V) → Option V
  | [] => none
  | (k', v) :: rest => if k' = k then some v else mapFind k rest

/-- The insertion `std::map::insert`: puts `(k, v)` at its place in key order; an entry that
is already stored under `k` is kept as it is. -/
def mapInsert [LT K] [DecidableRel (α := K) (· < ·)] (k : K) (v : V) :
    List (K × V) → List (K × V)
  | [] => [(k, v)]
  | (k', v') :: rest =>
    if k < k' then (k, v) :: (k', v') :: rest
    else if k' < k then (k', v') :: mapInsert k v rest
    else (k', v') :: rest

/-- Update in place through an iterator returned by `find`:
`(*it).second` becomes `f (*it).second`. -/
def mapModify [DecidableEq K] (k : K) (f : V → V) : List (K × V) → List (K × V)
  | [] => []
  | (k', v) :: rest =>
    if k' = k then (k', f v) :: rest else (k', v) :: mapModify k f rest

/-- The insertion `std::set<int>::insert` into a strictly increasing list. -/
def setInsert (x : Int) : List Int → List Int
  | [] => [x]
  | y :: ys =>
    if x < y then x :: y :: ys
    else if y < x then y :: setInsert x ys
    else y :: ys

end Containers

/-! ## Data model -/

/-- Modelled from the spec: `DataSet_integer` (its header is not among the
translated sources) as used for a per-bond series: `Resize(n)` gives `n` zeros. -/
def seriesResize (n : Nat) : List Int := List.replicate n 0

/-- Modelled from the spec: `(*data_)[frameNum] = 1` on a `DataSet_integer`. -/
def seriesSet (frameNum : Nat) (data : List Int) : List Int := data.set frameNum 1

/-- The record `Action_Hbond::HbondType` with the fields the code reads and writes (the
declaration is in `Action_Hbond.h`). `data_` is `none` when no series is
recorded. -/
structure HbondType where
  A : Int
  H : Int
  D : Int
  Frames : Int
  dist : ℚ
  angle : ℚ
  data_ : Option (List Int)
deriving DecidableEq, Repr

/-- The registry type `HBmapType`, a `std::map<int, HbondType>`. -/
abbrev HBmapType := List (Int × HbondType)

/-- Modelled from the spec: `BridgeType` is declared in `Action_Hbond.h`, which
is not among the translated sources; the code inserts
`std::pair<std::set<int>,int>` into it, so it is a `std::map` from
`std::set<int>` to `int`, with the keys compared by full membership (the
default order of `std::set<int>`, lexicographic on the sorted members). -/
abbrev BridgeType := List (List Int × Int)

/-- The geometry primitives of `currentFrame` that the action calls. -/
structure Frame where
  DIST2 : Int → Int → ℚ
  ANGLE : Int → Int → Int → ℚ

/-- The collaborators that stay fixed over a run: `sqrt`, the residue and
molecule number of an atom in `currentParm`, `DSL->MaxFrames()`, and the value
held by the local `angle` of `AtomsAreHbonded` when it is read without having
been assigned (degenerate donor). -/
structure World where
  sqrt : ℚ → ℚ
  ResNum : Int → Int
  Mol : Int → Int
  MaxFrames : Nat
  angleUnset : ℚ

/-- The class `AtomMask` as far as `setup()` uses it: the mask expression and
the array `Selected_` of selected atom numbers, in selection order. -/
structure AtomMask where
  maskString : String := ""
  Selected_ : List Int := []
deriving DecidableEq, Repr

/-- The members of `Action_Hbond` read or written by `setup()`, `action()` and
`print()`. The three `Num*_` data sets are the lists of `(frameNum, value)`
handed to `Add`. -/
structure Action_Hbond where
  Nframes_ : Int
  hasSolventDonor_ : Bool
  hasSolventAcceptor_ : Bool
  calcSolvent_ : Bool
  acut_ : ℚ
  dcut2_ : ℚ
  series_ : Bool
  Donor_ : List Int
  Acceptor_ : List Int
  SolventDonor_ : List Int
  SolventAcceptor_ : List Int
  HbondMap_ : HBmapType
  SolventMap_ : HBmapType
  BridgeMap_ : BridgeType
  NumHbonds_ : List (Nat × Int)
  NumSolvent_ : List (Nat × Int)
  NumBridge_ : List (Nat × Int)
  hasDonorMask_ : Bool := false
  hasAcceptorMask_ : Bool := false
  avgout_ : String := ""
  solvout_ : String := ""
  bridgeout_ : String := ""
  Mask_ : AtomMask := {}
  DonorMask_ : AtomMask := {}
  AcceptorMask_ : AtomMask := {}
  SolventDonorMask_ : AtomMask := {}
  SolventAcceptorMask_ : AtomMask := {}

/-! ## `Action_Hbond::action`, solute-solute sweep -/

/-- The entry written by the `New Hbond` branch of the solute-solute sweep. -/
def newSoluteHB (w : World) (series : Bool) (frameNum : Nat)
    (accept D H : Int) (dist angle : ℚ) : HbondType :=
  { A := accept, H := H, D := D, Frames := 1, dist := dist, angle := angle,
    data_ := if series then some (seriesSet frameNum (seriesResize w.MaxFrames)) else none }

/-- The `else` branch shared by both registries: one more frame for an entry
that exists. -/
def bumpHB (series : Bool) (frameNum : Nat) (dist angle : ℚ) (hb : HbondType) : HbondType :=
  { hb with
    Frames := hb.Frames + 1, dist := hb.dist + dist, angle := hb.angle + angle,
    data_ := if series then hb.data_.map (seriesSet frameNum) else hb.data_ }

/-- Body of the inner loop of the solute-solute sweep for donor pair `(D, H)`,
acceptor `accept` and running index `hbidx`; the state is `(HbondMap_, numHB)`.
Each `continue` of the source returns the state as it is. -/
def soluteCandidate (w : World) (s : Action_Hbond) (frame : Frame) (frameNum : Nat)
    (D H accept hbidx : Int) (st : HBmapType × Int) : HBmapType × Int :=
  if accept = D then st
  else
    let dist2 := frame.DIST2 accept D
    if dist2 > s.dcut2_ then st
    else
      let angle := frame.ANGLE accept H D
      if angle < s.acut_ then st
      else
        let numHB := st.2 + 1
        let dist := w.sqrt dist2
        match mapFind hbidx st.1 with
        | none =>
          (mapInsert hbidx (newSoluteHB w s.series_ frameNum accept D H dist angle) st.1, numHB)
        | some _ => (mapModify hbidx (bumpHB s.series_ frameNum dist angle) st.1, numHB)

/-- Inner loop over `Acceptor_`; `++accept, ++hbidx` runs after every body,
also after a `continue`. Returns the state and the value of `hbidx` at exit. -/
def soluteAcceptorLoop (w : World) (s : Action_Hbond) (frame : Frame) (frameNum : Nat)
    (D H : Int) : List Int → Int → HBmapType × Int → (HBmapType × Int) × Int
  | [], hbidx, st => (st, hbidx)
  | accept :: rest, hbidx, st =>
    soluteAcceptorLoop w s frame frameNum D H rest (hbidx + 1)
      (soluteCandidate w s frame frameNum D H accept hbidx st)

/-- Outer loop over `Donor_`, read two entries at a time (`D`, then `H`).
`Donor_` is only ever filled two entries at a time; a single trailing entry,
for which the source would read past the end, ends the loop here. -/
def soluteDonorLoop (w : World) (s : Action_Hbond) (frame : Frame) (frameNum : Nat) :
    List Int → Int → HBmapType × Int → (HBmapType × Int) × Int
  | D :: H :: rest, hbidx, st =>
    let r := soluteAcceptorLoop w s frame frameNum D H s.Acceptor_ hbidx st
    soluteDonorLoop w s frame frameNum rest r.2 r.1
  | _, hbidx, st => (st, hbidx)

/-! ## `Action_Hbond::AtomsAreHbonded` and the solute-solvent sweeps -/

/-- The entry written by the `New Hbond` branch of `AtomsAreHbonded`. -/
def newSolventHB (w : World) (series : Bool) (frameNum : Nat)
    (a_atom d_atom h_atom : Int) (solutedonor : Bool) (dist angle : ℚ) : HbondType :=
  { A := if solutedonor then -1 else a_atom,
    H := if solutedonor then h_atom else -1,
    D := if solutedonor then d_atom else -1,
    Frames := 1, dist := dist, angle := angle,
    data_ := if series then some (seriesSet frameNum (seriesResize w.MaxFrames)) else none }

/-- The method `Action_Hbond::AtomsAreHbonded` on the registry `m` (the member
`SolventMap_`): the returned `int` and the new `SolventMap_`. -/
def AtomsAreHbonded (w : World) (s : Action_Hbond) (frame : Frame) (frameNum : Nat)
    (a_atom d_atom h_atom hbidx : Int) (solutedonor : Bool) (m : HBmapType) :
    Int × HBmapType :=
  if a_atom = d_atom then (0, m)
  else
    let dist2 := frame.DIST2 a_atom d_atom
    if dist2 > s.dcut2_ then (0, m)
    else
      let angle := if d_atom ≠ h_atom then frame.ANGLE a_atom h_atom d_atom else w.angleUnset
      if d_atom ≠ h_atom ∧ angle < s.acut_ then (0, m)
      else
        let dist := w.sqrt dist2
        match mapFind hbidx m with
        | none =>
          (1, mapInsert hbidx
                (newSolventHB w s.series_ frameNum a_atom d_atom h_atom solutedonor dist angle) m)
        | some _ => (1, mapModify hbidx (bumpHB s.series_ frameNum dist angle) m)

/-- The locals and the member changed by the solute-solvent sweeps. -/
structure SolventState where
  SolventMap_ : HBmapType
  numHB : Int
  solvent2solute : List (Int × List Int)
deriving DecidableEq, Repr

/-- The statement `solvent2solute[solventmol].insert( soluteres )`: `operator[]` creates an
empty set for a molecule not seen yet. -/
def touch (solventmol soluteres : Int) (m : List (Int × List Int)) : List (Int × List Int) :=
  match mapFind solventmol m with
  | none => mapModify solventmol (setInsert soluteres) (mapInsert solventmol [] m)
  | some _ => mapModify solventmol (setInsert soluteres) m

/-- Body of the inner loop of sweep (a): solute donor `(D, H)`, solvent
acceptor `accept`. -/
def solventAcceptorCandidate (w : World) (s : Action_Hbond) (frame : Frame) (frameNum : Nat)
    (D H accept : Int) (st : SolventState) : SolventState :=
  let r := AtomsAreHbonded w s frame frameNum accept D H H true st.SolventMap_
  if r.1 ≠ 0 then
    { SolventMap_ := r.2, numHB := st.numHB + 1,
      solvent2solute := touch (w.Mol accept) (w.ResNum D) st.solvent2solute }
  else { st with SolventMap_ := r.2 }

/-- Body of the inner loop of sweep (b): solvent donor `(D, H)`, solute
acceptor `accept`. -/
def soluteAcceptorCandidate (w : World) (s : Action_Hbond) (frame : Frame) (frameNum : Nat)
    (D H accept : Int) (st : SolventState) : SolventState :=
  let r := AtomsAreHbonded w s frame frameNum accept D H accept false st.SolventMap_
  if r.1 ≠ 0 then
    { SolventMap_ := r.2, numHB := st.numHB + 1,
      solvent2solute := touch (w.Mol D) (w.ResNum accept) st.solvent2solute }
  else { st with SolventMap_ := r.2 }

/-- Sweep (a): `Donor_` in pairs against `SolventAcceptor_`. -/
def solventAcceptorSweep (w : World) (s : Action_Hbond) (frame : Frame) (frameNum : Nat) :
    List Int → SolventState → SolventState
  | D :: H :: rest, st =>
    solventAcceptorSweep w s frame frameNum rest
      (s.SolventAcceptor_.foldl
        (fun st accept => solventAcceptorCandidate w s frame frameNum D H accept st) st)
  | _, st => st

/-- Sweep (b): `SolventDonor_` in pairs against `Acceptor_`. -/
def solventDonorSweep (w : World) (s : Action_Hbond) (frame : Frame) (frameNum : Nat) :
    List Int → SolventState → SolventState
  | D :: H :: rest, st =>
    solventDonorSweep w s frame frameNum rest
      (s.Acceptor_.foldl
        (fun st accept => soluteAcceptorCandidate w s frame frameNum D H accept st) st)
  | _, st => st

/-- The update of `BridgeMap_` for one bridging residue set: `find`, then
insert with count 1 (`New Bridge`) or increment. -/
def bridgeRecord (residues : List Int) (bm : BridgeType) : BridgeType :=
  match mapFind residues bm with
  | none => mapInsert residues 1 bm
  | some _ => mapModify residues (· + 1) bm

/-- The loop over `solvent2solute` that counts bridging solvent molecules and
updates `BridgeMap_`; the state is `(BridgeMap_, numHB)`. -/
def bridgeLoop : List (Int × List Int) → BridgeType × Int → BridgeType × Int
  | [], st => st
  | bridge :: rest, st =>
    if bridge.2.length > 1 then bridgeLoop rest (bridgeRecord bridge.2 st.1, st.2 + 1)
    else bridgeLoop rest st

/-- The two solvent sweeps of one frame, from `numHB = 0` each and an empty
`solvent2solute`; returns the final sweep state and `solventHbonds`. -/
def solventSweeps (w : World) (s : Action_Hbond) (frame : Frame) (frameNum : Nat) :
    SolventState × Int :=
  let st0 : SolventState := { SolventMap_ := s.SolventMap_, numHB := 0, solvent2solute := [] }
  let ra : SolventState × Int :=
    if s.hasSolventAcceptor_ then
      let st := solventAcceptorSweep w s frame frameNum s.Donor_ { st0 with numHB := 0 }
      (st, 0 + st.numHB)
    else (st0, 0)
  if s.hasSolventDonor_ then
    let st := solventDonorSweep w s frame frameNum s.SolventDonor_ { ra.1 with numHB := 0 }
    (st, ra.2 + st.numHB)
  else ra

/-- The method `Action_Hbond::action` for the frame `frame` with number `frameNum`
(the returned `int` is always 0 and is left out). -/
def action (w : World) (frame : Frame) (frameNum : Nat) (s : Action_Hbond) : Action_Hbond :=
  let r := soluteDonorLoop w s frame frameNum s.Donor_ 0 (s.HbondMap_, 0)
  let s1 : Action_Hbond :=
    { s with HbondMap_ := r.1.1, NumHbonds_ := s.NumHbonds_ ++ [(frameNum, r.1.2)] }
  let s2 : Action_Hbond :=
    if s1.calcSolvent_ then
      let sv := solventSweeps w s1 frame frameNum
      let b := bridgeLoop sv.1.solvent2solute (s1.BridgeMap_, 0)
      { s1 with
        SolventMap_ := sv.1.SolventMap_,
        NumSolvent_ := s1.NumSolvent_ ++ [(frameNum, sv.2)],
        BridgeMap_ := b.1,
        NumBridge_ := s1.NumBridge_ ++ [(frameNum, b.2)] }
    else s1
  { s2 with Nframes_ := s2.Nframes_ + 1 }

/-- Modelled from the spec: the trajectory driver (not among the translated
sources) calls the evaluation step once per frame, with strictly increasing frame
numbers starting at `n`. -/
def runFrames (w : World) : Nat → List Frame → Action_Hbond → Action_Hbond
  | _, [], s => s
  | n, f :: fs, s => runFrames w (n + 1) fs (action w f n s)


/-! ## `Action_Hbond::SearchAcceptor`, `SearchDonor` and `setup` -/

/-- Modelled from the spec: the element kinds of `Atom::AtomicElementType`
(declared in `Atom.h`, not among the translated sources) that the searches tell
apart; every other element is `OTHER`. -/
inductive AtomicElementType where
  | HYDROGEN
  | FLUORINE
  | OXYGEN
  | NITROGEN
  | OTHER
deriving DecidableEq, Repr

/-- Modelled from the spec: an `Atom` of the topology (class declared in
`Atom.h`, not among the translated sources): its element and the atoms bonded
to it, in the order of `bondbegin()` .. `bondend()`. -/
structure Atom where
  Element : AtomicElementType
  bonds : List Int
deriving DecidableEq, Repr

/-- Modelled from the spec: `Atom::Nbonds()`, the number of bonded atoms. -/
def Atom.Nbonds (a : Atom) : Nat := a.bonds.length

/-- The topology `currentParm` as `setup()` uses it: `(*currentParm)[atom]` and
the mask evaluator `SetupIntegerMask`, which yields the selected atoms of a mask
expression or fails (`none`). -/
structure Topology where
  atom : Int → Atom
  SetupIntegerMask : String → Option (List Int)

/-- Modelled from the spec: `AtomMask::None()`, true when no atom is selected. -/
def AtomMask.None (m : AtomMask) : Bool := m.Selected_.isEmpty

/-- The call `currentParm->SetupIntegerMask( mask )`: the returned `int` and
the mask afterwards (left as it was when the call fails). -/
def setupMask (parm : Topology) (m : AtomMask) : Int × AtomMask :=
  match parm.SetupIntegerMask m.maskString with
  | some sel => (0, { m with Selected_ := sel })
  | none => (1, m)

/-- The element test `F`, `O` or `N` of both searches. -/
def isFON (parm : Topology) (atom : Int) : Bool :=
  decide ((parm.atom atom).Element = AtomicElementType.FLUORINE) ||
  decide ((parm.atom atom).Element = AtomicElementType.OXYGEN) ||
  decide ((parm.atom atom).Element = AtomicElementType.NITROGEN)

/-- Body of the loop of `SearchAcceptor` for one mask atom. -/
def searchAcceptorAtom (parm : Topology) (Auto : Bool) (alist : List Int) (atom : Int) :
    List Int :=
  let isAcceptor := if Auto then (if isFON parm atom then true else false) else true
  if isAcceptor then alist ++ [atom] else alist

/-- The method `Action_Hbond::SearchAcceptor`: `alist` after the call. -/
def SearchAcceptor (parm : Topology) (alist : List Int) (amask : AtomMask) (Auto : Bool) :
    List Int :=
  amask.Selected_.foldl (searchAcceptorAtom parm Auto) alist

/-- The loop of `SearchDonor` over the atoms bonded to `donoratom`: every
bonded hydrogen pushes `donoratom` and the hydrogen. -/
def searchDonorBonds (parm : Topology) (donoratom : Int) : List Int → List Int → List Int
  | [], dlist => dlist
  | batom :: rest, dlist =>
    if (parm.atom batom).Element = AtomicElementType.HYDROGEN then
      searchDonorBonds parm donoratom rest (dlist ++ [donoratom, batom])
    else searchDonorBonds parm donoratom rest dlist

/-- Body of the outer loop of `SearchDonor` for one mask atom. -/
def searchDonorAtom (parm : Topology) (Auto : Bool) (dlist : List Int) (donoratom : Int) :
    List Int :=
  if (parm.atom donoratom).Element = AtomicElementType.HYDROGEN then dlist
  else
    let isDonor := if Auto then (if isFON parm donoratom then true else false) else true
    if isDonor then
      if !Auto && decide ((parm.atom donoratom).Nbonds = 0) then
        dlist ++ [donoratom, donoratom]
      else searchDonorBonds parm donoratom (parm.atom donoratom).bonds dlist
    else dlist

/-- The method `Action_Hbond::SearchDonor`: `dlist` after the call. -/
def SearchDonor (parm : Topology) (dlist : List Int) (dmask : AtomMask) (Auto : Bool) :
    List Int :=
  dmask.Selected_.foldl (searchDonorAtom parm Auto) dlist

/-- One of the five mask blocks at the head of `setup()`: when the mask is in
use, set it up and fail on an error or on an empty selection. Returns 1 where
the source returns 1, and the mask afterwards. -/
def setupOneMask (parm : Topology) (inUse : Bool) (m : AtomMask) : Int × AtomMask :=
  if inUse then
    let r := setupMask parm m
    if r.1 ≠ 0 then (1, r.2)
    else if r.2.None then (1, r.2)
    else (0, r.2)
  else (0, m)

/-- The part of `setup()` after the mask blocks: clear and fill the solute
lists according to the four cases, then the solvent lists. -/
def setupLists (parm : Topology) (s : Action_Hbond) : Action_Hbond :=
  let s0 : Action_Hbond := { s with Acceptor_ := [], Donor_ := [] }
  let s1 : Action_Hbond :=
    if !s0.hasDonorMask_ && !s0.hasAcceptorMask_ then
      { s0 with
        Acceptor_ := SearchAcceptor parm s0.Acceptor_ s0.Mask_ true,
        Donor_ := SearchDonor parm s0.Donor_ s0.Mask_ true }
    else if s0.hasDonorMask_ && !s0.hasAcceptorMask_ then
      { s0 with
        Acceptor_ := SearchAcceptor parm s0.Acceptor_ s0.Mask_ true,
        Donor_ := SearchDonor parm s0.Donor_ s0.DonorMask_ false }
    else if !s0.hasDonorMask_ && s0.hasAcceptorMask_ then
      { s0 with
        Acceptor_ := SearchAcceptor parm s0.Acceptor_ s0.AcceptorMask_ false,
        Donor_ := SearchDonor parm s0.Donor_ s0.Mask_ true }
    else
      { s0 with
        Acceptor_ := SearchAcceptor parm s0.Acceptor_ s0.AcceptorMask_ false,
        Donor_ := SearchDonor parm s0.Donor_ s0.DonorMask_ false }
  let s2 : Action_Hbond :=
    if s1.hasSolventAcceptor_ then
      { s1 with SolventAcceptor_ := SearchAcceptor parm [] s1.SolventAcceptorMask_ false }
    else s1
  if s2.hasSolventDonor_ then
    { s2 with SolventDonor_ := SearchDonor parm [] s2.SolventDonorMask_ false }
  else s2

/-- The method `Action_Hbond::setup`: the returned `int` and the instance
afterwards. -/
def setup (parm : Topology) (s : Action_Hbond) : Int × Action_Hbond :=
  let g := setupOneMask parm (!s.hasDonorMask_ || !s.hasAcceptorMask_) s.Mask_
  let s1 : Action_Hbond := { s with Mask_ := g.2 }
  if g.1 ≠ 0 then (1, s1)
  else
    let d := setupOneMask parm s1.hasDonorMask_ s1.DonorMask_
    let s2 : Action_Hbond := { s1 with DonorMask_ := d.2 }
    if d.1 ≠ 0 then (1, s2)
    else
      let a := setupOneMask parm s2.hasAcceptorMask_ s2.AcceptorMask_
      let s3 : Action_Hbond := { s2 with AcceptorMask_ := a.2 }
      if a.1 ≠ 0 then (1, s3)
      else
        let sd := setupOneMask parm s3.hasSolventDonor_ s3.SolventDonorMask_
        let s4 : Action_Hbond := { s3 with SolventDonorMask_ := sd.2 }
        if sd.1 ≠ 0 then (1, s4)
        else
          let sa := setupOneMask parm s4.hasSolventAcceptor_ s4.SolventAcceptorMask_
          let s5 : Action_Hbond := { s4 with SolventAcceptorMask_ := sa.2 }
          if sa.1 ≠ 0 then (1, s5)
          else (0, setupLists parm s5)

/-! ## `Action_Hbond::print` -/

/-- The lines `print()` writes, with their fields before formatting (column
widths and number formats are left out). -/
inductive OutLine where
  | soluteHeader
  | solventTitle
  | solventHeader
  | hbond (Aname Hname Dname : String) (Frames : Int) (avg dist angle : ℚ)
  | bridgeTitle
  | bridge (residues : List (Int × String)) (frames : Int)
deriving DecidableEq, Repr

/-- The content of every output file, by name. -/
abbrev Files := String → List OutLine

/-- The collaborators of `print()`: `currentParm->ResAtomName`,
`currentParm->Res`, the constant `RADDEG` of `Constants.h`, whether a file of a
given name can be opened (`OpenWrite` and `OpenAppend` return 0), the
comparator `hbond_cmp` of the header `Action_Hbond.h` (`hbond_cmp a b` reads
"record `a` goes before record `b`"), and the routine `sort` of `<algorithm>`,
which takes a comparator and the range to sort. -/
structure PrintEnv where
  ResAtomName : Int → String
  Res : Int → String
  RADDEG : ℚ
  canOpen : String → Bool
  hbond_cmp : HbondType → HbondType → Bool
  sort : (HbondType → HbondType → Bool) → List HbondType → List HbondType

/-- What a file holds after `OpenWrite` (the old content is dropped) or
`OpenAppend` (it is kept), the `Printf` calls `lines`, and `CloseFile`. -/
def fileWrite (append : Bool) (fs : Files) (name : String) (lines : List OutLine) : Files :=
  fun n => if n = name then (if append then fs n ++ lines else lines) else fs n

/-- The call `sort( HbondList.begin(), HbondList.end(), hbond_cmp() )`: the
library routine applied to the copied records with the comparator of the
header. Neither is part of the translated sources, so both come from `env`;
the records reach the sort without their registry keys. -/
def hbondSort (env : PrintEnv) (l : List HbondType) : List HbondType :=
  env.sort env.hbond_cmp l

/-- The row of the solute-solute report for one record. -/
def soluteLine (env : PrintEnv) (s : Action_Hbond) (hbond : HbondType) : OutLine :=
  let avg : ℚ := (hbond.Frames : ℚ) / (s.Nframes_ : ℚ)
  let dist : ℚ := hbond.dist / (hbond.Frames : ℚ)
  let angle : ℚ := hbond.angle / (hbond.Frames : ℚ) * env.RADDEG
  OutLine.hbond (env.ResAtomName hbond.A) (env.ResAtomName hbond.H) (env.ResAtomName hbond.D)
    hbond.Frames avg dist angle

/-- The row of the solute-solvent report for one record. -/
def solventLine (env : PrintEnv) (s : Action_Hbond) (hbond : HbondType) : OutLine :=
  let avg : ℚ := (hbond.Frames : ℚ) / (s.Nframes_ : ℚ)
  let dist : ℚ := hbond.dist / (hbond.Frames : ℚ)
  let angle : ℚ := hbond.angle / (hbond.Frames : ℚ) * env.RADDEG
  let Aname := if hbond.A = -1 then "SolventAcc" else env.ResAtomName hbond.A
  let Dname := if hbond.D = -1 then "SolventDnr" else env.ResAtomName hbond.D
  let Hname := if hbond.D = -1 then "SolventH  " else env.ResAtomName hbond.H
  OutLine.hbond Aname Hname Dname hbond.Frames avg dist angle

/-- The row of the bridging report for one entry of `BridgeMap_`. -/
def bridgeLine (env : PrintEnv) (it : List Int × Int) : OutLine :=
  OutLine.bridge (it.1.map fun res => (res + 1, env.Res res)) it.2

/-- The block `Solute Hbonds` of `print()`; `none` stands for its `return`. -/
def printSolute (env : PrintEnv) (s : Action_Hbond) (fs : Files) :
    Option (Action_Hbond × Files) :=
  if s.avgout_ ≠ "" then
    if env.canOpen s.avgout_ then
      let HbondList := hbondSort env (s.HbondMap_.map Prod.snd)
      some ({ s with HbondMap_ := [] },
        fileWrite false fs s.avgout_ (OutLine.soluteHeader :: HbondList.map (soluteLine env s)))
    else none
  else some (s, fs)

/-- The block `Solute-solvent Hbonds` of `print()`; `none` stands for its
`return`. -/
def printSolvent (env : PrintEnv) (s : Action_Hbond) (fs : Files) :
    Option (Action_Hbond × Files) :=
  if s.solvout_ ≠ "" ∧ s.calcSolvent_ = true then
    if env.canOpen s.solvout_ then
      let HbondList := hbondSort env (s.SolventMap_.map Prod.snd)
      some ({ s with SolventMap_ := [] },
        fileWrite (decide (s.solvout_ = s.avgout_)) fs s.solvout_
          (OutLine.solventTitle :: OutLine.solventHeader :: HbondList.map (solventLine env s)))
    else none
  else some (s, fs)

/-- The block `BRIDGING INFO` of `print()`; `none` stands for its `return`. -/
def printBridge (env : PrintEnv) (s : Action_Hbond) (fs : Files) :
    Option (Action_Hbond × Files) :=
  if s.bridgeout_ ≠ "" ∧ s.calcSolvent_ = true then
    if env.canOpen s.bridgeout_ then
      some (s,
        fileWrite (decide (s.bridgeout_ = s.avgout_) || decide (s.bridgeout_ = s.solvout_)) fs
          s.bridgeout_ (OutLine.bridgeTitle :: s.BridgeMap_.map (bridgeLine env)))
    else none
  else some (s, fs)

/-- The method `Action_Hbond::print`: the instance and the files afterwards.
A `return` after a failed open leaves both as they are at that point. -/
def print (env : PrintEnv) (s : Action_Hbond) (fs : Files) : Action_Hbond × Files :=
  match printSolute env s fs with
  | none => (s, fs)
  | some r1 =>
    match printSolvent env r1.1 r1.2 with
    | none => r1
    | some r2 =>
      match printBridge env r2.1 r2.2 with
      | none => r2
      | some r3 => r3


/-! ## `Action_Diffusion::action`, distance travelled by the selected atoms -/

/-- What `Action_Diffusion` keeps for one selected atom: the entries of
`previousx_`, `previousy_`, `previousz_` (coordinates in the previous frame), of
`deltax_`, `deltay_`, `deltaz_` (the accumulated unwrapping corrections) and of
`distancex_`, `distancey_`, `distancez_`, `distance_` at the atom's position. -/
structure DiffusionAtom where
  px : ℚ
  py : ℚ
  pz : ℚ
  dx : ℚ
  dy : ℚ
  dz : ℚ
  distx : ℚ
  disty : ℚ
  distz : ℚ
  dist : ℚ
deriving DecidableEq, Repr

/-- The statement `if (hasBox_) { if ... else if ... }` of the atom loop of
`Action_Diffusion::action`: the corrections `(*dx, *dy, *dz)` afterwards, for the
displacements `delx`, `dely`, `delz` since the previous frame. -/
def unwrapCorrection (hasBox_ : Bool) (boxcrd boxcenter : ℚ × ℚ × ℚ) (delx dely delz : ℚ)
    (d : ℚ × ℚ × ℚ) : ℚ × ℚ × ℚ :=
  if hasBox_ then
    if delx > boxcenter.1 then (d.1 - boxcrd.1, d.2.1, d.2.2)
    else if delx < -boxcenter.1 then (d.1 + boxcrd.1, d.2.1, d.2.2)
    else if dely > boxcenter.2.1 then (d.1, d.2.1 - boxcrd.2.1, d.2.2)
    else if dely < -boxcenter.2.1 then (d.1, d.2.1 + boxcrd.2.1, d.2.2)
    else if delz > boxcenter.2.2 then (d.1, d.2.1, d.2.2 - boxcrd.2.2)
    else if delz < -boxcenter.2.2 then (d.1, d.2.1, d.2.2 + boxcrd.2.2)
    else d
  else d

/-- The body of the atom loop of `Action_Diffusion::action` (the `else` branch,
an initial frame being set) for one selected atom: `XYZ` are its coordinates in
the current frame, `iXYZ` those in the initial frame, `boxcrd` the box lengths
of the current frame. -/
def diffusionAtomStep (hasBox_ : Bool) (boxcrd XYZ iXYZ : ℚ × ℚ × ℚ) (a : DiffusionAtom) :
    DiffusionAtom :=
  let boxcenter : ℚ × ℚ × ℚ := (boxcrd.1 / 2, boxcrd.2.1 / 2, boxcrd.2.2 / 2)
  let delx := XYZ.1 - a.px
  let dely := XYZ.2.1 - a.py
  let delz := XYZ.2.2 - a.pz
  let d := unwrapCorrection hasBox_ boxcrd boxcenter delx dely delz (a.dx, a.dy, a.dz)
  let xx := XYZ.1 + d.1
  let yy := XYZ.2.1 + d.2.1
  let zz := XYZ.2.2 + d.2.2
  let delx := xx - iXYZ.1
  let dely := yy - iXYZ.2.1
  let delz := zz - iXYZ.2.2
  { px := XYZ.1, py := XYZ.2.1, pz := XYZ.2.2,
    dx := d.1, dy := d.2.1, dz := d.2.2,
    distx := delx * delx, disty := dely * dely, distz := delz * delz,
    dist := delx * delx + dely * dely + delz * delz }

/-! ## `PDBfile`, field parsers -/

/-- The library routines the field parsers call on a C string: `atoi`, `atof`
and the constructor of `NameType` (declared outside `PDBfile.cpp`). -/
structure PdbEnv where
  atoi : List Char → Int
  atof : List Char → ℚ
  NameType : List Char → String

/-- The members of `PDBfile` the field parsers use: the record buffer
`buffer_` (a `char` array of `BUF_SIZE_` entries, declared in `PDBfile.h`) and
`XYZ_`. -/
structure PDBfile where
  buffer_ : List Char
  XYZ_ : ℚ × ℚ × ℚ
deriving DecidableEq, Repr

/-- The C string that starts at `buffer + off`: the characters up to the first
terminator. -/
def cString (buffer : List Char) (off : Nat) : List Char :=
  (buffer.drop off).takeWhile fun c => c != Char.ofNat 0

/-- The four statements every field is read with: save `buffer_[stop]`, put a
terminator there, read the C string at `buffer_ + off`, put the saved
character back. Returns the string read and the buffer afterwards. -/
def readField (buffer : List Char) (off stop : Nat) : List Char × List Char :=
  let savechar := buffer.getD stop (Char.ofNat 0)
  let b1 := buffer.set stop (Char.ofNat 0)
  let field := cString b1 off
  (field, b1.set stop savechar)

/-- The method `PDBfile::pdb_Atom`: atom number, atom name and coordinates of
the record (the arguments of the returned `Atom`), and the instance
afterwards. -/
def pdb_Atom (env : PdbEnv) (p : PDBfile) : (Int × String × (ℚ × ℚ × ℚ)) × PDBfile :=
  let r1 := readField p.buffer_ 6 11
  let anum := env.atoi r1.1
  let r2 := readField r1.2 12 16
  let aname := env.NameType r2.1
  let r3 := readField r2.2 30 38
  let x := env.atof r3.1
  let r4 := readField r3.2 38 46
  let y := env.atof r4.1
  let r5 := readField r4.2 46 54
  let z := env.atof r5.1
  ((anum, aname, (x, y, z)), { buffer_ := r5.2, XYZ_ := (x, y, z) })

/-- The method `PDBfile::pdb_Residue`: residue number and residue name of the
record (the arguments of the returned `Residue`), and the instance
afterwards. -/
def pdb_Residue (env : PdbEnv) (p : PDBfile) : (Int × String) × PDBfile :=
  let r1 := readField p.buffer_ 16 20
  let resname := env.NameType r1.1
  let r2 := readField r1.2 22 27
  let resnum := env.atoi r2.1
  ((resnum, resname), { p with buffer_ := r2.2 })

/-- The method `PDBfile::pdb_XYZ`: the three values written to `Xout`, and the
instance afterwards. -/
def pdb_XYZ (env : PdbEnv) (p : PDBfile) : (ℚ × ℚ × ℚ) × PDBfile :=
  let r3 := readField p.buffer_ 30 38
  let x := env.atof r3.1
  let r4 := readField r3.2 38 46
  let y := env.atof r4.1
  let r5 := readField r4.2 46 54
  let z := env.atof r5.1
  ((x, y, z), { p with buffer_ := r5.2 })


/-! ## Definitions used to state the properties -/

/-- A donor list given as pairs, laid out as `Donor_` stores it: `D`, `H`,
`D`, `H`, ... -/
def flatDonors (donors : List (Int × Int)) : List Int :=
  donors.flatMap fun p => [p.1, p.2]

/-- The candidates `(D, H, accept, key)` of the solute-solute sweep in
enumeration order, donor pair `i` and acceptor `j` carrying the key
`i * acceptorCount + j`. -/
def soluteSlots (donors : List (Int × Int)) (acceptors : List Int) :
    List (Int × Int × Int × Int) :=
  donors.enum.flatMap fun d =>
    acceptors.enum.map fun a =>
      (d.2.1, d.2.2, a.2, (d.1 : Int) * (acceptors.length : Int) + (a.1 : Int))

/-- The loop body applied to a candidate of `soluteSlots`. -/
def soluteSlotStep (w : World) (s : Action_Hbond) (frame : Frame) (frameNum : Nat)
    (st : HBmapType × Int) (c : Int × Int × Int × Int) : HBmapType × Int :=
  soluteCandidate w s frame frameNum c.1 c.2.1 c.2.2.1 c.2.2.2 st

/-- The test a solute-solute candidate has to pass in a frame, as the sweep
performs it: acceptor different from the donor heavy atom, squared distance not
above the squared cutoff, angle not below the angle cutoff. -/
def soluteAccepts (dcut2 acut : ℚ) (f : Frame) (D H A : Int) : Prop :=
  A ≠ D ∧ f.DIST2 A D ≤ dcut2 ∧ acut ≤ f.ANGLE A H D

instance soluteAcceptsDecidable (dcut2 acut : ℚ) (f : Frame) (D H A : Int) :
    Decidable (soluteAccepts dcut2 acut f D H A) := by
  unfold soluteAccepts; infer_instance

/-- The record of a solute-solute candidate after a frame in which it passed,
given what the registry held for it before (`none`: nothing). -/
def soluteRecord (w : World) (series : Bool) (f : Frame) (frameNum : Nat) (D H A : Int) :
    Option HbondType → HbondType
  | none => newSoluteHB w series frameNum A D H (w.sqrt (f.DIST2 A D)) (f.ANGLE A H D)
  | some hb => bumpHB series frameNum (w.sqrt (f.DIST2 A D)) (f.ANGLE A H D) hb

/-- The test of `AtomsAreHbonded`: as `soluteAccepts`, the angle being looked at
only for a donor pair with `d_atom ≠ h_atom`. -/
def solventAccepts (dcut2 acut : ℚ) (f : Frame) (a_atom d_atom h_atom : Int) : Prop :=
  a_atom ≠ d_atom ∧ f.DIST2 a_atom d_atom ≤ dcut2 ∧
    (d_atom ≠ h_atom → acut ≤ f.ANGLE a_atom h_atom d_atom)

instance solventAcceptsDecidable (dcut2 acut : ℚ) (f : Frame) (a_atom d_atom h_atom : Int) :
    Decidable (solventAccepts dcut2 acut f a_atom d_atom h_atom) := by
  unfold solventAccepts; infer_instance

/-- The record `AtomsAreHbonded` leaves under its key after accepting, given
what the registry held under that key before. -/
def solventRecord (w : World) (series : Bool) (f : Frame) (frameNum : Nat)
    (a_atom d_atom h_atom : Int) (solutedonor : Bool) : Option HbondType → HbondType
  | none =>
    newSolventHB w series frameNum a_atom d_atom h_atom solutedonor
      (w.sqrt (f.DIST2 a_atom d_atom))
      (if d_atom ≠ h_atom then f.ANGLE a_atom h_atom d_atom else w.angleUnset)
  | some hb =>
    bumpHB series frameNum (w.sqrt (f.DIST2 a_atom d_atom))
      (if d_atom ≠ h_atom then f.ANGLE a_atom h_atom d_atom else w.angleUnset) hb

/-- The frames of a run, numbered from `n`, in which the candidate `(D, H, A)`
passes `soluteAccepts`, each with its frame number. -/
def passedFrames (dcut2 acut : ℚ) (D H A : Int) : Nat → List Frame → List (Nat × Frame)
  | _, [] => []
  | n, f :: fs =>
    if soluteAccepts dcut2 acut f D H A then (n, f) :: passedFrames dcut2 acut D H A (n + 1) fs
    else passedFrames dcut2 acut D H A (n + 1) fs

/-- What a registry entry becomes when the candidate `(D, H, A)` passes in the
numbered frames `ps`, one after the other. -/
def recordFold (w : World) (series : Bool) (D H A : Int) (ps : List (Nat × Frame))
    (o : Option HbondType) : Option HbondType :=
  ps.foldl (fun o p => some (soluteRecord w series p.2 p.1 D H A o)) o

/-- The 0/1 value of a frame in the series of the candidate `(D, H, A)`. -/
def passFlag (dcut2 acut : ℚ) (D H A : Int) (f : Frame) : Int :=
  if soluteAccepts dcut2 acut f D H A then 1 else 0

/-- The frames of `frames` in which the candidate `(D, H, A)` passes
`soluteAccepts`, in order. -/
def qualifyingFrames (dcut2 acut : ℚ) (D H A : Int) (frames : List Frame) : List Frame :=
  frames.filter fun f => decide (soluteAccepts dcut2 acut f D H A)

/-- The solvent contacts `(solvent molecule, solute residue)` of the candidates
accepted by sweep (a) in a frame: solute donor pairs against solvent acceptors. -/
def contactsA (w : World) (s : Action_Hbond) (f : Frame) (donors : List (Int × Int)) :
    List (Int × Int) :=
  donors.flatMap fun d =>
    (s.SolventAcceptor_.filter fun a =>
      decide (solventAccepts s.dcut2_ s.acut_ f a d.1 d.2)).map fun a => (w.Mol a, w.ResNum d.1)

/-- The solvent contacts of the candidates accepted by sweep (b) in a frame:
solvent donor pairs against solute acceptors. -/
def contactsB (w : World) (s : Action_Hbond) (f : Frame) (solventDonors : List (Int × Int)) :
    List (Int × Int) :=
  solventDonors.flatMap fun d =>
    (s.Acceptor_.filter fun a =>
      decide (solventAccepts s.dcut2_ s.acut_ f a d.1 d.2)).map fun a => (w.Mol d.1, w.ResNum a)

/-- The contacts of all solute-solvent candidates accepted in a frame, from the
sweeps that are switched on. -/
def frameContacts (w : World) (s : Action_Hbond) (f : Frame)
    (donors solventDonors : List (Int × Int)) : List (Int × Int) :=
  (if s.hasSolventAcceptor_ then contactsA w s f donors else []) ++
    (if s.hasSolventDonor_ then contactsB w s f solventDonors else [])

/-- The solvent molecules that touch at least two distinct solute residues
through the given contacts. -/
def bridgingMolecules (contacts : List (Int × Int)) : Finset Int :=
  (contacts.map Prod.fst).toFinset.filter fun M =>
    2 ≤ ((contacts.filter fun c => decide (c.1 = M)).map Prod.snd).toFinset.card

/-- A `std::set<int>` filled by inserting the members of `l` one after the other. -/
def residueSet (l : List Int) : List Int :=
  l.foldl (fun s x => setInsert x s) []

/-- The donor list read the way `action()` reads it: two entries at a time,
heavy atom then hydrogen. -/
def donorPairs : List Int → List (Int × Int)
  | D :: H :: rest => (D, H) :: donorPairs rest
  | _ => []

/-- The donor pairs of one candidate heavy atom in the words of the
specification: none for a hydrogen; none for a non-F/O/N atom when
auto-filtering; the degenerate pair when filtering is off and the atom has no
bonds; otherwise one pair per bonded hydrogen, in bond order. -/
def atomDonorPairs (parm : Topology) (Auto : Bool) (X : Int) : List (Int × Int) :=
  if (parm.atom X).Element = AtomicElementType.HYDROGEN then []
  else if Auto = true ∧ isFON parm X = false then []
  else if Auto = false ∧ (parm.atom X).Nbonds = 0 then [(X, X)]
  else
    ((parm.atom X).bonds.filter fun b =>
      decide ((parm.atom b).Element = AtomicElementType.HYDROGEN)).map fun b => (X, b)

/-- A line is a record row when it is the row of a hydrogen-bond record. -/
def OutLine.isRecord : OutLine → Bool
  | OutLine.hbond _ _ _ _ _ _ _ => true
  | _ => false

/-- The number of solute-solvent candidates one frame evaluates: donor pairs
times solvent acceptors for sweep (a), solvent donor pairs times acceptors for
sweep (b), each only when its sweep is switched on. -/
def solventCandidatesPerFrame (s : Action_Hbond) (donors solventDonors : List (Int × Int)) :
    Nat :=
  (if s.hasSolventAcceptor_ then donors.length * s.SolventAcceptor_.length else 0) +
    (if s.hasSolventDonor_ then solventDonors.length * s.Acceptor_.length else 0)

/-- The frame count a registry holds under a key, 0 when it holds nothing. -/
def framesUnder (k : Int) (m : HBmapType) : Int :=
  ((mapFind k m).map fun hb => hb.Frames).getD 0

/-- What at most `N` calls of `AtomsAreHbonded` can do to a registry `m`,
giving `m'`: keys stay in ascending order, frame counts stay at least 1, and
the frame count under any key grows by at most `N`. -/
def SolventGrowth (N : Nat) (m m' : HBmapType) : Prop :=
  ((m.map Prod.fst).Pairwise (· < ·) → (m'.map Prod.fst).Pairwise (· < ·)) ∧
  ((∀ k hb, mapFind k m = some hb → 1 ≤ hb.Frames) →
    ∀ k hb, mapFind k m' = some hb → 1 ≤ hb.Frames) ∧
  ∀ k, framesUnder k m' ≤ framesUnder k m + (N : Int)

/-- Whether `setup()` rejects a mask on the topology: the mask evaluator
reports an error, or the mask selects no atom. -/
def maskFails (parm : Topology) (m : AtomMask) : Bool :=
  match parm.SetupIntegerMask m.maskString with
  | some sel => sel.isEmpty
  | none => true

/-- The masks `setup()` evaluates: the generic mask unless both a donor mask
and an acceptor mask were given, and each of the four other masks when it was
given. -/
def usedMasks (s : Action_Hbond) : List AtomMask :=
  (if !s.hasDonorMask_ || !s.hasAcceptorMask_ then [s.Mask_] else []) ++
  (if s.hasDonorMask_ then [s.DonorMask_] else []) ++
  (if s.hasAcceptorMask_ then [s.AcceptorMask_] else []) ++
  (if s.hasSolventDonor_ then [s.SolventDonorMask_] else []) ++
  (if s.hasSolventAcceptor_ then [s.SolventAcceptorMask_] else [])

/-- The lines of the solute-solute report: the header and one row per record. -/
def soluteReport (env : PrintEnv) (s : Action_Hbond) : List OutLine :=
  OutLine.soluteHeader :: (hbondSort env (s.HbondMap_.map Prod.snd)).map (soluteLine env s)

/-- The lines of the solute-solvent report: title, header and one row per
record. -/
def solventReport (env : PrintEnv) (s : Action_Hbond) : List OutLine :=
  OutLine.solventTitle :: OutLine.solventHeader ::
    (hbondSort env (s.SolventMap_.map Prod.snd)).map (solventLine env s)

/-- The lines of the bridging report: the title and one row per entry. -/
def bridgeReport (env : PrintEnv) (s : Action_Hbond) : List OutLine :=
  OutLine.bridgeTitle :: s.BridgeMap_.map (bridgeLine env)

/-- The lines that the reports written by `print()` direct to the file `n`, in
the order solute-solute, solute-solvent, bridging. -/
def reportsFor (env : PrintEnv) (s : Action_Hbond) (n : String) : List OutLine :=
  (if s.avgout_ ≠ "" ∧ n = s.avgout_ then soluteReport env s else []) ++
  (if (s.solvout_ ≠ "" ∧ s.calcSolvent_ = true) ∧ n = s.solvout_ then solventReport env s
    else []) ++
  (if (s.bridgeout_ ≠ "" ∧ s.calcSolvent_ = true) ∧ n = s.bridgeout_ then bridgeReport env s
    else [])

/-- Whether `print()` writes a report to the file `n`. -/
def isDestination (s : Action_Hbond) (n : String) : Prop :=
  (s.avgout_ ≠ "" ∧ n = s.avgout_) ∨
  ((s.solvout_ ≠ "" ∧ s.calcSolvent_ = true) ∧ n = s.solvout_) ∨
  ((s.bridgeout_ ≠ "" ∧ s.calcSolvent_ = true) ∧ n = s.bridgeout_)

instance isDestinationDecidable (s : Action_Hbond) (n : String) :
    Decidable (isDestination s n) := by
  unfold isDestination; infer_instance

/-- A registry `m'` holds every key of `m`, each with a frame count that is not
smaller than in `m`. -/
def registryGrows (m m' : HBmapType) : Prop :=
  ∀ k hb, mapFind k m = some hb → ∃ hb', mapFind k m' = some hb' ∧ hb.Frames ≤ hb'.Frames

/-- A bridge table `b'` holds every residue set of `b`, each with a count that
is not smaller than in `b`. -/
def bridgeGrows (b b' : BridgeType) : Prop :=
  ∀ k c, mapFind k b = some c → ∃ c', mapFind k b' = some c' ∧ c ≤ c'


/-- The shape of a solute-solute record: acceptor, donor heavy atom and donor
hydrogen are all atom indices. -/
def soluteShape (hb : HbondType) : Prop := 0 ≤ hb.A ∧ 0 ≤ hb.D ∧ 0 ≤ hb.H

instance soluteShapeDecidable (hb : HbondType) : Decidable (soluteShape hb) := by
  unfold soluteShape; infer_instance

/-- The shape of a solute-solvent record: the solute side holds atom indices
and the solvent side the value -1, either the donor pair being solute
(`A = -1`) or the acceptor (`D = -1` and `H = -1`). -/
def solventShape (hb : HbondType) : Prop :=
  (hb.A = -1 ∧ 0 ≤ hb.D ∧ 0 ≤ hb.H) ∨ (0 ≤ hb.A ∧ hb.D = -1 ∧ hb.H = -1)

instance solventShapeDecidable (hb : HbondType) : Decidable (solventShape hb) := by
  unfold solventShape; infer_instance

/-- The number of slots of the solute-solute sweep whose candidate passes in
the frame. -/
def acceptedSolute (s : Action_Hbond) (f : Frame) (donors : List (Int × Int)) : Nat :=
  ((soluteSlots donors s.Acceptor_).filter fun c =>
    decide (soluteAccepts s.dcut2_ s.acut_ f c.1 c.2.1 c.2.2.1)).length

/-- The number of candidates of sweep (a), solute donor pair against solvent
acceptor, that are accepted in the frame. -/
def acceptedSweepA (s : Action_Hbond) (f : Frame) (donors : List (Int × Int)) : Nat :=
  (donors.flatMap fun d =>
    s.SolventAcceptor_.filter fun a => decide (solventAccepts s.dcut2_ s.acut_ f a d.1 d.2)).length

/-- The number of candidates of sweep (b), solvent donor pair against solute
acceptor, that are accepted in the frame. -/
def acceptedSweepB (s : Action_Hbond) (f : Frame) (solventDonors : List (Int × Int)) : Nat :=
  (solventDonors.flatMap fun d =>
    s.Acceptor_.filter fun a => decide (solventAccepts s.dcut2_ s.acut_ f a d.1 d.2)).length

/-- What `print()` relies on when it divides: the frame counter is not
negative, every record of both hydrogen-bond registries has a frame count of at
least 1, and the frame counter is at least 1 when a registry holds a record. -/
def registriesSound (s : Action_Hbond) : Prop :=
  0 ≤ s.Nframes_ ∧ (∀ e ∈ s.HbondMap_, 1 ≤ e.2.Frames) ∧
    (∀ e ∈ s.SolventMap_, 1 ≤ e.2.Frames) ∧
    ((s.HbondMap_ ≠ [] ∨ s.SolventMap_ ≠ []) → 1 ≤ s.Nframes_)

/-- The sum of the frame counts of all records of a registry. -/
def sumFrames (m : HBmapType) : Int := (m.map fun e => e.2.Frames).sum

/-- The sum of the values stored in a per-frame data set. -/
def sumValues (d : List (Nat × Int)) : Int := (d.map Prod.snd).sum

/-- The frame count a registry holds under a key, `none` when the key is not
in the registry. -/
def countUnder (k : Int) (m : HBmapType) : Option Int :=
  (mapFind k m).map fun hb => hb.Frames

/-- A count after `n` more increments: untouched for `n = 0`, otherwise the
old count (0 when there was none) plus `n`. -/
def addCount (c : Option Int) (n : Nat) : Option Int :=
  if n = 0 then c else some (c.getD 0 + (n : Int))

/-- The number of increments a frame gives to the solute-solute record under
key `k`: the slots with that key whose candidate passes. -/
def soluteInc (s : Action_Hbond) (donors : List (Int × Int)) (k : Int) (f : Frame) : Nat :=
  ((soluteSlots donors s.Acceptor_).filter fun c =>
    decide (k = c.2.2.2 ∧ soluteAccepts s.dcut2_ s.acut_ f c.1 c.2.1 c.2.2.1)).length

/-- The number of increments a frame gives to the solute-solvent record under
key `k`: the accepted candidates of sweep (a) whose donor hydrogen is `k` and
those of sweep (b) whose acceptor is `k`, for the sweeps that are switched on. -/
def solventInc (s : Action_Hbond) (donors solventDonors : List (Int × Int)) (k : Int)
    (f : Frame) : Nat :=
  if s.calcSolvent_ then
    (if s.hasSolventAcceptor_ then
      (donors.flatMap fun d => s.SolventAcceptor_.filter fun a =>
        decide (k = d.2 ∧ solventAccepts s.dcut2_ s.acut_ f a d.1 d.2)).length
    else 0) +
    (if s.hasSolventDonor_ then
      (solventDonors.flatMap fun d => s.Acceptor_.filter fun a =>
        decide (k = a ∧ solventAccepts s.dcut2_ s.acut_ f a d.1 d.2)).length
    else 0)
  else 0

/-- The number of increments a frame gives to the bridge entry of the residue
set `K`: the solvent molecules of the frame whose set of contacted residues is
`K` and has more than one member. -/
def bridgeInc (w : World) (s : Action_Hbond) (donors solventDonors : List (Int × Int))
    (K : List Int) (f : Frame) : Nat :=
  if s.calcSolvent_ then
    (((frameContacts w s f donors solventDonors).foldl (fun m c => touch c.1 c.2 m) []).filter
      fun e => decide (K = e.2 ∧ e.2.length > 1)).length
  else 0

/-- What the library guarantees of `sort` for the comparator of `env`, first
half: the sorted range is a rearrangement of the range handed in. -/
def sortPermutes (env : PrintEnv) : Prop :=
  ∀ l : List HbondType, (hbondSort env l).Perm l

/-- The instance and the files once the solute-solute block of `print()` is
through without a failed open: the report is written to `avgout_` and
`HbondMap_` cleared if the report is configured, nothing happens otherwise. -/
def afterSolute (env : PrintEnv) (s : Action_Hbond) (fs : Files) : Action_Hbond × Files :=
  if s.avgout_ ≠ "" then
    ({ s with HbondMap_ := [] }, fileWrite false fs s.avgout_ (soluteReport env s))
  else (s, fs)

/-- The instance and the files once the solute-solute and the solute-solvent
block of `print()` are through without a failed open. -/
def afterSolvent (env : PrintEnv) (s : Action_Hbond) (fs : Files) : Action_Hbond × Files :=
  if s.solvout_ ≠ "" ∧ s.calcSolvent_ = true then
    ({ (afterSolute env s fs).1 with SolventMap_ := [] },
      fileWrite (decide (s.solvout_ = s.avgout_)) (afterSolute env s fs).2 s.solvout_
        (solventReport env s))
  else afterSolute env s fs

/-- The instance and the files once the three blocks of `print()` are through
without a failed open. -/
def afterBridge (env : PrintEnv) (s : Action_Hbond) (fs : Files) : Action_Hbond × Files :=
  if s.bridgeout_ ≠ "" ∧ s.calcSolvent_ = true then
    ((afterSolvent env s fs).1,
      fileWrite (decide (s.bridgeout_ = s.avgout_) || decide (s.bridgeout_ = s.solvout_))
        (afterSolvent env s fs).2 s.bridgeout_ (bridgeReport env s))
  else afterSolvent env s fs

/-! ## Concrete inputs -/

/-- A rational stand-in for `sqrt`, exact on squares of rationals with a square
denominator; used where a concrete `World` is needed. -/
def approxSqrt (q : ℚ) : ℚ := (Nat.sqrt (q.num.toNat * q.den) : ℚ) / (q.den : ℚ)

/-- A concrete `World`: every atom is its own residue and its own molecule,
two frames are expected. -/
def demoWorld : World :=
  { sqrt := approxSqrt, ResNum := fun a => a, Mol := fun a => a, MaxFrames := 2,
    angleUnset := 0 }

/-- A frame in which every squared distance is `d2` and every angle is `ang`. -/
def constFrame (d2 ang : ℚ) : Frame :=
  { DIST2 := fun _ _ => d2, ANGLE := fun _ _ _ => ang }

/-- An instance right after set-up with the default cutoffs (3.0 squared, and
135 degrees as 2.356 rad), empty registries and the given lists. -/
def freshAction (donor acceptor solventDonor solventAcceptor : List Int) : Action_Hbond :=
  { Nframes_ := 0,
    hasSolventDonor_ := !solventDonor.isEmpty,
    hasSolventAcceptor_ := !solventAcceptor.isEmpty,
    calcSolvent_ := !solventDonor.isEmpty || !solventAcceptor.isEmpty,
    acut_ := 2356 / 1000, dcut2_ := 9, series_ := false,
    Donor_ := donor, Acceptor_ := acceptor,
    SolventDonor_ := solventDonor, SolventAcceptor_ := solventAcceptor,
    HbondMap_ := [], SolventMap_ := [], BridgeMap_ := [],
    NumHbonds_ := [], NumSolvent_ := [], NumBridge_ := [] }

/-- Scenario A of the specification: donor pair `(10, 11)`, acceptor 20, default
cutoffs. -/
def scenarioA : Action_Hbond := freshAction [10, 11] [20] [] []

/-- A frame with squared distance 6.0 and an angle of 140 degrees (2.443 rad). -/
def bondFrame : Frame := constFrame 6 (2443 / 1000)

/-- A frame with squared distance 6.0 and an angle of 120 degrees (2.094 rad). -/
def noBondFrame : Frame := constFrame 6 (2094 / 1000)

/-- Scenario C of the specification: scenario A with the per-bond series
switched on. -/
def scenarioC : Action_Hbond := { scenarioA with series_ := true }

/-- Scenario D of the specification: solute acceptors 2 and 5 (in `demoWorld`
residues 2 and 5) and one solvent donor pair `(100, 101)` of molecule 100. -/
def scenarioD : Action_Hbond := freshAction [] [2, 5] [100, 101] []

/-- Frame 0 of scenario D: the solvent donor is within the distance cutoff of
acceptor 2 only. -/
def frameD0 : Frame :=
  { DIST2 := fun a _ => if a = 5 then 16 else 6, ANGLE := fun _ _ _ => 2443 / 1000 }

/-- A small topology: a hydroxyl `1-2` (O, H), a bond-less atom 3 of another
element (an ion), an amine `4-5` (N, H) and a carbon 6 bonded to the hydrogen 7.
The mask expressions it knows are `all`, `ion`, `water` and `nothing`. -/
def demoTopology : Topology :=
  { atom := fun a =>
      if a = 1 then { Element := AtomicElementType.OXYGEN, bonds := [2] }
      else if a = 2 then { Element := AtomicElementType.HYDROGEN, bonds := [1] }
      else if a = 4 then { Element := AtomicElementType.NITROGEN, bonds := [5] }
      else if a = 5 then { Element := AtomicElementType.HYDROGEN, bonds := [4] }
      else if a = 6 then { Element := AtomicElementType.OTHER, bonds := [7] }
      else if a = 7 then { Element := AtomicElementType.HYDROGEN, bonds := [6] }
      else { Element := AtomicElementType.OTHER, bonds := [] },
    SetupIntegerMask := fun e =>
      if e = "all" then some [1, 2, 3, 4, 5, 6, 7]
      else if e = "ion" then some [3]
      else if e = "water" then some [1, 2]
      else if e = "nothing" then some []
      else none }

/-- An instance as `init()` leaves it for `hbond all donormask ion`: generic
mask `all`, donor mask `ion`, no acceptor mask, no solvent masks. -/
def ionDonorSetup : Action_Hbond :=
  { freshAction [] [] [] [] with
    hasDonorMask_ := true,
    Mask_ := { maskString := "all" },
    DonorMask_ := { maskString := "ion" } }

/-- A comparator for concrete reports: more frames first; among records of
equal frame count the smaller acceptor index first, then the smaller hydrogen
index, then the smaller donor index. -/
def demoCmp (a b : HbondType) : Bool :=
  decide (b.Frames < a.Frames) ||
    (decide (a.Frames = b.Frames) &&
      (decide (a.A < b.A) ||
        (decide (a.A = b.A) &&
          (decide (a.H < b.H) || (decide (a.H = b.H) && decide (a.D < b.D))))))

/-- A sorting routine for concrete reports: insertion sort, which puts `a`
before `b` unless the comparator puts `b` before `a`. -/
def demoSort (cmp : HbondType → HbondType → Bool) (l : List HbondType) : List HbondType :=
  l.insertionSort fun a b => cmp b a = false

/-- Collaborators for a concrete report: every atom is labelled `atom`, every
residue `RES`, `RADDEG` is 57.29578, `canOpen` tells which files open, and the
records are sorted by `demoSort` with `demoCmp`. -/
def demoPrintEnv (canOpen : String → Bool) : PrintEnv :=
  { ResAtomName := fun _ => "atom", Res := fun _ => "RES", RADDEG := 5729578 / 100000,
    canOpen := canOpen, hbond_cmp := demoCmp, sort := demoSort }

/-- An instance at the end of a run of one frame with the three reports
configured: one solute-solvent record under key 11 and the bridge entry of the
residue set `{2, 5}`. -/
def reportState : Action_Hbond :=
  { freshAction [10, 11] [20] [100, 101] [30] with
    Nframes_ := 1,
    avgout_ := "avg.dat", solvout_ := "solv.dat", bridgeout_ := "bridge.dat",
    SolventMap_ := [(11, { A := -1, H := 11, D := 10, Frames := 1, dist := 2, angle := 2,
                           data_ := none })],
    BridgeMap_ := [([2, 5], 1)] }

/-- No output file holds anything yet. -/
def noFiles : Files := fun _ => []

/-- Two solvent donor pairs, `(100, 101)` of molecule 100 and `(200, 201)` of
molecule 200, next to the solute acceptors 2 and 5. -/
def twoWaters : Action_Hbond := freshAction [] [2, 5] [100, 101, 200, 201] []

/-- The record scenario A leaves under key 0 after its one frame. -/
def scenarioARecord : HbondType :=
  { A := 20, H := 11, D := 10, Frames := 1, dist := demoWorld.sqrt 6, angle := 2443 / 1000,
    data_ := none }

/-- One solute donor pair `(10, 11)` next to the two solvent acceptors 30 and 31. -/
def twoAcceptors : Action_Hbond := freshAction [10, 11] [] [] [30, 31]

/-- The record `twoAcceptors` holds under key 11 after one frame in which both
solvent acceptors are accepted. -/
def twoAcceptorsRecord : HbondType :=
  { A := -1, H := 11, D := 10, Frames := 2, dist := demoWorld.sqrt 6 + demoWorld.sqrt 6,
    angle := 2443 / 1000 + 2443 / 1000, data_ := none }

/-- An instance as `init()` leaves it for
`hbond nothing donormask ion acceptormask water`: the generic mask selects no
atom of `demoTopology`, the donor and the acceptor mask do. -/
def bothMasksSetup : Action_Hbond :=
  { freshAction [] [] [] [] with
    hasDonorMask_ := true, hasAcceptorMask_ := true,
    Mask_ := { maskString := "nothing" },
    DonorMask_ := { maskString := "ion" },
    AcceptorMask_ := { maskString := "water" } }

/-- An instance that has evaluated one frame with the lists of scenario A (one
record under slot 0) and is set up again, for `hbond all donormask ion`. -/
def staleSetup : Action_Hbond :=
  { ionDonorSetup with
    Nframes_ := 1, Donor_ := [10, 11], Acceptor_ := [20],
    HbondMap_ := [(0, scenarioARecord)] }

/-- The instance `reportState` with the three reports directed to one file. -/
def sharedReportState : Action_Hbond :=
  { reportState with solvout_ := "avg.dat", bridgeout_ := "avg.dat" }

/-- An instance as `init()` leaves it for `hbond nothing`, holding lists and a
record of an earlier set-up: the generic mask selects no atom of
`demoTopology`. -/
def emptyMaskSetup : Action_Hbond :=
  { freshAction [10, 11] [20] [100, 101] [30] with
    Mask_ := { maskString := "nothing" },
    HbondMap_ := [(0, scenarioARecord)] }

/-- An ion, atom 5, that a donor mask and an acceptor mask both select: the
degenerate donor pair `(5, 5)` and the acceptor 5, next to the solvent acceptor
30 and the solvent donor pair `(100, 101)`. -/
def ionBothRoles : Action_Hbond := freshAction [5, 5] [5] [100, 101] [30]

/-- The record sweep (a) creates for the ion of `ionBothRoles` in `bondFrame`. -/
def ionDonorRecord : HbondType :=
  { A := -1, H := 5, D := 5, Frames := 1, dist := demoWorld.sqrt 6, angle := 0, data_ := none }

/-- An atom that sat at `(1, 1, 1)` in the previous frame, with no correction
accumulated so far. -/
def cornerAtom : DiffusionAtom :=
  { px := 1, py := 1, pz := 1, dx := 0, dy := 0, dz := 0,
    distx := 0, disty := 0, distz := 0, dist := 0 }

/-- An instance at the end of a run of two frames with only the solute-solute
report configured: three records, of which those under the keys 1 and 2 have
the same frame count. -/
def tieState : Action_Hbond :=
  { freshAction [10, 11, 12, 13] [20, 21] [] [] with
    Nframes_ := 2,
    avgout_ := "avg.dat",
    HbondMap_ :=
      [(0, { A := 20, H := 11, D := 10, Frames := 1, dist := 2, angle := 2, data_ := none }),
       (1, { A := 21, H := 11, D := 10, Frames := 2, dist := 5, angle := 4, data_ := none }),
       (2, { A := 20, H := 13, D := 12, Frames := 2, dist := 4, angle := 5, data_ := none })] }

/-! ## Theorems -/

/-! ### Enumeration keys of the solute-solute sweep -/

theorem soluteAcceptorLoop_eq (w : World) (s : Action_Hbond) (frame : Frame) (frameNum : Nat)
    (D H : Int) (c : Int) :
    ∀ (as : List Int) (k : Nat) (st : HBmapType × Int),
      soluteAcceptorLoop w s frame frameNum D H as (c + k) st =
        ((as.enumFrom k).foldl
            (fun st a => soluteCandidate w s frame frameNum D H a.2 (c + (a.1 : Int)) st) st,
          c + k + as.length) := by
  intro as
  induction as with
  | nil => intro k st; simp [soluteAcceptorLoop]
  | cons a as ih =>
    intro k st
    have h := ih (k + 1) (soluteCandidate w s frame frameNum D H a (c + k) st)
    simp only [Nat.cast_add, Nat.cast_one, ← add_assoc] at h
    simp only [soluteAcceptorLoop, List.enumFrom_cons, List.foldl_cons, h, List.length_cons,
      Nat.cast_add, Nat.cast_one]
    congr 1
    ring

theorem soluteDonorLoop_eq (w : World) (s : Action_Hbond) (frame : Frame) (frameNum : Nat) :
    ∀ (donors : List (Int × Int)) (i0 : Nat) (st : HBmapType × Int),
      soluteDonorLoop w s frame frameNum (flatDonors donors)
          ((i0 : Int) * (s.Acceptor_.length : Int)) st =
        (((donors.enumFrom i0).flatMap fun d =>
            s.Acceptor_.enum.map fun a =>
              (d.2.1, d.2.2, a.2, (d.1 : Int) * (s.Acceptor_.length : Int) + (a.1 : Int))).foldl
            (soluteSlotStep w s frame frameNum) st,
          ((i0 + donors.length : Nat) : Int) * (s.Acceptor_.length : Int)) := by
  intro donors
  induction donors with
  | nil => intro i0 st; simp [flatDonors, soluteDonorLoop]
  | cons d donors ih =>
    intro i0 st
    obtain ⟨D, H⟩ := d
    have hin := soluteAcceptorLoop_eq w s frame frameNum D H
      ((i0 : Int) * (s.Acceptor_.length : Int)) s.Acceptor_ 0 st
    simp only [Nat.cast_zero, add_zero] at hin
    have hflat : flatDonors ((D, H) :: donors) = D :: H :: flatDonors donors := by
      simp [flatDonors]
    have hnext : (i0 : Int) * (s.Acceptor_.length : Int) + (s.Acceptor_.length : Int)
        = ((i0 + 1 : Nat) : Int) * (s.Acceptor_.length : Int) := by
      push_cast; ring
    rw [hflat, soluteDonorLoop, hin]
    simp only [hnext, ih, List.enumFrom_cons, List.flatMap_cons, List.foldl_append, List.foldl_map,
      List.length_cons, List.enum, soluteSlotStep]
    have hlen : i0 + 1 + donors.length = i0 + (donors.length + 1) := by omega
    rw [hlen]

/-- C1: in the solute-solute sweep the candidate of donor pair `i` and acceptor
`j` is processed with the key `i * acceptorCount + j`: the nested loops with
their running `hbidx` are the loop body applied, in order, to every slot of the
cross product with that key, whether the body skips, rejects or accepts, and
`hbidx` ends at `donorCount * acceptorCount`. -/
theorem solute_sweep_key_is_slot_index (w : World) (s : Action_Hbond) (frame : Frame)
    (frameNum : Nat) (donors : List (Int × Int)) (st : HBmapType × Int) :
    soluteDonorLoop w s frame frameNum (flatDonors donors) 0 st =
      ((soluteSlots donors s.Acceptor_).foldl (soluteSlotStep w s frame frameNum) st,
        (donors.length : Int) * (s.Acceptor_.length : Int)) := by
  have h := soluteDonorLoop_eq w s frame frameNum donors 0 st
  simpa [soluteSlots, List.enum] using h


/-! ### Lookups after an insertion or an update -/

section MapLemmas

variable {K V : Type} [DecidableEq K]

theorem mapFind_mapInsert_of_ne [LT K] [DecidableRel (α := K) (· < ·)] {k k' : K} (v : V)
    (h : k ≠ k') : ∀ m : List (K × V), mapFind k' (mapInsert k v m) = mapFind k' m := by
  intro m
  induction m with
  | nil => simp [mapInsert, mapFind, h]
  | cons e m ih =>
    obtain ⟨k₀, v₀⟩ := e
    simp only [mapInsert]
    split_ifs with h1 h2
    · simp [mapFind, h]
    · simp [mapFind, ih]
    · rfl

theorem mapFind_mapInsert_self [LT K] [DecidableRel (α := K) (· < ·)]
    (htri : ∀ a b : K, ¬ a < b → ¬ b < a → a = b) {k : K} (v : V) :
    ∀ m : List (K × V), mapFind k m = none → mapFind k (mapInsert k v m) = some v := by
  intro m
  induction m with
  | nil => intro _; simp [mapInsert, mapFind]
  | cons e m ih =>
    obtain ⟨k₀, v₀⟩ := e
    intro hm
    have hk : ¬ k₀ = k := by
      intro hk; simp [mapFind, hk] at hm
    have hm' : mapFind k m = none := by simpa [mapFind, hk] using hm
    simp only [mapInsert]
    split_ifs with h1 h2
    · simp [mapFind]
    · simp [mapFind, hk, ih hm']
    · exact absurd (htri k k₀ h1 h2).symm hk

theorem int_trichotomy : ∀ a b : Int, ¬ a < b → ¬ b < a → a = b := by
  intro a b h1 h2; omega

theorem mapFind_mapModify_self {k : K} (f : V → V) :
    ∀ m : List (K × V), mapFind k (mapModify k f m) = (mapFind k m).map f := by
  intro m
  induction m with
  | nil => simp [mapModify, mapFind]
  | cons e m ih =>
    obtain ⟨k₀, v₀⟩ := e
    by_cases hk : k₀ = k <;> simp [mapModify, mapFind, hk, ih]

theorem mapFind_mapModify_of_ne {k k' : K} (f : V → V) (h : k ≠ k') :
    ∀ m : List (K × V), mapFind k' (mapModify k f m) = mapFind k' m := by
  intro m
  induction m with
  | nil => simp [mapModify, mapFind]
  | cons e m ih =>
    obtain ⟨k₀, v₀⟩ := e
    by_cases hk : k₀ = k
    · subst hk; simp [mapModify, mapFind, h]
    · simp [mapModify, mapFind, hk, ih]

end MapLemmas


/-! ### The acceptance test of one candidate -/

/-- C2: in the solute-solute sweep, for a donor pair with `D ≠ H` and an
acceptor `A ≠ D`, the candidate is counted exactly when the squared distance is
at most the squared cutoff and the angle is at least the angle cutoff (both
bounds inclusive); otherwise, and only then, the loop body leaves the registry
and the count as they are. -/
theorem solute_candidate_accepted_iff (w : World) (s : Action_Hbond) (frame : Frame)
    (frameNum : Nat) (D H A hbidx : Int) (st : HBmapType × Int)
    (_hDH : D ≠ H) (hAD : A ≠ D) :
    ((soluteCandidate w s frame frameNum D H A hbidx st).2 = st.2 + 1 ↔
        (frame.DIST2 A D ≤ s.dcut2_ ∧ s.acut_ ≤ frame.ANGLE A H D)) ∧
    (soluteCandidate w s frame frameNum D H A hbidx st = st ↔
        ¬ (frame.DIST2 A D ≤ s.dcut2_ ∧ s.acut_ ≤ frame.ANGLE A H D)) := by
  obtain ⟨m, n⟩ := st
  by_cases hd : frame.DIST2 A D ≤ s.dcut2_
  · by_cases ha : s.acut_ ≤ frame.ANGLE A H D
    · have hd' : ¬ frame.DIST2 A D > s.dcut2_ := not_lt.2 hd
      have ha' : ¬ frame.ANGLE A H D < s.acut_ := not_lt.2 ha
      have hsnd : (soluteCandidate w s frame frameNum D H A hbidx (m, n)).2 = n + 1 := by
        simp only [soluteCandidate, hAD, hd', ha', if_false]
        cases mapFind hbidx m <;> rfl
      refine ⟨⟨fun _ => ⟨hd, ha⟩, fun _ => hsnd⟩, ⟨fun h => ?_, fun h => absurd ⟨hd, ha⟩ h⟩⟩
      rw [h] at hsnd
      simp at hsnd
    · have ha' : frame.ANGLE A H D < s.acut_ := not_le.1 ha
      have hd' : ¬ frame.DIST2 A D > s.dcut2_ := not_lt.2 hd
      have hst : soluteCandidate w s frame frameNum D H A hbidx (m, n) = (m, n) := by
        simp [soluteCandidate, hAD, hd', ha']
      rw [hst]
      simp [ha]
  · have hd' : frame.DIST2 A D > s.dcut2_ := not_le.1 hd
    have hst : soluteCandidate w s frame frameNum D H A hbidx (m, n) = (m, n) := by
      simp [soluteCandidate, hAD, hd']
    rw [hst]
    simp [hd]

theorem solute_candidate_accepted_iff_witness :
    ((10 : Int) ≠ 11 ∧ (20 : Int) ≠ 10) ∧
    (((soluteCandidate demoWorld (freshAction [10, 11] [20] [] [])
          (constFrame 6 (2443 / 1000)) 0 10 11 20 0 ([], 0)).2 = (([], 0) : HBmapType × Int).2 + 1 ↔
        ((constFrame 6 (2443 / 1000)).DIST2 20 10 ≤ (freshAction [10, 11] [20] [] []).dcut2_ ∧
          (freshAction [10, 11] [20] [] []).acut_ ≤ (constFrame 6 (2443 / 1000)).ANGLE 20 11 10)) ∧
      (soluteCandidate demoWorld (freshAction [10, 11] [20] [] [])
          (constFrame 6 (2443 / 1000)) 0 10 11 20 0 ([], 0) = ([], 0) ↔
        ¬ ((constFrame 6 (2443 / 1000)).DIST2 20 10 ≤ (freshAction [10, 11] [20] [] []).dcut2_ ∧
          (freshAction [10, 11] [20] [] []).acut_ ≤
            (constFrame 6 (2443 / 1000)).ANGLE 20 11 10))) :=
  ⟨⟨by decide, by decide⟩,
    solute_candidate_accepted_iff demoWorld (freshAction [10, 11] [20] [] [])
      (constFrame 6 (2443 / 1000)) 0 10 11 20 0 ([], 0) (by decide) (by decide)⟩

/-- C3 (evaluation of the code): the solute-solute sweep applies the angle test
to a degenerate donor pair as well. With `Donor_ = [5, 5]`, `Acceptor_ = [20]`,
squared distance 1 (cutoff 9) and an angle primitive returning 0, the frame
counts no hydrogen bond and records nothing, while `AtomsAreHbonded` accepts
the same three atoms. -/
theorem solute_sweep_tests_angle_of_degenerate_donor :
    (action demoWorld (constFrame 1 0) 0 (freshAction [5, 5] [20] [] [])).HbondMap_ = [] ∧
    (action demoWorld (constFrame 1 0) 0 (freshAction [5, 5] [20] [] [])).NumHbonds_ = [(0, 0)] ∧
    (AtomsAreHbonded demoWorld (freshAction [5, 5] [20] [] []) (constFrame 1 0) 0
        20 5 5 5 true []).1 = 1 := by
  refine ⟨?_, ?_, ?_⟩ <;>
    norm_num [action, soluteDonorLoop, soluteAcceptorLoop, soluteCandidate, AtomsAreHbonded,
      freshAction, constFrame, mapFind]

/-- C4: `AtomsAreHbonded` for a degenerate donor (`d_atom = h_atom`) and an
acceptor `a_atom ≠ d_atom` returns 1 exactly when the squared distance is at
most the squared cutoff, for every frame, hence whatever the angle primitive
returns; otherwise it returns 0 and leaves the registry as it is. -/
theorem atomsAreHbonded_degenerate_iff (w : World) (s : Action_Hbond) (frame : Frame)
    (frameNum : Nat) (a_atom d_atom hbidx : Int) (solutedonor : Bool) (m : HBmapType)
    (hne : a_atom ≠ d_atom) :
    ((AtomsAreHbonded w s frame frameNum a_atom d_atom d_atom hbidx solutedonor m).1 = 1 ↔
        frame.DIST2 a_atom d_atom ≤ s.dcut2_) ∧
    (AtomsAreHbonded w s frame frameNum a_atom d_atom d_atom hbidx solutedonor m = (0, m) ↔
        ¬ frame.DIST2 a_atom d_atom ≤ s.dcut2_) := by
  by_cases hd : frame.DIST2 a_atom d_atom ≤ s.dcut2_
  · have hd' : ¬ frame.DIST2 a_atom d_atom > s.dcut2_ := not_lt.2 hd
    have hfst : (AtomsAreHbonded w s frame frameNum a_atom d_atom d_atom hbidx solutedonor m).1
        = 1 := by
      simp only [AtomsAreHbonded, hne, hd', if_false, ne_eq, not_true_eq_false, false_and]
      cases mapFind hbidx m <;> rfl
    refine ⟨⟨fun _ => hd, fun _ => hfst⟩, ⟨fun h => ?_, fun h => absurd hd h⟩⟩
    rw [h] at hfst
    simp at hfst
  · have hd' : frame.DIST2 a_atom d_atom > s.dcut2_ := not_le.1 hd
    have hst : AtomsAreHbonded w s frame frameNum a_atom d_atom d_atom hbidx solutedonor m
        = (0, m) := by
      simp [AtomsAreHbonded, hne, hd']
    rw [hst]
    simp [hd]

theorem atomsAreHbonded_degenerate_iff_witness :
    (30 : Int) ≠ 5 ∧
    (((AtomsAreHbonded demoWorld (freshAction [5, 5] [] [] [30]) (constFrame 1 0) 0
          30 5 5 5 true []).1 = 1 ↔
        (constFrame 1 0).DIST2 30 5 ≤ (freshAction [5, 5] [] [] [30]).dcut2_) ∧
      (AtomsAreHbonded demoWorld (freshAction [5, 5] [] [] [30]) (constFrame 1 0) 0
          30 5 5 5 true [] = (0, []) ↔
        ¬ (constFrame 1 0).DIST2 30 5 ≤ (freshAction [5, 5] [] [] [30]).dcut2_)) :=
  ⟨by decide,
    atomsAreHbonded_degenerate_iff demoWorld (freshAction [5, 5] [] [] [30]) (constFrame 1 0) 0
      30 5 5 true [] (by decide)⟩

/-- C5: a candidate of a donor pair with `D ≠ H` whose angle is below the angle
cutoff is not counted, whatever its distance: the loop body of the
solute-solute sweep and the loop bodies of both solute-solvent sweeps return
their state (registry, count, solvent contacts) unchanged; and when it is the
only solute-solute candidate and the registry is empty, the frame stores the
count 0 and the registry stays empty. -/
theorem low_angle_candidate_not_counted (w : World) (s : Action_Hbond) (frame : Frame)
    (frameNum : Nat) (D H A hbidx : Int) (st : HBmapType × Int) (sv : SolventState)
    (hDH : D ≠ H) (hang : frame.ANGLE A H D < s.acut_) :
    soluteCandidate w s frame frameNum D H A hbidx st = st ∧
    solventAcceptorCandidate w s frame frameNum D H A sv = sv ∧
    soluteAcceptorCandidate w s frame frameNum D H A sv = sv ∧
    (action w frame frameNum
        { s with Donor_ := [D, H], Acceptor_ := [A], HbondMap_ := [] }).HbondMap_ = [] ∧
    (action w frame frameNum
        { s with Donor_ := [D, H], Acceptor_ := [A], HbondMap_ := [] }).NumHbonds_ =
      s.NumHbonds_ ++ [(frameNum, 0)] := by
  have h1 : ∀ (s' : Action_Hbond) (k : Int) (st : HBmapType × Int), s'.acut_ = s.acut_ →
      soluteCandidate w s' frame frameNum D H A k st = st := by
    intro s' k st hs
    simp only [soluteCandidate, hs, hang, if_true]
    split_ifs <;> rfl
  have h2 : ∀ (k : Int) (b : Bool) (m : HBmapType),
      AtomsAreHbonded w s frame frameNum A D H k b m = (0, m) := by
    intro k b m
    simp only [AtomsAreHbonded, hDH, ne_eq, not_false_eq_true, if_true, hang, and_self]
    split_ifs <;> rfl
  have hloop : soluteDonorLoop w { s with Donor_ := [D, H], Acceptor_ := [A], HbondMap_ := [] }
      frame frameNum [D, H] 0 ([], 0) = (([], 0), 1) := by
    simp [soluteDonorLoop, soluteAcceptorLoop, h1]
  refine ⟨h1 s hbidx st rfl, ?_, ?_, ?_, ?_⟩
  · simp [solventAcceptorCandidate, h2]
  · simp [soluteAcceptorCandidate, h2]
  · simp only [action, hloop]
    split_ifs <;> rfl
  · simp only [action, hloop]
    split_ifs <;> rfl

theorem low_angle_candidate_not_counted_witness :
    ((10 : Int) ≠ 11 ∧
      (constFrame 6 (2094 / 1000)).ANGLE 20 11 10 < (freshAction [10, 11] [20] [] []).acut_) ∧
    (soluteCandidate demoWorld (freshAction [10, 11] [20] [] []) (constFrame 6 (2094 / 1000)) 0
        10 11 20 0 ([], 0) = ([], 0) ∧
      solventAcceptorCandidate demoWorld (freshAction [10, 11] [20] [] [])
        (constFrame 6 (2094 / 1000)) 0 10 11 20 ⟨[], 0, []⟩ = ⟨[], 0, []⟩ ∧
      soluteAcceptorCandidate demoWorld (freshAction [10, 11] [20] [] [])
        (constFrame 6 (2094 / 1000)) 0 10 11 20 ⟨[], 0, []⟩ = ⟨[], 0, []⟩ ∧
      (action demoWorld (constFrame 6 (2094 / 1000)) 0
          { freshAction [10, 11] [20] [] [] with
            Donor_ := [10, 11], Acceptor_ := [20], HbondMap_ := [] }).HbondMap_ = [] ∧
      (action demoWorld (constFrame 6 (2094 / 1000)) 0
          { freshAction [10, 11] [20] [] [] with
            Donor_ := [10, 11], Acceptor_ := [20], HbondMap_ := [] }).NumHbonds_ =
        (freshAction [10, 11] [20] [] []).NumHbonds_ ++ [(0, 0)]) :=
  ⟨⟨by decide, by norm_num [constFrame, freshAction]⟩,
    low_angle_candidate_not_counted demoWorld (freshAction [10, 11] [20] [] [])
      (constFrame 6 (2094 / 1000)) 0 10 11 20 0 ([], 0) ⟨[], 0, []⟩ (by decide)
      (by norm_num [constFrame, freshAction])⟩


/-! ### Effect of one candidate on a registry -/

theorem soluteCandidate_count (w : World) (s : Action_Hbond) (f : Frame) (n : Nat)
    (D H A hbidx : Int) (st : HBmapType × Int) :
    (soluteCandidate w s f n D H A hbidx st).2 =
      st.2 + if soluteAccepts s.dcut2_ s.acut_ f D H A then 1 else 0 := by
  unfold soluteCandidate soluteAccepts
  by_cases h1 : A = D
  · simp [h1]
  · by_cases h2 : f.DIST2 A D > s.dcut2_
    · simp [h1, h2, not_le.2 h2]
    · by_cases h3 : f.ANGLE A H D < s.acut_
      · simp [h1, h2, h3, not_le.2 h3]
      · simp only [h1, h2, h3, if_false, ne_eq, not_false_eq_true, not_lt.1 h2, not_lt.1 h3,
          and_self, if_true]
        cases mapFind hbidx st.1 <;> rfl

theorem soluteCandidate_find (w : World) (s : Action_Hbond) (f : Frame) (n : Nat)
    (D H A hbidx : Int) (st : HBmapType × Int) (k : Int) :
    mapFind k (soluteCandidate w s f n D H A hbidx st).1 =
      if k = hbidx ∧ soluteAccepts s.dcut2_ s.acut_ f D H A then
        some (soluteRecord w s.series_ f n D H A (mapFind hbidx st.1))
      else mapFind k st.1 := by
  unfold soluteCandidate soluteAccepts
  by_cases h1 : A = D
  · simp [h1]
  · by_cases h2 : f.DIST2 A D > s.dcut2_
    · simp [h1, h2, not_le.2 h2]
    · by_cases h3 : f.ANGLE A H D < s.acut_
      · simp [h1, h2, h3, not_le.2 h3]
      · simp only [h1, h2, h3, if_false, ne_eq, not_false_eq_true, not_lt.1 h2, not_lt.1 h3,
          and_self, and_true]
        by_cases hk : k = hbidx
        · subst hk
          cases hm : mapFind k st.1 with
          | none => simp [soluteRecord, mapFind_mapInsert_self int_trichotomy _ _ hm]
          | some hb => simp [soluteRecord, mapFind_mapModify_self, hm]
        · have hk' : hbidx ≠ k := fun h => hk h.symm
          cases hm : mapFind hbidx st.1 with
          | none => simp [hk, mapFind_mapInsert_of_ne _ hk']
          | some hb => simp [hk, mapFind_mapModify_of_ne _ hk']

theorem atomsAreHbonded_fst (w : World) (s : Action_Hbond) (f : Frame) (n : Nat)
    (a d h hbidx : Int) (sd : Bool) (m : HBmapType) :
    (AtomsAreHbonded w s f n a d h hbidx sd m).1 =
      if solventAccepts s.dcut2_ s.acut_ f a d h then 1 else 0 := by
  unfold AtomsAreHbonded solventAccepts
  by_cases h1 : a = d
  · simp [h1]
  · by_cases h2 : f.DIST2 a d > s.dcut2_
    · simp [h1, h2, not_le.2 h2]
    · by_cases h0 : d = h
      · subst h0
        simp only [h1, h2, if_false, ne_eq, not_true_eq_false, false_and, not_false_eq_true,
          not_lt.1 h2, true_and, if_true, IsEmpty.forall_iff, and_self]
        cases mapFind hbidx m <;> rfl
      · by_cases h3 : f.ANGLE a h d < s.acut_
        · simp [h1, h2, h0, h3, not_le.2 h3]
        · simp only [h1, h2, h0, h3, if_false, ne_eq, not_false_eq_true, if_true, and_false,
            not_lt.1 h2, not_lt.1 h3, true_and, forall_true_left, and_self]
          cases mapFind hbidx m <;> rfl

theorem atomsAreHbonded_find (w : World) (s : Action_Hbond) (f : Frame) (n : Nat)
    (a d h hbidx : Int) (sd : Bool) (m : HBmapType) (k : Int) :
    mapFind k (AtomsAreHbonded w s f n a d h hbidx sd m).2 =
      if k = hbidx ∧ solventAccepts s.dcut2_ s.acut_ f a d h then
        some (solventRecord w s.series_ f n a d h sd (mapFind hbidx m))
      else mapFind k m := by
  have key : ∀ ang : ℚ,
      mapFind k (match mapFind hbidx m with
        | none => ((1 : Int), mapInsert hbidx (newSolventHB w s.series_ n a d h sd
            (w.sqrt (f.DIST2 a d)) ang) m)
        | some _ => ((1 : Int), mapModify hbidx (bumpHB s.series_ n (w.sqrt (f.DIST2 a d)) ang) m)).2
      = if k = hbidx then
          some (match mapFind hbidx m with
            | none => newSolventHB w s.series_ n a d h sd (w.sqrt (f.DIST2 a d)) ang
            | some hb => bumpHB s.series_ n (w.sqrt (f.DIST2 a d)) ang hb)
        else mapFind k m := by
    intro ang
    by_cases hk : k = hbidx
    · subst hk
      cases hm : mapFind k m with
      | none => simp [mapFind_mapInsert_self int_trichotomy _ _ hm]
      | some hb => simp [mapFind_mapModify_self, hm]
    · have hk' : hbidx ≠ k := fun h => hk h.symm
      cases hm : mapFind hbidx m with
      | none => simp [hk, mapFind_mapInsert_of_ne _ hk']
      | some hb => simp [hk, mapFind_mapModify_of_ne _ hk']
  unfold AtomsAreHbonded solventAccepts
  by_cases h1 : a = d
  · simp [h1]
  · by_cases h2 : f.DIST2 a d > s.dcut2_
    · simp [h1, h2, not_le.2 h2]
    · by_cases h0 : d = h
      · subst h0
        simp only [h1, h2, if_false, ne_eq, not_true_eq_false, false_and, not_false_eq_true,
          not_lt.1 h2, true_and, IsEmpty.forall_iff, and_true]
        rw [key]
        by_cases hk : k = hbidx
        · simp only [hk, if_true]
          cases mapFind hbidx m <;> simp [solventRecord]
        · simp [hk]
      · by_cases h3 : f.ANGLE a h d < s.acut_
        · simp [h1, h2, h0, h3, not_le.2 h3]
        · simp only [h1, h2, h0, h3, if_false, ne_eq, not_false_eq_true, if_true, and_false,
            not_lt.1 h2, not_lt.1 h3, true_and, forall_true_left, and_true]
          rw [key]
          by_cases hk : k = hbidx
          · simp only [hk, if_true]
            cases mapFind hbidx m <;> simp [solventRecord, h0]
          · simp [hk]


/-! ### One candidate of a solute-solvent sweep -/

theorem solventAcceptorCandidate_eq (w : World) (s : Action_Hbond) (f : Frame) (n : Nat)
    (D H a : Int) (st : SolventState) :
    solventAcceptorCandidate w s f n D H a st =
      { SolventMap_ := (AtomsAreHbonded w s f n a D H H true st.SolventMap_).2,
        numHB := st.numHB + if solventAccepts s.dcut2_ s.acut_ f a D H then 1 else 0,
        solvent2solute :=
          if solventAccepts s.dcut2_ s.acut_ f a D H then
            touch (w.Mol a) (w.ResNum D) st.solvent2solute
          else st.solvent2solute } := by
  unfold solventAcceptorCandidate
  simp only [atomsAreHbonded_fst]
  by_cases h : solventAccepts s.dcut2_ s.acut_ f a D H <;> simp [h]

theorem soluteAcceptorCandidate_eq (w : World) (s : Action_Hbond) (f : Frame) (n : Nat)
    (D H a : Int) (st : SolventState) :
    soluteAcceptorCandidate w s f n D H a st =
      { SolventMap_ := (AtomsAreHbonded w s f n a D H a false st.SolventMap_).2,
        numHB := st.numHB + if solventAccepts s.dcut2_ s.acut_ f a D H then 1 else 0,
        solvent2solute :=
          if solventAccepts s.dcut2_ s.acut_ f a D H then
            touch (w.Mol D) (w.ResNum a) st.solvent2solute
          else st.solvent2solute } := by
  unfold soluteAcceptorCandidate
  simp only [atomsAreHbonded_fst]
  by_cases h : solventAccepts s.dcut2_ s.acut_ f a D H <;> simp [h]

/-- C7 (as stated, refuted): solute donor `(D, H) = (10, 11)` and solvent
acceptor 30 within both cutoffs: the candidate is counted, the registry holds
nothing under the heavy-atom index 10 and holds the record under the hydrogen
index 11. -/
theorem solvent_record_not_under_heavy_atom :
    (solventAcceptorCandidate demoWorld (freshAction [10, 11] [] [] [30])
        (constFrame 6 (2443 / 1000)) 0 10 11 30 ⟨[], 0, []⟩).numHB = 1 ∧
    mapFind 10 (solventAcceptorCandidate demoWorld (freshAction [10, 11] [] [] [30])
        (constFrame 6 (2443 / 1000)) 0 10 11 30 ⟨[], 0, []⟩).SolventMap_ = none ∧
    (mapFind 11 (solventAcceptorCandidate demoWorld (freshAction [10, 11] [] [] [30])
        (constFrame 6 (2443 / 1000)) 0 10 11 30 ⟨[], 0, []⟩).SolventMap_).isSome = true := by
  have hacc : solventAccepts (freshAction [10, 11] [] [] [30]).dcut2_
      (freshAction [10, 11] [] [] [30]).acut_ (constFrame 6 (2443 / 1000)) 30 10 11 := by
    norm_num [solventAccepts, freshAction, constFrame]
  refine ⟨?_, ?_, ?_⟩
  · simp [solventAcceptorCandidate_eq, hacc]
  · simp [solventAcceptorCandidate_eq, atomsAreHbonded_find, mapFind]
  · simp [solventAcceptorCandidate_eq, atomsAreHbonded_find, hacc]

/-- C7 (amended): a solute-solvent candidate changes the registry only when it
is accepted and then only under one key: the hydrogen index `H` of the solute
donor pair in sweep (a), the atom index of the solute acceptor in sweep (b);
the solvent atom does not enter the key. Every other key keeps what it held. -/
theorem solvent_record_key (w : World) (s : Action_Hbond) (f : Frame) (n : Nat)
    (D H a : Int) (st : SolventState) (k : Int) :
    mapFind k (solventAcceptorCandidate w s f n D H a st).SolventMap_ =
      (if k = H ∧ solventAccepts s.dcut2_ s.acut_ f a D H then
        some (solventRecord w s.series_ f n a D H true (mapFind H st.SolventMap_))
      else mapFind k st.SolventMap_) ∧
    mapFind k (soluteAcceptorCandidate w s f n D H a st).SolventMap_ =
      (if k = a ∧ solventAccepts s.dcut2_ s.acut_ f a D H then
        some (solventRecord w s.series_ f n a D H false (mapFind a st.SolventMap_))
      else mapFind k st.SolventMap_) := by
  constructor
  · rw [solventAcceptorCandidate_eq]
    exact atomsAreHbonded_find w s f n a D H H true st.SolventMap_ k
  · rw [soluteAcceptorCandidate_eq]
    exact atomsAreHbonded_find w s f n a D H a false st.SolventMap_ k


/-! ### The slots of the solute-solute sweep -/

theorem range_blocks (nD nA : Nat) :
    ((List.range nD).flatMap fun (i : Nat) =>
        (List.range nA).map fun (j : Nat) => (i : Int) * (nA : Int) + (j : Int)) =
      (List.range (nD * nA)).map fun (p : Nat) => (p : Int) := by
  induction nD with
  | zero => simp
  | succ n ih =>
    rw [List.range_succ, List.flatMap_append, ih, List.flatMap_singleton, Nat.succ_mul,
      List.range_add, List.map_append, List.map_map]
    congr 1

theorem soluteSlots_keys (donors : List (Int × Int)) (acc : List Int) :
    (soluteSlots donors acc).map (fun c => c.2.2.2) =
      (List.range (donors.length * acc.length)).map fun (p : Nat) => (p : Int) := by
  have hinner : ∀ i : Nat,
      (acc.enum.map fun a => (i : Int) * (acc.length : Int) + (a.1 : Int)) =
        (List.range acc.length).map fun (j : Nat) => (i : Int) * (acc.length : Int) + (j : Int) := by
    intro i
    rw [← List.enum_map_fst acc, List.map_map]
    rfl
  have houter :
      (donors.enum.flatMap fun d =>
          (List.range acc.length).map fun (j : Nat) => (d.1 : Int) * (acc.length : Int) + (j : Int)) =
        (List.range donors.length).flatMap fun (i : Nat) =>
          (List.range acc.length).map fun (j : Nat) => (i : Int) * (acc.length : Int) + (j : Int) := by
    rw [← List.enum_map_fst donors, List.flatMap_map]
  unfold soluteSlots
  rw [List.map_flatMap]
  simp only [List.map_map, Function.comp_def]
  simp only [hinner, houter, range_blocks]

theorem soluteSlots_mem (donors : List (Int × Int)) (acc : List Int) (i j : Nat)
    (hi : i < donors.length) (hj : j < acc.length) :
    (donors[i].1, donors[i].2, acc[j], (i : Int) * (acc.length : Int) + (j : Int)) ∈
      soluteSlots donors acc := by
  unfold soluteSlots
  rw [List.mem_flatMap]
  refine ⟨(i, donors[i]), ?_, ?_⟩
  · rw [List.mk_mem_enum_iff_getElem?]
    exact List.getElem?_eq_getElem hi
  · rw [List.mem_map]
    refine ⟨(j, acc[j]), ?_, rfl⟩
    rw [List.mk_mem_enum_iff_getElem?]
    exact List.getElem?_eq_getElem hj

theorem soluteSlots_keys_nodup (donors : List (Int × Int)) (acc : List Int) :
    ((soluteSlots donors acc).map fun c => c.2.2.2).Nodup := by
  rw [soluteSlots_keys]
  exact (List.nodup_range _).map (fun a b h => by simpa using h)

theorem soluteSlots_not_key (donors : List (Int × Int)) (acc : List Int) (k : Int)
    (hk : k < 0 ∨ (donors.length : Int) * (acc.length : Int) ≤ k) :
    k ∉ (soluteSlots donors acc).map fun c => c.2.2.2 := by
  rw [soluteSlots_keys]
  intro hmem
  rw [List.mem_map] at hmem
  obtain ⟨p, hp, rfl⟩ := hmem
  rw [List.mem_range] at hp
  rcases hk with hk | hk
  · omega
  · have : ((donors.length * acc.length : Nat) : Int) ≤ (p : Int) := by
      push_cast; exact hk
    omega

/-! ### Lookups after a sweep over candidates with distinct keys -/

theorem slotFold_find_of_not_key (w : World) (s : Action_Hbond) (f : Frame) (n : Nat) (k : Int) :
    ∀ (cs : List (Int × Int × Int × Int)) (st : HBmapType × Int),
      k ∉ cs.map (fun c => c.2.2.2) →
      mapFind k (cs.foldl (soluteSlotStep w s f n) st).1 = mapFind k st.1 := by
  intro cs
  induction cs with
  | nil => intro st _; rfl
  | cons c cs ih =>
    intro st hk
    simp only [List.map_cons, List.mem_cons, not_or] at hk
    rw [List.foldl_cons, ih _ hk.2]
    unfold soluteSlotStep
    rw [soluteCandidate_find]
    simp [hk.1]

theorem slotFold_find_of_mem (w : World) (s : Action_Hbond) (f : Frame) (n : Nat)
    (c : Int × Int × Int × Int) :
    ∀ (cs : List (Int × Int × Int × Int)) (st : HBmapType × Int),
      (cs.map fun c => c.2.2.2).Nodup → c ∈ cs →
      mapFind c.2.2.2 (cs.foldl (soluteSlotStep w s f n) st).1 =
        if soluteAccepts s.dcut2_ s.acut_ f c.1 c.2.1 c.2.2.1 then
          some (soluteRecord w s.series_ f n c.1 c.2.1 c.2.2.1 (mapFind c.2.2.2 st.1))
        else mapFind c.2.2.2 st.1 := by
  intro cs
  induction cs with
  | nil => intro st _ hc; simp at hc
  | cons c' cs ih =>
    intro st hnd hc
    rw [List.map_cons, List.nodup_cons] at hnd
    rw [List.foldl_cons]
    rcases List.mem_cons.1 hc with rfl | hmem
    · rw [slotFold_find_of_not_key w s f n _ cs _ hnd.1]
      unfold soluteSlotStep
      rw [soluteCandidate_find]
      simp
    · have hne : c.2.2.2 ≠ c'.2.2.2 := by
        intro h
        exact hnd.1 (h ▸ List.mem_map_of_mem (fun c => c.2.2.2) hmem)
      rw [ih _ hnd.2 hmem]
      have hsame : mapFind c.2.2.2 (soluteSlotStep w s f n st c').1 = mapFind c.2.2.2 st.1 := by
        unfold soluteSlotStep
        rw [soluteCandidate_find]
        simp [hne]
      rw [hsame]

theorem slotFold_count (w : World) (s : Action_Hbond) (f : Frame) (n : Nat) :
    ∀ (cs : List (Int × Int × Int × Int)) (st : HBmapType × Int),
      (cs.foldl (soluteSlotStep w s f n) st).2 =
        st.2 + ((cs.filter fun c =>
          decide (soluteAccepts s.dcut2_ s.acut_ f c.1 c.2.1 c.2.2.1)).length : Int) := by
  intro cs
  induction cs with
  | nil => intro st; simp
  | cons c cs ih =>
    intro st
    rw [List.foldl_cons, ih]
    unfold soluteSlotStep
    rw [soluteCandidate_count]
    by_cases h : soluteAccepts s.dcut2_ s.acut_ f c.1 c.2.1 c.2.2.1
    · simp [h, List.filter_cons]; ring
    · simp [h, List.filter_cons]


/-! ### What `action` keeps and what it changes -/

theorem action_HbondMap (w : World) (f : Frame) (n : Nat) (s : Action_Hbond) :
    (action w f n s).HbondMap_ = (soluteDonorLoop w s f n s.Donor_ 0 (s.HbondMap_, 0)).1.1 := by
  unfold action
  dsimp only
  split_ifs <;> rfl

theorem action_NumHbonds (w : World) (f : Frame) (n : Nat) (s : Action_Hbond) :
    (action w f n s).NumHbonds_ =
      s.NumHbonds_ ++ [(n, (soluteDonorLoop w s f n s.Donor_ 0 (s.HbondMap_, 0)).1.2)] := by
  unfold action
  dsimp only
  split_ifs <;> rfl

theorem action_setup (w : World) (f : Frame) (n : Nat) (s : Action_Hbond) :
    (action w f n s).Donor_ = s.Donor_ ∧ (action w f n s).Acceptor_ = s.Acceptor_ ∧
    (action w f n s).SolventDonor_ = s.SolventDonor_ ∧
    (action w f n s).SolventAcceptor_ = s.SolventAcceptor_ ∧
    (action w f n s).dcut2_ = s.dcut2_ ∧ (action w f n s).acut_ = s.acut_ ∧
    (action w f n s).series_ = s.series_ ∧
    (action w f n s).hasSolventDonor_ = s.hasSolventDonor_ ∧
    (action w f n s).hasSolventAcceptor_ = s.hasSolventAcceptor_ ∧
    (action w f n s).calcSolvent_ = s.calcSolvent_ := by
  unfold action
  dsimp only
  split_ifs <;> simp

theorem action_find_slot (w : World) (f : Frame) (n : Nat) (s : Action_Hbond)
    (donors : List (Int × Int)) (hD : s.Donor_ = flatDonors donors) (i j : Nat)
    (hi : i < donors.length) (hj : j < s.Acceptor_.length) :
    mapFind ((i : Int) * (s.Acceptor_.length : Int) + (j : Int)) (action w f n s).HbondMap_ =
      if soluteAccepts s.dcut2_ s.acut_ f donors[i].1 donors[i].2 s.Acceptor_[j] then
        some (soluteRecord w s.series_ f n donors[i].1 donors[i].2 s.Acceptor_[j]
          (mapFind ((i : Int) * (s.Acceptor_.length : Int) + (j : Int)) s.HbondMap_))
      else mapFind ((i : Int) * (s.Acceptor_.length : Int) + (j : Int)) s.HbondMap_ := by
  have hloop := soluteDonorLoop_eq w s f n donors 0 (s.HbondMap_, 0)
  simp only [Nat.cast_zero, zero_mul] at hloop
  rw [action_HbondMap, hD, hloop]
  exact slotFold_find_of_mem w s f n _ (soluteSlots donors s.Acceptor_) _
    (soluteSlots_keys_nodup donors s.Acceptor_) (soluteSlots_mem donors s.Acceptor_ i j hi hj)

theorem action_find_not_slot (w : World) (f : Frame) (n : Nat) (s : Action_Hbond)
    (donors : List (Int × Int)) (hD : s.Donor_ = flatDonors donors) (k : Int)
    (hk : k < 0 ∨ (donors.length : Int) * (s.Acceptor_.length : Int) ≤ k) :
    mapFind k (action w f n s).HbondMap_ = mapFind k s.HbondMap_ := by
  have hloop := soluteDonorLoop_eq w s f n donors 0 (s.HbondMap_, 0)
  simp only [Nat.cast_zero, zero_mul] at hloop
  rw [action_HbondMap, hD, hloop]
  exact slotFold_find_of_not_key w s f n k (soluteSlots donors s.Acceptor_) _
    (soluteSlots_not_key donors s.Acceptor_ k hk)

/-! ### A run of frames -/

theorem runFrames_find_slot (w : World) (donors : List (Int × Int)) (i j : Nat) :
    ∀ (fs : List Frame) (n : Nat) (s : Action_Hbond) (_hD : s.Donor_ = flatDonors donors)
      (hi : i < donors.length) (hj : j < s.Acceptor_.length),
      mapFind ((i : Int) * (s.Acceptor_.length : Int) + (j : Int))
          (runFrames w n fs s).HbondMap_ =
        recordFold w s.series_ donors[i].1 donors[i].2 s.Acceptor_[j]
          (passedFrames s.dcut2_ s.acut_ donors[i].1 donors[i].2 s.Acceptor_[j] n fs)
          (mapFind ((i : Int) * (s.Acceptor_.length : Int) + (j : Int)) s.HbondMap_) := by
  intro fs
  induction fs with
  | nil => intro n s _ _ _; simp [runFrames, passedFrames, recordFold]
  | cons f fs ih =>
    intro n s hD hi hj
    obtain ⟨h1, h2, -, -, h5, h6, h7, -⟩ := action_setup w f n s
    have hj' : j < (action w f n s).Acceptor_.length := by rw [h2]; exact hj
    have key := ih (n + 1) (action w f n s) (by rw [h1]; exact hD) hi hj'
    simp only [h2, h5, h6, h7] at key
    rw [runFrames, key, action_find_slot w f n s donors hD i j hi hj]
    by_cases hacc : soluteAccepts s.dcut2_ s.acut_ f donors[i].1 donors[i].2 s.Acceptor_[j]
    · simp [passedFrames, hacc, recordFold]
    · simp [passedFrames, hacc]

theorem runFrames_find_not_slot (w : World) (donors : List (Int × Int)) (k : Int) :
    ∀ (fs : List Frame) (n : Nat) (s : Action_Hbond) (_hD : s.Donor_ = flatDonors donors)
      (_hk : k < 0 ∨ (donors.length : Int) * (s.Acceptor_.length : Int) ≤ k),
      mapFind k (runFrames w n fs s).HbondMap_ = mapFind k s.HbondMap_ := by
  intro fs
  induction fs with
  | nil => intro n s _ _; rfl
  | cons f fs ih =>
    intro n s hD hk
    obtain ⟨h1, h2, -⟩ := action_setup w f n s
    rw [runFrames, ih (n + 1) (action w f n s) (by rw [h1]; exact hD) (by rw [h2]; exact hk),
      action_find_not_slot w f n s donors hD k hk]


/-! ### The record of one slot after a run -/

theorem passedFrames_map_snd (dcut2 acut : ℚ) (D H A : Int) :
    ∀ (fs : List Frame) (n : Nat),
      (passedFrames dcut2 acut D H A n fs).map Prod.snd =
        fs.filter fun f => decide (soluteAccepts dcut2 acut f D H A) := by
  intro fs
  induction fs with
  | nil => intro n; rfl
  | cons f fs ih =>
    intro n
    by_cases h : soluteAccepts dcut2 acut f D H A <;>
      simp [passedFrames, h, List.filter_cons, ih]

theorem recordFold_some (w : World) (series : Bool) (D H A : Int) :
    ∀ (ps : List (Nat × Frame)) (hb : HbondType),
      ∃ hb', recordFold w series D H A ps (some hb) = some hb' ∧
        hb'.Frames = hb.Frames + (ps.length : Int) ∧
        hb'.dist = hb.dist + (ps.map fun p => w.sqrt (p.2.DIST2 A D)).sum ∧
        hb'.data_ =
          if series then hb.data_.map fun l => ps.foldl (fun l p => seriesSet p.1 l) l
          else hb.data_ := by
  intro ps
  induction ps with
  | nil => intro hb; exact ⟨hb, rfl, by simp, by simp, by cases series <;> simp⟩
  | cons p ps ih =>
    intro hb
    obtain ⟨hb', h1, h2, h3, h4⟩ :=
      ih (bumpHB series p.1 (w.sqrt (p.2.DIST2 A D)) (p.2.ANGLE A H D) hb)
    refine ⟨hb', ?_, ?_, ?_, ?_⟩
    · simpa [recordFold, soluteRecord] using h1
    · rw [h2]; simp [bumpHB]; ring
    · rw [h3]; simp [bumpHB]; ring
    · rw [h4]
      cases series
      · simp [bumpHB]
      · cases hd : hb.data_ <;> simp [bumpHB, hd]

theorem recordFold_none (w : World) (series : Bool) (D H A : Int) (ps : List (Nat × Frame)) :
    (recordFold w series D H A ps none).map (fun hb => (hb.Frames, hb.dist, hb.data_)) =
      if ps.isEmpty then none
      else some ((ps.length : Int), (ps.map fun p => w.sqrt (p.2.DIST2 A D)).sum,
        if series then some (ps.foldl (fun l p => seriesSet p.1 l) (seriesResize w.MaxFrames))
        else none) := by
  cases ps with
  | nil => simp [recordFold]
  | cons p ps =>
    obtain ⟨hb', h1, h2, h3, h4⟩ := recordFold_some w series D H A ps
      (newSoluteHB w series p.1 A D H (w.sqrt (p.2.DIST2 A D)) (p.2.ANGLE A H D))
    have hfold : recordFold w series D H A (p :: ps) none = some hb' := by
      simpa [recordFold, soluteRecord] using h1
    rw [hfold]
    simp only [Option.map_some', List.isEmpty_cons, Bool.false_eq_true, if_false,
      List.length_cons, List.map_cons, List.sum_cons, List.foldl_cons, h2, h3, h4]
    cases series <;> simp [newSoluteHB] <;> ring


/-- C6: from an empty solute-solute registry and fixed lists, after any run of
frames the slot `i * acceptorCount + j` holds a record exactly when its
candidate passed the sweep's test in at least one frame; then `Frames` is the
number of such frames and `dist` the sum of `sqrt` of their squared distances.
Keys that are no slot hold nothing. In every single frame, from any registry,
`Frames` of the slot grows by exactly 1 when the candidate passes and is
unchanged otherwise. -/
theorem solute_registry_after_frames (w : World) (s : Action_Hbond)
    (donors : List (Int × Int)) (acceptors : List Int) (frames : List Frame) (n0 : Nat)
    (i j : Nat) (k : Int) (m : HBmapType) (f : Frame) (n : Nat)
    (hD : s.Donor_ = flatDonors donors) (hA : s.Acceptor_ = acceptors) (hM : s.HbondMap_ = [])
    (hi : i < donors.length) (hj : j < acceptors.length)
    (hk : k < 0 ∨ (donors.length : Int) * (acceptors.length : Int) ≤ k) :
    (mapFind ((i : Int) * (acceptors.length : Int) + (j : Int))
        (runFrames w n0 frames s).HbondMap_).map (fun hb => (hb.Frames, hb.dist)) =
      (if (qualifyingFrames s.dcut2_ s.acut_ donors[i].1 donors[i].2 acceptors[j]
            frames).isEmpty then none
       else some
        (((qualifyingFrames s.dcut2_ s.acut_ donors[i].1 donors[i].2 acceptors[j]
            frames).length : Int),
         ((qualifyingFrames s.dcut2_ s.acut_ donors[i].1 donors[i].2 acceptors[j]
            frames).map fun f => w.sqrt (f.DIST2 acceptors[j] donors[i].1)).sum)) ∧
    mapFind k (runFrames w n0 frames s).HbondMap_ = none ∧
    (mapFind ((i : Int) * (acceptors.length : Int) + (j : Int))
        (action w f n { s with HbondMap_ := m }).HbondMap_).map (fun hb => hb.Frames) =
      (if soluteAccepts s.dcut2_ s.acut_ f donors[i].1 donors[i].2 acceptors[j] then
        some (((mapFind ((i : Int) * (acceptors.length : Int) + (j : Int)) m).map
          fun hb => hb.Frames).getD 0 + 1)
      else
        (mapFind ((i : Int) * (acceptors.length : Int) + (j : Int)) m).map
          fun hb => hb.Frames) := by
  subst hA
  refine ⟨?_, ?_, ?_⟩
  · have hrun := runFrames_find_slot w donors i j frames n0 s hD hi hj
    have hnone := recordFold_none w s.series_ donors[i].1 donors[i].2 s.Acceptor_[j]
      (passedFrames s.dcut2_ s.acut_ donors[i].1 donors[i].2 s.Acceptor_[j] n0 frames)
    have hsnd := passedFrames_map_snd s.dcut2_ s.acut_ donors[i].1 donors[i].2 s.Acceptor_[j]
      frames n0
    have hlen : (qualifyingFrames s.dcut2_ s.acut_ donors[i].1 donors[i].2 s.Acceptor_[j]
        frames).length = (passedFrames s.dcut2_ s.acut_ donors[i].1 donors[i].2
          s.Acceptor_[j] n0 frames).length := by
      unfold qualifyingFrames; rw [← hsnd, List.length_map]
    have hsum : ((qualifyingFrames s.dcut2_ s.acut_ donors[i].1 donors[i].2 s.Acceptor_[j]
        frames).map fun f => w.sqrt (f.DIST2 s.Acceptor_[j] donors[i].1)).sum =
        ((passedFrames s.dcut2_ s.acut_ donors[i].1 donors[i].2 s.Acceptor_[j] n0 frames).map
          fun p => w.sqrt (p.2.DIST2 s.Acceptor_[j] donors[i].1)).sum := by
      unfold qualifyingFrames; rw [← hsnd, List.map_map]; rfl
    have hemp : (qualifyingFrames s.dcut2_ s.acut_ donors[i].1 donors[i].2 s.Acceptor_[j]
        frames).isEmpty = (passedFrames s.dcut2_ s.acut_ donors[i].1 donors[i].2
          s.Acceptor_[j] n0 frames).isEmpty := by
      unfold qualifyingFrames; rw [← hsnd]
      cases passedFrames s.dcut2_ s.acut_ donors[i].1 donors[i].2 s.Acceptor_[j] n0 frames <;>
        rfl
    rw [hrun, hM, hlen, hsum, hemp]
    have hmap := congrArg (Option.map fun t : Int × ℚ × Option (List Int) => (t.1, t.2.1)) hnone
    rw [Option.map_map] at hmap
    simp only [mapFind]
    rw [show ((fun hb : HbondType => (hb.Frames, hb.dist)) =
        (fun t : Int × ℚ × Option (List Int) => (t.1, t.2.1)) ∘
          fun hb : HbondType => (hb.Frames, hb.dist, hb.data_)) from rfl, hmap]
    split_ifs <;> rfl
  · rw [runFrames_find_not_slot w donors k frames n0 s hD hk, hM]
    rfl
  · have h := action_find_slot w f n { s with HbondMap_ := m } donors hD i j hi hj
    simp only at h
    rw [h]
    by_cases hacc : soluteAccepts s.dcut2_ s.acut_ f donors[i].1 donors[i].2 s.Acceptor_[j]
    · simp only [hacc, if_true, Option.map_some']
      cases mapFind ((i : Int) * (s.Acceptor_.length : Int) + (j : Int)) m <;>
        simp [soluteRecord, newSoluteHB, bumpHB]
    · simp [hacc]

theorem solute_registry_after_frames_witness :
    (scenarioA.Donor_ = flatDonors [(10, 11)] ∧ scenarioA.Acceptor_ = [20] ∧
      scenarioA.HbondMap_ = [] ∧ 0 < [((10 : Int), (11 : Int))].length ∧
      0 < [(20 : Int)].length ∧
      ((1 : Int) < 0 ∨
        (([((10 : Int), (11 : Int))].length : Nat) : Int) * (([(20 : Int)].length : Nat) : Int)
          ≤ 1)) ∧
    ((mapFind (((0 : Nat) : Int) * (([(20 : Int)].length : Nat) : Int) + ((0 : Nat) : Int))
        (runFrames demoWorld 0 [bondFrame] scenarioA).HbondMap_).map
          (fun hb => (hb.Frames, hb.dist)) =
      (if (qualifyingFrames scenarioA.dcut2_ scenarioA.acut_ 10 11 20 [bondFrame]).isEmpty
        then none
       else some
        (((qualifyingFrames scenarioA.dcut2_ scenarioA.acut_ 10 11 20 [bondFrame]).length : Int),
         ((qualifyingFrames scenarioA.dcut2_ scenarioA.acut_ 10 11 20 [bondFrame]).map
            fun f => demoWorld.sqrt (f.DIST2 20 10)).sum)) ∧
    mapFind 1 (runFrames demoWorld 0 [bondFrame] scenarioA).HbondMap_ = none ∧
    (mapFind (((0 : Nat) : Int) * (([(20 : Int)].length : Nat) : Int) + ((0 : Nat) : Int))
        (action demoWorld noBondFrame 1
          { scenarioA with HbondMap_ := [] }).HbondMap_).map (fun hb => hb.Frames) =
      (if soluteAccepts scenarioA.dcut2_ scenarioA.acut_ noBondFrame 10 11 20 then
        some (((mapFind (((0 : Nat) : Int) * (([(20 : Int)].length : Nat) : Int) +
          ((0 : Nat) : Int)) ([] : HBmapType)).map fun hb => hb.Frames).getD 0 + 1)
      else
        (mapFind (((0 : Nat) : Int) * (([(20 : Int)].length : Nat) : Int) +
          ((0 : Nat) : Int)) ([] : HBmapType)).map fun hb => hb.Frames)) :=
  ⟨⟨rfl, rfl, rfl, by decide, by decide, Or.inr (by decide)⟩,
    solute_registry_after_frames demoWorld scenarioA [(10, 11)] [20] [bondFrame] 0 0 0 1
      [] noBondFrame 1 rfl rfl rfl (by decide) (by decide) (Or.inr (by decide))⟩


/-! ### The per-bond series -/

theorem foldl_seriesSet_getElem? (t : Nat) :
    ∀ (ps : List (Nat × Frame)) (l : List Int),
      (ps.foldl (fun l p => seriesSet p.1 l) l)[t]? =
        if t ∈ ps.map Prod.fst ∧ t < l.length then some 1 else l[t]? := by
  intro ps
  induction ps with
  | nil => intro l; simp
  | cons p ps ih =>
    intro l
    rw [List.foldl_cons, ih]
    simp only [seriesSet, List.length_set, List.getElem?_set, List.map_cons, List.mem_cons]
    by_cases h1 : t ∈ ps.map Prod.fst
    · by_cases h2 : t < l.length
      · simp [h1, h2]
      · have h3 : l[t]? = none := List.getElem?_eq_none (not_lt.1 h2)
        by_cases h4 : p.1 = t
        · subst h4; simp [h2, h3]
        · simp [h2, h3, h4]
    · by_cases h4 : p.1 = t
      · subst h4
        by_cases h2 : p.1 < l.length
        · simp [h1, h2]
        · have h3 : l[p.1]? = none := List.getElem?_eq_none (not_lt.1 h2)
          simp [h1, h2, h3]
      · have h5 : ¬ t = p.1 := fun h => h4 h.symm
        simp [h1, h4, h5]

theorem passedFrames_mem_fst (dcut2 acut : ℚ) (D H A : Int) (t : Nat) :
    ∀ (fs : List Frame) (n : Nat),
      t ∈ (passedFrames dcut2 acut D H A n fs).map Prod.fst ↔
        n ≤ t ∧ ∃ f, fs[t - n]? = some f ∧ soluteAccepts dcut2 acut f D H A := by
  intro fs
  induction fs with
  | nil => intro n; simp [passedFrames]
  | cons f fs ih =>
    intro n
    have hstep : ∀ g : Frame, n + 1 ≤ t → ((f :: fs)[t - n]? = some g ↔ fs[t - (n + 1)]? = some g) := by
      intro g hle
      have : t - n = (t - (n + 1)) + 1 := by omega
      rw [this, List.getElem?_cons_succ]
    have hrest : t ∈ (passedFrames dcut2 acut D H A (n + 1) fs).map Prod.fst ↔
        n + 1 ≤ t ∧ ∃ g, (f :: fs)[t - n]? = some g ∧ soluteAccepts dcut2 acut g D H A := by
      rw [ih (n + 1)]
      constructor
      · rintro ⟨hle, g, hg, hacc⟩
        exact ⟨hle, g, (hstep g hle).2 hg, hacc⟩
      · rintro ⟨hle, g, hg, hacc⟩
        exact ⟨hle, g, (hstep g hle).1 hg, hacc⟩
    by_cases hacc : soluteAccepts dcut2 acut f D H A
    · simp only [passedFrames, hacc, if_true, List.map_cons, List.mem_cons, hrest]
      constructor
      · rintro (rfl | ⟨hle, g, hg, hg'⟩)
        · exact ⟨le_refl _, f, by simp, hacc⟩
        · exact ⟨by omega, g, hg, hg'⟩
      · rintro ⟨hle, g, hg, hg'⟩
        by_cases htn : t = n
        · exact Or.inl htn
        · exact Or.inr ⟨by omega, g, hg, hg'⟩
    · simp only [passedFrames, hacc, if_false, hrest]
      constructor
      · rintro ⟨hle, g, hg, hg'⟩
        exact ⟨by omega, g, hg, hg'⟩
      · rintro ⟨hle, g, hg, hg'⟩
        by_cases htn : t = n
        · subst htn
          simp at hg
          subst hg
          exact absurd hg' hacc
        · exact ⟨by omega, g, hg, hg'⟩

theorem series_eq_flags (dcut2 acut : ℚ) (D H A : Int) (fs : List Frame) :
    (passedFrames dcut2 acut D H A 0 fs).foldl (fun l p => seriesSet p.1 l)
        (seriesResize fs.length) =
      fs.map (passFlag dcut2 acut D H A) := by
  apply List.ext_getElem?
  intro t
  rw [foldl_seriesSet_getElem?]
  simp only [passedFrames_mem_fst, seriesResize, List.length_replicate, List.getElem?_replicate,
    List.getElem?_map, Nat.zero_le, true_and, Nat.sub_zero]
  by_cases ht : t < fs.length
  · have hget : fs[t]? = some fs[t] := List.getElem?_eq_getElem ht
    simp only [hget, Option.some.injEq, exists_eq_left', ht, and_true, if_true, Option.map_some',
      passFlag]
    by_cases hacc : soluteAccepts dcut2 acut fs[t] D H A <;> simp [hacc]
  · have hget : fs[t]? = none := List.getElem?_eq_none (not_lt.1 ht)
    simp [hget, ht]

/-- C8: with the series switched on, `MaxFrames` equal to the number of frames
and the frames numbered from 0, the record of every slot of the solute-solute
registry (there is one exactly when the candidate passed in some frame) carries
a series with one value per frame, 1 for the frames in which the candidate
passed the sweep's test and 0 for the others; keys that are no slot hold no
record. -/
theorem series_marks_passing_frames (w : World) (s : Action_Hbond)
    (donors : List (Int × Int)) (acceptors : List Int) (frames : List Frame)
    (i j : Nat) (k : Int)
    (hS : s.series_ = true) (hN : w.MaxFrames = frames.length)
    (hD : s.Donor_ = flatDonors donors) (hA : s.Acceptor_ = acceptors) (hM : s.HbondMap_ = [])
    (hi : i < donors.length) (hj : j < acceptors.length)
    (hk : k < 0 ∨ (donors.length : Int) * (acceptors.length : Int) ≤ k) :
    (mapFind ((i : Int) * (acceptors.length : Int) + (j : Int))
        (runFrames w 0 frames s).HbondMap_).map (fun hb => hb.data_) =
      (if (qualifyingFrames s.dcut2_ s.acut_ donors[i].1 donors[i].2 acceptors[j]
            frames).isEmpty then none
       else some (some
        (frames.map (passFlag s.dcut2_ s.acut_ donors[i].1 donors[i].2 acceptors[j])))) ∧
    (frames.map (passFlag s.dcut2_ s.acut_ donors[i].1 donors[i].2 acceptors[j])).length =
      w.MaxFrames ∧
    mapFind k (runFrames w 0 frames s).HbondMap_ = none := by
  subst hA
  refine ⟨?_, by rw [List.length_map, hN], ?_⟩
  · have hrun := runFrames_find_slot w donors i j frames 0 s hD hi hj
    have hnone := recordFold_none w s.series_ donors[i].1 donors[i].2 s.Acceptor_[j]
      (passedFrames s.dcut2_ s.acut_ donors[i].1 donors[i].2 s.Acceptor_[j] 0 frames)
    have hsnd := passedFrames_map_snd s.dcut2_ s.acut_ donors[i].1 donors[i].2 s.Acceptor_[j]
      frames 0
    have hemp : (qualifyingFrames s.dcut2_ s.acut_ donors[i].1 donors[i].2 s.Acceptor_[j]
        frames).isEmpty = (passedFrames s.dcut2_ s.acut_ donors[i].1 donors[i].2
          s.Acceptor_[j] 0 frames).isEmpty := by
      unfold qualifyingFrames; rw [← hsnd]
      cases passedFrames s.dcut2_ s.acut_ donors[i].1 donors[i].2 s.Acceptor_[j] 0 frames <;>
        rfl
    rw [hrun, hM, hemp]
    have hmap := congrArg (Option.map fun t : Int × ℚ × Option (List Int) => t.2.2) hnone
    rw [Option.map_map] at hmap
    simp only [mapFind]
    rw [show ((fun hb : HbondType => hb.data_) =
        (fun t : Int × ℚ × Option (List Int) => t.2.2) ∘
          fun hb : HbondType => (hb.Frames, hb.dist, hb.data_)) from rfl, hmap]
    simp only [hS, hN, series_eq_flags, if_true]
    split_ifs <;> rfl
  · rw [runFrames_find_not_slot w donors k frames 0 s hD hk, hM]
    rfl

theorem series_marks_passing_frames_witness :
    (scenarioC.series_ = true ∧ demoWorld.MaxFrames = [noBondFrame, bondFrame].length ∧
      scenarioC.Donor_ = flatDonors [(10, 11)] ∧ scenarioC.Acceptor_ = [20] ∧
      scenarioC.HbondMap_ = [] ∧ 0 < [((10 : Int), (11 : Int))].length ∧
      0 < [(20 : Int)].length ∧
      ((1 : Int) < 0 ∨
        (([((10 : Int), (11 : Int))].length : Nat) : Int) * (([(20 : Int)].length : Nat) : Int)
          ≤ 1)) ∧
    ((mapFind (((0 : Nat) : Int) * (([(20 : Int)].length : Nat) : Int) + ((0 : Nat) : Int))
        (runFrames demoWorld 0 [noBondFrame, bondFrame] scenarioC).HbondMap_).map
          (fun hb => hb.data_) =
      (if (qualifyingFrames scenarioC.dcut2_ scenarioC.acut_ 10 11 20
            [noBondFrame, bondFrame]).isEmpty then none
       else some (some
        ([noBondFrame, bondFrame].map (passFlag scenarioC.dcut2_ scenarioC.acut_ 10 11 20)))) ∧
    ([noBondFrame, bondFrame].map (passFlag scenarioC.dcut2_ scenarioC.acut_ 10 11 20)).length =
      demoWorld.MaxFrames ∧
    mapFind 1 (runFrames demoWorld 0 [noBondFrame, bondFrame] scenarioC).HbondMap_ = none) ∧
    [noBondFrame, bondFrame].map (passFlag scenarioC.dcut2_ scenarioC.acut_ 10 11 20) = [0, 1] :=
  ⟨⟨rfl, rfl, rfl, rfl, rfl, by decide, by decide, Or.inr (by decide)⟩,
    series_marks_passing_frames demoWorld scenarioC [(10, 11)] [20] [noBondFrame, bondFrame]
      0 0 1 rfl rfl rfl rfl rfl (by decide) (by decide) (Or.inr (by decide)),
    by norm_num [passFlag, soluteAccepts, scenarioC, scenarioA, freshAction, noBondFrame,
      bondFrame, constFrame]⟩


/-! ### The solvent sweeps as a list of contacts -/

theorem acceptorFold_contacts (w : World) (s : Action_Hbond) (f : Frame) (n : Nat) (D H : Int) :
    ∀ (accs : List Int) (st : SolventState),
      (accs.foldl (fun st a => solventAcceptorCandidate w s f n D H a st) st).numHB =
          st.numHB + (((accs.filter fun a =>
            decide (solventAccepts s.dcut2_ s.acut_ f a D H)).length : Nat) : Int) ∧
      (accs.foldl (fun st a => solventAcceptorCandidate w s f n D H a st) st).solvent2solute =
          ((accs.filter fun a => decide (solventAccepts s.dcut2_ s.acut_ f a D H)).map
            fun a => (w.Mol a, w.ResNum D)).foldl (fun m c => touch c.1 c.2 m)
            st.solvent2solute := by
  intro accs
  induction accs with
  | nil => intro st; simp
  | cons a accs ih =>
    intro st
    rw [List.foldl_cons]
    obtain ⟨h1, h2⟩ := ih (solventAcceptorCandidate w s f n D H a st)
    rw [h1, h2, solventAcceptorCandidate_eq]
    by_cases hacc : solventAccepts s.dcut2_ s.acut_ f a D H
    · simp [hacc, List.filter_cons]; ring
    · simp [hacc, List.filter_cons]

theorem donorFold_contacts (w : World) (s : Action_Hbond) (f : Frame) (n : Nat) (D H : Int) :
    ∀ (accs : List Int) (st : SolventState),
      (accs.foldl (fun st a => soluteAcceptorCandidate w s f n D H a st) st).numHB =
          st.numHB + (((accs.filter fun a =>
            decide (solventAccepts s.dcut2_ s.acut_ f a D H)).length : Nat) : Int) ∧
      (accs.foldl (fun st a => soluteAcceptorCandidate w s f n D H a st) st).solvent2solute =
          ((accs.filter fun a => decide (solventAccepts s.dcut2_ s.acut_ f a D H)).map
            fun a => (w.Mol D, w.ResNum a)).foldl (fun m c => touch c.1 c.2 m)
            st.solvent2solute := by
  intro accs
  induction accs with
  | nil => intro st; simp
  | cons a accs ih =>
    intro st
    rw [List.foldl_cons]
    obtain ⟨h1, h2⟩ := ih (soluteAcceptorCandidate w s f n D H a st)
    rw [h1, h2, soluteAcceptorCandidate_eq]
    by_cases hacc : solventAccepts s.dcut2_ s.acut_ f a D H
    · simp [hacc, List.filter_cons]; ring
    · simp [hacc, List.filter_cons]

theorem solventAcceptorSweep_contacts (w : World) (s : Action_Hbond) (f : Frame) (n : Nat) :
    ∀ (donors : List (Int × Int)) (st : SolventState),
      (solventAcceptorSweep w s f n (flatDonors donors) st).numHB =
          st.numHB + (((contactsA w s f donors).length : Nat) : Int) ∧
      (solventAcceptorSweep w s f n (flatDonors donors) st).solvent2solute =
          (contactsA w s f donors).foldl (fun m c => touch c.1 c.2 m) st.solvent2solute := by
  intro donors
  induction donors with
  | nil => intro st; simp [flatDonors, solventAcceptorSweep, contactsA]
  | cons d donors ih =>
    intro st
    obtain ⟨D, H⟩ := d
    have hflat : flatDonors ((D, H) :: donors) = D :: H :: flatDonors donors := by
      simp [flatDonors]
    obtain ⟨h1, h2⟩ := acceptorFold_contacts w s f n D H s.SolventAcceptor_ st
    obtain ⟨h3, h4⟩ := ih
      (s.SolventAcceptor_.foldl (fun st a => solventAcceptorCandidate w s f n D H a st) st)
    rw [hflat, solventAcceptorSweep, h3, h4, h1, h2]
    constructor
    · simp only [contactsA, List.flatMap_cons, List.length_append, List.length_map,
        Nat.cast_add]
      ring
    · simp only [contactsA, List.flatMap_cons, List.foldl_append]

theorem solventDonorSweep_contacts (w : World) (s : Action_Hbond) (f : Frame) (n : Nat) :
    ∀ (solventDonors : List (Int × Int)) (st : SolventState),
      (solventDonorSweep w s f n (flatDonors solventDonors) st).numHB =
          st.numHB + (((contactsB w s f solventDonors).length : Nat) : Int) ∧
      (solventDonorSweep w s f n (flatDonors solventDonors) st).solvent2solute =
          (contactsB w s f solventDonors).foldl (fun m c => touch c.1 c.2 m)
            st.solvent2solute := by
  intro donors
  induction donors with
  | nil => intro st; simp [flatDonors, solventDonorSweep, contactsB]
  | cons d donors ih =>
    intro st
    obtain ⟨D, H⟩ := d
    have hflat : flatDonors ((D, H) :: donors) = D :: H :: flatDonors donors := by
      simp [flatDonors]
    obtain ⟨h1, h2⟩ := donorFold_contacts w s f n D H s.Acceptor_ st
    obtain ⟨h3, h4⟩ := ih
      (s.Acceptor_.foldl (fun st a => soluteAcceptorCandidate w s f n D H a st) st)
    rw [hflat, solventDonorSweep, h3, h4, h1, h2]
    constructor
    · simp only [contactsB, List.flatMap_cons, List.length_append, List.length_map,
        Nat.cast_add]
      ring
    · simp only [contactsB, List.flatMap_cons, List.foldl_append]

theorem solventSweeps_contacts (w : World) (s : Action_Hbond) (f : Frame) (n : Nat)
    (donors solventDonors : List (Int × Int))
    (hD : s.Donor_ = flatDonors donors) (hSD : s.SolventDonor_ = flatDonors solventDonors) :
    (solventSweeps w s f n).2 =
        (((frameContacts w s f donors solventDonors).length : Nat) : Int) ∧
    (solventSweeps w s f n).1.solvent2solute =
        (frameContacts w s f donors solventDonors).foldl (fun m c => touch c.1 c.2 m) [] := by
  unfold solventSweeps frameContacts
  rw [hD, hSD]
  by_cases ha : s.hasSolventAcceptor_ = true <;> by_cases hd : s.hasSolventDonor_ = true
  · obtain ⟨h1, h2⟩ := solventAcceptorSweep_contacts w s f n donors
      { SolventMap_ := s.SolventMap_, numHB := 0, solvent2solute := [] }
    simp only [ha, hd, if_true, h1, h2, List.length_append, List.foldl_append, Nat.cast_add]
    constructor
    · rw [(solventDonorSweep_contacts w s f n solventDonors _).1]
      simp
    · rw [(solventDonorSweep_contacts w s f n solventDonors _).2]
  · obtain ⟨h1, h2⟩ := solventAcceptorSweep_contacts w s f n donors
      { SolventMap_ := s.SolventMap_, numHB := 0, solvent2solute := [] }
    simp only [ha, hd, if_true, if_false, h1, h2, List.append_nil, Bool.false_eq_true]
    simp
  · obtain ⟨h3, h4⟩ := solventDonorSweep_contacts w s f n solventDonors
      { SolventMap_ := s.SolventMap_, numHB := 0, solvent2solute := [] }
    simp only [ha, hd, if_true, if_false, h3, h4, List.nil_append, Bool.false_eq_true]
    simp
  · simp [ha, hd]


/-! ### Sets of residues and the keys of a map -/

theorem mem_setInsert (r r' : Int) :
    ∀ rs : List Int, r' ∈ setInsert r rs ↔ r' = r ∨ r' ∈ rs := by
  intro rs
  induction rs with
  | nil => simp [setInsert]
  | cons y ys ih =>
    simp only [setInsert]
    split_ifs with h1 h2
    · simp
    · simp only [List.mem_cons, ih]
      tauto
    · have hxy : r = y := by omega
      subst hxy
      simp

theorem setInsert_pairwise (r : Int) :
    ∀ rs : List Int, rs.Pairwise (· < ·) → (setInsert r rs).Pairwise (· < ·) := by
  intro rs
  induction rs with
  | nil => intro _; simp [setInsert]
  | cons y ys ih =>
    intro h
    rw [List.pairwise_cons] at h
    simp only [setInsert]
    split_ifs with h1 h2
    · rw [List.pairwise_cons]
      refine ⟨?_, List.pairwise_cons.2 h⟩
      intro z hz
      rcases List.mem_cons.1 hz with rfl | hz
      · exact h1
      · exact lt_trans h1 (h.1 z hz)
    · rw [List.pairwise_cons]
      refine ⟨?_, ih h.2⟩
      intro z hz
      rcases (mem_setInsert r z ys).1 hz with rfl | hz
      · exact h2
      · exact h.1 z hz
    · exact List.pairwise_cons.2 h

section KeyLemmas

variable {K V : Type} [DecidableEq K]

theorem mapFind_eq_none_iff (k : K) :
    ∀ m : List (K × V), mapFind k m = none ↔ k ∉ m.map Prod.fst := by
  intro m
  induction m with
  | nil => simp [mapFind]
  | cons e m ih =>
    obtain ⟨k₀, v₀⟩ := e
    by_cases hk : k₀ = k
    · simp [mapFind, hk]
    · have hk' : ¬ k = k₀ := fun h => hk h.symm
      simp [mapFind, hk, hk', ih]

theorem mapFind_of_mem (k : K) (v : V) :
    ∀ m : List (K × V), (m.map Prod.fst).Nodup → (k, v) ∈ m → mapFind k m = some v := by
  intro m
  induction m with
  | nil => intro _ h; simp at h
  | cons e m ih =>
    obtain ⟨k₀, v₀⟩ := e
    intro hnd hmem
    rw [List.map_cons, List.nodup_cons] at hnd
    rcases List.mem_cons.1 hmem with heq | hmem
    · cases heq
      simp [mapFind]
    · have hk : ¬ k₀ = k := by
        intro h
        subst h
        have hfst : (k₀, v).1 ∈ m.map Prod.fst := List.mem_map_of_mem Prod.fst hmem
        exact hnd.1 hfst
      simp [mapFind, hk, ih hnd.2 hmem]

theorem mapModify_keys (k : K) (f : V → V) :
    ∀ m : List (K × V), (mapModify k f m).map Prod.fst = m.map Prod.fst := by
  intro m
  induction m with
  | nil => rfl
  | cons e m ih =>
    obtain ⟨k₀, v₀⟩ := e
    by_cases hk : k₀ = k <;> simp [mapModify, hk, ih]

theorem mapInsert_keys_perm [LT K] [DecidableRel (α := K) (· < ·)]
    (htri : ∀ a b : K, ¬ a < b → ¬ b < a → a = b) (k : K) (v : V) :
    ∀ m : List (K × V), mapFind k m = none →
      ((mapInsert k v m).map Prod.fst).Perm (k :: m.map Prod.fst) := by
  intro m
  induction m with
  | nil => intro _; simp [mapInsert]
  | cons e m ih =>
    obtain ⟨k₀, v₀⟩ := e
    intro hm
    have hk : ¬ k₀ = k := by
      intro hk; simp [mapFind, hk] at hm
    have hm' : mapFind k m = none := by simpa [mapFind, hk] using hm
    simp only [mapInsert]
    split_ifs with h1 h2
    · exact List.Perm.refl _
    · simp only [List.map_cons]
      exact ((ih hm').cons k₀).trans (List.Perm.swap k k₀ _)
    · exact absurd (htri k k₀ h1 h2).symm hk

end KeyLemmas

theorem mapFind_touch (M r M' : Int) (T : List (Int × List Int)) :
    mapFind M' (touch M r T) =
      if M' = M then some (setInsert r ((mapFind M T).getD [])) else mapFind M' T := by
  unfold touch
  by_cases hM : M' = M
  · subst hM
    cases hm : mapFind M' T with
    | none =>
      simp [mapFind_mapModify_self, mapFind_mapInsert_self int_trichotomy _ _ hm]
    | some rs => simp [mapFind_mapModify_self, hm]
  · have hM' : M ≠ M' := fun h => hM h.symm
    cases hm : mapFind M T with
    | none => simp [hM, mapFind_mapModify_of_ne _ hM', mapFind_mapInsert_of_ne _ hM']
    | some rs => simp [hM, mapFind_mapModify_of_ne _ hM']

theorem touch_keys_nodup (M r : Int) (T : List (Int × List Int))
    (h : (T.map Prod.fst).Nodup) : ((touch M r T).map Prod.fst).Nodup := by
  unfold touch
  cases hm : mapFind M T with
  | none =>
    simp only [mapModify_keys]
    have hperm := mapInsert_keys_perm int_trichotomy M ([] : List Int) T hm
    rw [hperm.nodup_iff, List.nodup_cons]
    exact ⟨(mapFind_eq_none_iff M T).1 hm, h⟩
  | some rs =>
    simp only [mapModify_keys]
    exact h


/-! ### The table `solvent2solute` built from the contacts of a frame -/

theorem touch_inv (M r : Int) (T : List (Int × List Int)) (done : List (Int × Int))
    (h1 : (T.map Prod.fst).Nodup)
    (h2 : ∀ M', mapFind M' T = none ↔ M' ∉ done.map Prod.fst)
    (h3 : ∀ M' rs, mapFind M' T = some rs →
      rs.Pairwise (· < ·) ∧ ∀ r', r' ∈ rs ↔ (M', r') ∈ done) :
    ((touch M r T).map Prod.fst).Nodup ∧
    (∀ M', mapFind M' (touch M r T) = none ↔ M' ∉ (done ++ [(M, r)]).map Prod.fst) ∧
    (∀ M' rs, mapFind M' (touch M r T) = some rs →
      rs.Pairwise (· < ·) ∧ ∀ r', r' ∈ rs ↔ (M', r') ∈ done ++ [(M, r)]) := by
  refine ⟨touch_keys_nodup M r T h1, ?_, ?_⟩
  · intro M'
    rw [mapFind_touch]
    by_cases hM : M' = M
    · simp [hM]
    · simp only [hM, if_false, h2 M', List.map_append, List.mem_append, List.map_cons,
        List.map_nil, List.mem_singleton, or_false]
  · intro M' rs hfind
    rw [mapFind_touch] at hfind
    by_cases hM : M' = M
    · subst hM
      simp only [if_true, Option.some.injEq] at hfind
      subst hfind
      cases hold : mapFind M' T with
      | none =>
        have hnot : M' ∉ done.map Prod.fst := (h2 M').1 hold
        have hnot' : ∀ r', (M', r') ∉ done := by
          intro r' hmem
          exact hnot (List.mem_map_of_mem Prod.fst hmem)
        refine ⟨by simp [setInsert], ?_⟩
        intro r'
        simp [setInsert, hnot' r']
      | some old =>
        obtain ⟨hp, hmem⟩ := h3 M' old hold
        refine ⟨setInsert_pairwise r old hp, ?_⟩
        intro r'
        simp only [Option.getD_some, mem_setInsert, hmem r', List.mem_append,
          List.mem_singleton, Prod.mk.injEq, true_and]
        tauto
    · simp only [hM, if_false] at hfind
      obtain ⟨hp, hmem⟩ := h3 M' rs hfind
      refine ⟨hp, ?_⟩
      intro r'
      simp [hmem r', hM]

theorem touchFold_inv :
    ∀ (cs done : List (Int × Int)) (T : List (Int × List Int)),
      (T.map Prod.fst).Nodup →
      (∀ M', mapFind M' T = none ↔ M' ∉ done.map Prod.fst) →
      (∀ M' rs, mapFind M' T = some rs →
        rs.Pairwise (· < ·) ∧ ∀ r', r' ∈ rs ↔ (M', r') ∈ done) →
      ((cs.foldl (fun m c => touch c.1 c.2 m) T).map Prod.fst).Nodup ∧
      (∀ M', mapFind M' (cs.foldl (fun m c => touch c.1 c.2 m) T) = none ↔
        M' ∉ (done ++ cs).map Prod.fst) ∧
      (∀ M' rs, mapFind M' (cs.foldl (fun m c => touch c.1 c.2 m) T) = some rs →
        rs.Pairwise (· < ·) ∧ ∀ r', r' ∈ rs ↔ (M', r') ∈ done ++ cs) := by
  intro cs
  induction cs with
  | nil =>
    intro done T h1 h2 h3
    simp only [List.foldl_nil, List.append_nil]
    exact ⟨h1, h2, h3⟩
  | cons c cs ih =>
    intro done T h1 h2 h3
    obtain ⟨g1, g2, g3⟩ := touch_inv c.1 c.2 T done h1 h2 h3
    have key := ih (done ++ [(c.1, c.2)]) (touch c.1 c.2 T) g1 g2 g3
    have happ : done ++ [(c.1, c.2)] ++ cs = done ++ c :: cs := by simp
    rw [happ] at key
    exact key

theorem bridgeLoop_count :
    ∀ (l : List (Int × List Int)) (st : BridgeType × Int),
      (bridgeLoop l st).2 =
        st.2 + ((l.countP fun e => decide (e.2.length > 1) : Nat) : Int) := by
  intro l
  induction l with
  | nil => intro st; simp [bridgeLoop]
  | cons e l ih =>
    intro st
    by_cases h : e.2.length > 1
    · simp only [bridgeLoop, h, if_true, ih, List.countP_cons, decide_True, Nat.cast_add,
        Nat.cast_one]
      ring
    · simp [bridgeLoop, h, ih, List.countP_cons]

theorem contact_residues_card (cs : List (Int × Int)) (M : Int) (rs : List Int)
    (hp : rs.Pairwise (· < ·)) (hmem : ∀ r, r ∈ rs ↔ (M, r) ∈ cs) :
    ((cs.filter fun c => decide (c.1 = M)).map Prod.snd).toFinset.card = rs.length := by
  have hnd : rs.Nodup := hp.imp (fun h => ne_of_lt h)
  rw [← List.toFinset_card_of_nodup hnd]
  congr 1
  ext r
  simp only [List.mem_toFinset, List.mem_map, List.mem_filter, decide_eq_true_eq, hmem r]
  constructor
  · rintro ⟨c, ⟨hc, hc1⟩, hc2⟩
    obtain ⟨c1, c2⟩ := c
    simp only at hc1 hc2
    subst hc1 hc2
    exact hc
  · intro h
    exact ⟨(M, r), ⟨h, rfl⟩, rfl⟩

theorem table_bridge_count (cs : List (Int × Int)) (T : List (Int × List Int))
    (h1 : (T.map Prod.fst).Nodup)
    (h2 : ∀ M', mapFind M' T = none ↔ M' ∉ cs.map Prod.fst)
    (h3 : ∀ M' rs, mapFind M' T = some rs →
      rs.Pairwise (· < ·) ∧ ∀ r', r' ∈ rs ↔ (M', r') ∈ cs) :
    T.countP (fun e => decide (e.2.length > 1)) = (bridgingMolecules cs).card := by
  have hentry : ∀ e ∈ T, decide (e.2.length > 1) =
      decide (2 ≤ ((cs.filter fun c => decide (c.1 = e.1)).map Prod.snd).toFinset.card) := by
    intro e he
    obtain ⟨M, rs⟩ := e
    obtain ⟨hp, hmem⟩ := h3 M rs (mapFind_of_mem M rs T h1 he)
    rw [contact_residues_card cs M rs hp hmem]
    simp only [gt_iff_lt, decide_eq_decide]
    omega
  have hkeys : (T.map Prod.fst).toFinset = (cs.map Prod.fst).toFinset := by
    ext M
    simp only [List.mem_toFinset]
    have := h2 M
    rw [mapFind_eq_none_iff] at this
    exact not_iff_not.1 this
  have hfilt : (T.map Prod.fst).toFinset.filter (fun M =>
        2 ≤ ((cs.filter fun c => decide (c.1 = M)).map Prod.snd).toFinset.card) =
      ((T.map Prod.fst).filter fun M =>
        decide (2 ≤ ((cs.filter fun c => decide (c.1 = M)).map Prod.snd).toFinset.card)).toFinset := by
    ext M
    simp [List.mem_filter]
  unfold bridgingMolecules
  rw [← hkeys, hfilt, List.toFinset_card_of_nodup (h1.filter _),
    ← List.countP_eq_length_filter, List.countP_map]
  exact List.countP_congr (fun e he => by simp [hentry e he])


/-! ### Bridging solvent -/

theorem action_NumBridge (w : World) (f : Frame) (n : Nat) (s : Action_Hbond)
    (hC : s.calcSolvent_ = true) :
    (action w f n s).NumBridge_ =
      s.NumBridge_ ++
        [(n, (bridgeLoop
          (solventSweeps w
            { s with
              HbondMap_ := (soluteDonorLoop w s f n s.Donor_ 0 (s.HbondMap_, 0)).1.1,
              NumHbonds_ := s.NumHbonds_ ++
                [(n, (soluteDonorLoop w s f n s.Donor_ 0 (s.HbondMap_, 0)).1.2)] }
            f n).1.solvent2solute (s.BridgeMap_, 0)).2)] := by
  unfold action
  simp [hC]

/-- C9: the bridge count stored for a frame is the number of solvent
molecules that, through the solute-solvent candidates accepted in that frame
(both sweeps), touch at least two distinct solute residues. The count is a
function of the frame and the lists only: nothing recorded in earlier frames
enters it. -/
theorem bridge_count_of_frame (w : World) (s : Action_Hbond) (f : Frame) (n : Nat)
    (donors solventDonors : List (Int × Int))
    (hC : s.calcSolvent_ = true)
    (hD : s.Donor_ = flatDonors donors) (hSD : s.SolventDonor_ = flatDonors solventDonors) :
    (action w f n s).NumBridge_ =
      s.NumBridge_ ++
        [(n, (((bridgingMolecules (frameContacts w s f donors solventDonors)).card : Nat) : Int))] := by
  rw [action_NumBridge w f n s hC]
  have hsw := (solventSweeps_contacts w
    { s with
      HbondMap_ := (soluteDonorLoop w s f n s.Donor_ 0 (s.HbondMap_, 0)).1.1,
      NumHbonds_ := s.NumHbonds_ ++
        [(n, (soluteDonorLoop w s f n s.Donor_ 0 (s.HbondMap_, 0)).1.2)] }
    f n donors solventDonors hD hSD).2
  rw [hsw, bridgeLoop_count]
  have hinv := touchFold_inv
    (frameContacts w
      { s with
        HbondMap_ := (soluteDonorLoop w s f n s.Donor_ 0 (s.HbondMap_, 0)).1.1,
        NumHbonds_ := s.NumHbonds_ ++
          [(n, (soluteDonorLoop w s f n s.Donor_ 0 (s.HbondMap_, 0)).1.2)] }
      f donors solventDonors) [] []
    (by simp) (by intro M'; simp [mapFind]) (by intro M' rs h; simp [mapFind] at h)
  obtain ⟨g1, g2, g3⟩ := hinv
  rw [List.nil_append] at g2 g3
  rw [table_bridge_count _ _ g1 g2 g3]
  simp only [zero_add]
  rfl

theorem bridge_count_of_frame_witness :
    (scenarioD.calcSolvent_ = true ∧ scenarioD.Donor_ = flatDonors [] ∧
      scenarioD.SolventDonor_ = flatDonors [(100, 101)]) ∧
    (action demoWorld frameD0 0 scenarioD).NumBridge_ =
      scenarioD.NumBridge_ ++
        [(0, (((bridgingMolecules
          (frameContacts demoWorld scenarioD frameD0 [] [(100, 101)])).card : Nat) : Int))] ∧
    (runFrames demoWorld 0 [frameD0, bondFrame] scenarioD).NumBridge_ = [(0, 0), (1, 1)] ∧
    (runFrames demoWorld 0 [frameD0] scenarioD).BridgeMap_ = [] ∧
    (runFrames demoWorld 0 [frameD0, bondFrame] scenarioD).BridgeMap_ = [([2, 5], 1)] := by
  refine ⟨⟨rfl, rfl, rfl⟩,
    bridge_count_of_frame demoWorld scenarioD frameD0 0 [] [(100, 101)] rfl rfl rfl, ?_, ?_, ?_⟩ <;>
  norm_num [runFrames, action, scenarioD, freshAction, frameD0, bondFrame, constFrame,
    soluteDonorLoop, solventSweeps, solventDonorSweep, solventAcceptorSweep,
    soluteAcceptorCandidate, AtomsAreHbonded, mapFind, mapInsert, mapModify, newSolventHB, bumpHB,
    touch, setInsert, bridgeLoop, bridgeRecord, demoWorld]


/-! ### Residue sets as keys of `BridgeMap_` -/

theorem setFold_pairwise :
    ∀ (l s : List Int), s.Pairwise (· < ·) →
      (l.foldl (fun s x => setInsert x s) s).Pairwise (· < ·) := by
  intro l
  induction l with
  | nil => intro s h; exact h
  | cons x l ih => intro s h; exact ih _ (setInsert_pairwise x s h)

theorem mem_setFold (y : Int) :
    ∀ (l s : List Int), y ∈ l.foldl (fun s x => setInsert x s) s ↔ y ∈ s ∨ y ∈ l := by
  intro l
  induction l with
  | nil => intro s; simp
  | cons x l ih =>
    intro s
    rw [List.foldl_cons, ih, mem_setInsert, List.mem_cons]
    tauto

theorem residueSet_eq_iff (l1 l2 : List Int) :
    residueSet l1 = residueSet l2 ↔ ∀ x, x ∈ l1 ↔ x ∈ l2 := by
  have hmem : ∀ (l : List Int) (x : Int), x ∈ residueSet l ↔ x ∈ l := by
    intro l x
    unfold residueSet
    rw [mem_setFold]
    simp
  have hsorted : ∀ l : List Int, (residueSet l).Pairwise (· < ·) :=
    fun l => setFold_pairwise l [] List.Pairwise.nil
  constructor
  · intro h x
    rw [← hmem l1 x, ← hmem l2 x, h]
  · intro h
    have hnd1 : (residueSet l1).Nodup := (hsorted l1).imp (fun h => ne_of_lt h)
    have hnd2 : (residueSet l2).Nodup := (hsorted l2).imp (fun h => ne_of_lt h)
    have hperm : (residueSet l1).Perm (residueSet l2) :=
      (List.perm_ext_iff_of_nodup hnd1 hnd2).2 (fun x => by rw [hmem l1 x, hmem l2 x, h x])
    exact List.eq_of_perm_of_sorted hperm (hsorted l1) (hsorted l2)

theorem list_int_trichotomy : ∀ a b : List Int, ¬ a < b → ¬ b < a → a = b := by
  intro a b h1 h2
  exact le_antisymm (not_lt.1 h2) (not_lt.1 h1)

theorem mapFind_bridgeRecord (key k : List Int) (bm : BridgeType) :
    mapFind k (bridgeRecord key bm) =
      if k = key then some ((mapFind key bm).getD 0 + 1) else mapFind k bm := by
  unfold bridgeRecord
  by_cases hk : k = key
  · subst hk
    cases hm : mapFind k bm with
    | none => simp [mapFind_mapInsert_self list_int_trichotomy _ _ hm]
    | some c => simp [mapFind_mapModify_self, hm]
  · have hk' : key ≠ k := fun h => hk h.symm
    cases hm : mapFind key bm with
    | none => simp [hk, mapFind_mapInsert_of_ne _ hk']
    | some c => simp [hk, mapFind_mapModify_of_ne _ hk']

theorem touchFold_find (M : Int) :
    ∀ (cs : List (Int × Int)) (T : List (Int × List Int)),
      mapFind M (cs.foldl (fun m c => touch c.1 c.2 m) T) =
        if (cs.filter fun c => decide (c.1 = M)).isEmpty then mapFind M T
        else some (((cs.filter fun c => decide (c.1 = M)).map Prod.snd).foldl
          (fun s x => setInsert x s) ((mapFind M T).getD [])) := by
  intro cs
  induction cs with
  | nil => intro T; simp
  | cons c cs ih =>
    intro T
    rw [List.foldl_cons, ih, mapFind_touch]
    by_cases hc : c.1 = M
    · subst hc
      simp only [List.filter_cons, decide_True, if_true, List.isEmpty_cons, Bool.false_eq_true,
        if_false, List.map_cons, List.foldl_cons, Option.getD_some]
      split_ifs with h
      · rw [List.isEmpty_iff] at h
        simp [h]
      · rfl
    · have hc' : ¬ M = c.1 := fun h => hc h.symm
      have hf : (c :: cs).filter (fun c => decide (c.1 = M)) =
          cs.filter (fun c => decide (c.1 = M)) := by
        rw [List.filter_cons]
        simp [hc]
      rw [hf]
      simp [hc']

/-- C10: two residue sets, each filled in any order of insertion, address the
same entry of `BridgeMap_` exactly when they have the same members. Recording
the set of `l2` bumps the entry of the set of `l1` if and only if every member
of one is a member of the other, and leaves that entry as it was if and only if
the members differ (whatever the sizes); the recorded set always has an entry
afterwards. The set a solvent molecule gets in the per-frame table is the set
of the residues of its contacts, inserted in contact order. -/
theorem bridge_record_shared_iff_same_members (bm : BridgeType) (l1 l2 : List Int)
    (cs : List (Int × Int)) (M : Int) :
    (mapFind (residueSet l1) (bridgeRecord (residueSet l2) bm) =
        some ((mapFind (residueSet l1) bm).getD 0 + 1) ↔ ∀ x, x ∈ l1 ↔ x ∈ l2) ∧
    (mapFind (residueSet l1) (bridgeRecord (residueSet l2) bm) = mapFind (residueSet l1) bm ↔
        ¬ ∀ x, x ∈ l1 ↔ x ∈ l2) ∧
    (mapFind (residueSet l2) (bridgeRecord (residueSet l2) bm)).isSome = true ∧
    mapFind M (cs.foldl (fun m c => touch c.1 c.2 m) []) =
      (if (cs.filter fun c => decide (c.1 = M)).isEmpty then none
       else some (residueSet ((cs.filter fun c => decide (c.1 = M)).map Prod.snd))) := by
  have hneq : ∀ o : Option Int, o ≠ some (o.getD 0 + 1) := by
    intro o
    cases o with
    | none => simp
    | some c => simp
  refine ⟨?_, ?_, ?_, ?_⟩
  · rw [mapFind_bridgeRecord, ← residueSet_eq_iff]
    by_cases h : residueSet l1 = residueSet l2
    · simp [h]
    · simp only [h, if_false, iff_false]
      exact hneq _
  · rw [mapFind_bridgeRecord, ← residueSet_eq_iff]
    by_cases h : residueSet l1 = residueSet l2
    · simp only [h, if_true, not_true_eq_false, iff_false]
      exact fun h' => hneq _ h'.symm
    · simp [h]
  · rw [mapFind_bridgeRecord]
    simp
  · rw [touchFold_find]
    rfl


/-! ### `SearchAcceptor` and `SearchDonor` -/

theorem searchAcceptor_eq (parm : Topology) (Auto : Bool) (amask : AtomMask) :
    ∀ alist : List Int,
      SearchAcceptor parm alist amask Auto =
        alist ++ amask.Selected_.filter fun atom => !Auto || isFON parm atom := by
  unfold SearchAcceptor
  induction amask.Selected_ with
  | nil => intro alist; simp
  | cons a l ih =>
    intro alist
    rw [List.foldl_cons, ih]
    cases Auto <;> cases h : isFON parm a <;> simp [searchAcceptorAtom, h, List.filter_cons]

/-- C19: `SearchAcceptor` appends to the acceptor list the atoms of the mask
that satisfy (not auto-filtering) or (element is F, O or N), in mask order and
with nothing else: the appended part is the filter of the selected atoms. With
auto-filtering off it is the selection itself; with it on it is a sublist of
the selection all of whose atoms are F, O or N. -/
theorem searchAcceptor_appends_filtered (parm : Topology) (alist : List Int)
    (amask : AtomMask) (Auto : Bool) :
    SearchAcceptor parm alist amask Auto =
      alist ++ amask.Selected_.filter (fun atom =>
        decide (Auto = false ∨ (parm.atom atom).Element = AtomicElementType.FLUORINE ∨
          (parm.atom atom).Element = AtomicElementType.OXYGEN ∨
          (parm.atom atom).Element = AtomicElementType.NITROGEN)) ∧
    SearchAcceptor parm alist amask false = alist ++ amask.Selected_ ∧
    (amask.Selected_.filter (fun atom =>
        decide ((parm.atom atom).Element = AtomicElementType.FLUORINE ∨
          (parm.atom atom).Element = AtomicElementType.OXYGEN ∨
          (parm.atom atom).Element = AtomicElementType.NITROGEN))).Sublist amask.Selected_ ∧
    SearchAcceptor parm alist amask true =
      alist ++ amask.Selected_.filter (fun atom =>
        decide ((parm.atom atom).Element = AtomicElementType.FLUORINE ∨
          (parm.atom atom).Element = AtomicElementType.OXYGEN ∨
          (parm.atom atom).Element = AtomicElementType.NITROGEN)) := by
  refine ⟨?_, ?_, List.filter_sublist _, ?_⟩
  · rw [searchAcceptor_eq]
    congr 1
    apply List.filter_congr
    intro a _
    cases Auto <;> simp [isFON, Bool.or_assoc]
  · rw [searchAcceptor_eq]
    simp
  · rw [searchAcceptor_eq]
    congr 1
    apply List.filter_congr
    intro a _
    simp [isFON, Bool.or_assoc]

theorem flatDonors_cons (p : Int × Int) (ps : List (Int × Int)) :
    flatDonors (p :: ps) = p.1 :: p.2 :: flatDonors ps := by
  simp [flatDonors]

theorem flatDonors_append (ps qs : List (Int × Int)) :
    flatDonors (ps ++ qs) = flatDonors ps ++ flatDonors qs := by
  simp [flatDonors]

theorem donorPairs_flatDonors : ∀ ps : List (Int × Int), donorPairs (flatDonors ps) = ps := by
  intro ps
  induction ps with
  | nil => rfl
  | cons p ps ih => rw [flatDonors_cons, donorPairs, ih]

theorem searchDonorBonds_eq (parm : Topology) (X : Int) :
    ∀ (bs dlist : List Int),
      searchDonorBonds parm X bs dlist =
        dlist ++ flatDonors ((bs.filter fun b =>
          decide ((parm.atom b).Element = AtomicElementType.HYDROGEN)).map fun b => (X, b)) := by
  intro bs
  induction bs with
  | nil => intro dlist; simp [searchDonorBonds, flatDonors]
  | cons b bs ih =>
    intro dlist
    by_cases hb : (parm.atom b).Element = AtomicElementType.HYDROGEN
    · simp [searchDonorBonds, hb, ih, List.filter_cons, flatDonors_cons]
    · simp [searchDonorBonds, hb, ih, List.filter_cons]

theorem searchDonorAtom_eq (parm : Topology) (Auto : Bool) (dlist : List Int) (X : Int) :
    searchDonorAtom parm Auto dlist X = dlist ++ flatDonors (atomDonorPairs parm Auto X) := by
  unfold searchDonorAtom atomDonorPairs
  by_cases hH : (parm.atom X).Element = AtomicElementType.HYDROGEN
  · simp [hH, flatDonors]
  · cases Auto
    · by_cases hn : (parm.atom X).Nbonds = 0
      · simp [hH, hn, flatDonors]
      · simp [hH, hn, searchDonorBonds_eq]
    · cases hf : isFON parm X
      · simp [hH, hf, flatDonors]
      · simp [hH, hf, searchDonorBonds_eq]

theorem searchDonor_eq (parm : Topology) (Auto : Bool) (dmask : AtomMask) :
    ∀ dlist : List Int,
      SearchDonor parm dlist dmask Auto =
        dlist ++ flatDonors (dmask.Selected_.flatMap (atomDonorPairs parm Auto)) := by
  unfold SearchDonor
  induction dmask.Selected_ with
  | nil => intro dlist; simp [flatDonors]
  | cons a l ih =>
    intro dlist
    rw [List.foldl_cons, ih, searchDonorAtom_eq, List.flatMap_cons, flatDonors_append,
      List.append_assoc]

theorem atomDonorPairs_fst (parm : Topology) (Auto : Bool) (X : Int) (p : Int × Int)
    (hp : p ∈ atomDonorPairs parm Auto X) :
    p.1 = X ∧ (parm.atom X).Element ≠ AtomicElementType.HYDROGEN ∧
      (p.2 = X ↔ (Auto = false ∧ (parm.atom X).Nbonds = 0)) := by
  unfold atomDonorPairs at hp
  by_cases hH : (parm.atom X).Element = AtomicElementType.HYDROGEN
  · simp [hH] at hp
  · simp only [hH, if_false] at hp
    split_ifs at hp with h1 h2
    · simp at hp
    · simp only [List.mem_singleton] at hp
      subst hp
      exact ⟨rfl, hH, by simp [h2.1, h2.2]⟩
    · simp only [List.mem_map, List.mem_filter, decide_eq_true_eq] at hp
      obtain ⟨b, ⟨_, hbH⟩, rfl⟩ := hp
      refine ⟨rfl, hH, ?_⟩
      constructor
      · intro hbX
        simp only at hbX
        rw [hbX] at hbH
        exact absurd hbH hH
      · intro h
        exact absurd h h2


/-! ### `setup` -/

theorem setupOneMask_snd (parm : Topology) (inUse : Bool) (m : AtomMask) :
    (setupOneMask parm inUse m).2 = if inUse then (setupMask parm m).2 else m := by
  unfold setupOneMask
  cases inUse
  · simp
  · simp only [if_true]
    split_ifs <;> rfl

theorem setup_ok (parm : Topology) (s : Action_Hbond) (hok : (setup parm s).1 = 0) :
    (setup parm s).2 =
      setupLists parm
        { s with
          Mask_ := (setupOneMask parm (!s.hasDonorMask_ || !s.hasAcceptorMask_) s.Mask_).2,
          DonorMask_ := (setupOneMask parm s.hasDonorMask_ s.DonorMask_).2,
          AcceptorMask_ := (setupOneMask parm s.hasAcceptorMask_ s.AcceptorMask_).2,
          SolventDonorMask_ := (setupOneMask parm s.hasSolventDonor_ s.SolventDonorMask_).2,
          SolventAcceptorMask_ :=
            (setupOneMask parm s.hasSolventAcceptor_ s.SolventAcceptorMask_).2 } := by
  unfold setup at hok ⊢
  dsimp only at hok ⊢
  split_ifs at hok ⊢ <;> first | rfl | (simp at hok)

theorem setupLists_Acceptor (parm : Topology) (t : Action_Hbond) :
    (setupLists parm t).Acceptor_ =
        SearchAcceptor parm [] (if t.hasAcceptorMask_ then t.AcceptorMask_ else t.Mask_)
          (!t.hasAcceptorMask_) := by
  unfold setupLists
  dsimp only
  cases hD : t.hasDonorMask_ <;> cases hA : t.hasAcceptorMask_ <;>
    simp only [Bool.not_false, Bool.not_true, Bool.and_true, Bool.and_false, Bool.false_and,
      Bool.true_and, if_true, if_false, Bool.false_eq_true] <;>
    split_ifs <;> rfl

theorem setupLists_Donor (parm : Topology) (t : Action_Hbond) :
    (setupLists parm t).Donor_ =
        SearchDonor parm [] (if t.hasDonorMask_ then t.DonorMask_ else t.Mask_)
          (!t.hasDonorMask_) := by
  unfold setupLists
  dsimp only
  cases hD : t.hasDonorMask_ <;> cases hA : t.hasAcceptorMask_ <;>
    simp only [Bool.not_false, Bool.not_true, Bool.and_true, Bool.and_false, Bool.false_and,
      Bool.true_and, if_true, if_false, Bool.false_eq_true] <;>
    split_ifs <;> rfl

theorem setupLists_keeps (parm : Topology) (t : Action_Hbond) :
    (setupLists parm t).Mask_ = t.Mask_ ∧ (setupLists parm t).DonorMask_ = t.DonorMask_ ∧
    (setupLists parm t).AcceptorMask_ = t.AcceptorMask_ ∧
    (setupLists parm t).HbondMap_ = t.HbondMap_ ∧
    (setupLists parm t).SolventMap_ = t.SolventMap_ ∧
    (setupLists parm t).BridgeMap_ = t.BridgeMap_ := by
  unfold setupLists
  dsimp only
  split_ifs <;> exact ⟨rfl, rfl, rfl, rfl, rfl, rfl⟩

/-- C18: after a successful `setup()` the acceptor list is `SearchAcceptor`
over the acceptor mask without element filter when an acceptor mask was given,
and over the generic mask with the filter otherwise; the donor list is
`SearchDonor` over the donor mask without filter when a donor mask was given,
and over the generic mask with the filter otherwise. Neither choice looks at
the other flag. The masks are those the mask evaluator returned. -/
theorem setup_four_modes (parm : Topology) (s : Action_Hbond)
    (hok : (setup parm s).1 = 0) :
    (setup parm s).2.Acceptor_ =
        SearchAcceptor parm []
          (if s.hasAcceptorMask_ then (setup parm s).2.AcceptorMask_ else (setup parm s).2.Mask_)
          (!s.hasAcceptorMask_) ∧
    (setup parm s).2.Donor_ =
        SearchDonor parm []
          (if s.hasDonorMask_ then (setup parm s).2.DonorMask_ else (setup parm s).2.Mask_)
          (!s.hasDonorMask_) ∧
    (setup parm s).2.AcceptorMask_ =
        (if s.hasAcceptorMask_ then (setupMask parm s.AcceptorMask_).2 else s.AcceptorMask_) ∧
    (setup parm s).2.DonorMask_ =
        (if s.hasDonorMask_ then (setupMask parm s.DonorMask_).2 else s.DonorMask_) ∧
    (setup parm s).2.Mask_ =
        (if !s.hasDonorMask_ || !s.hasAcceptorMask_ then (setupMask parm s.Mask_).2
         else s.Mask_) := by
  rw [setup_ok parm s hok, setupLists_Acceptor, setupLists_Donor]
  obtain ⟨h3, h4, h5, -⟩ := setupLists_keeps parm
    { s with
      Mask_ := (setupOneMask parm (!s.hasDonorMask_ || !s.hasAcceptorMask_) s.Mask_).2,
      DonorMask_ := (setupOneMask parm s.hasDonorMask_ s.DonorMask_).2,
      AcceptorMask_ := (setupOneMask parm s.hasAcceptorMask_ s.AcceptorMask_).2,
      SolventDonorMask_ := (setupOneMask parm s.hasSolventDonor_ s.SolventDonorMask_).2,
      SolventAcceptorMask_ :=
        (setupOneMask parm s.hasSolventAcceptor_ s.SolventAcceptorMask_).2 }
  rw [h3, h4, h5]
  simp only [setupOneMask_snd]
  refine ⟨?_, ?_, ?_, ?_, ?_⟩ <;> first | rfl | trivial

theorem setup_four_modes_witness :
    (setup demoTopology ionDonorSetup).1 = 0 ∧
    ((setup demoTopology ionDonorSetup).2.Acceptor_ =
        SearchAcceptor demoTopology []
          (if ionDonorSetup.hasAcceptorMask_ then (setup demoTopology ionDonorSetup).2.AcceptorMask_
           else (setup demoTopology ionDonorSetup).2.Mask_)
          (!ionDonorSetup.hasAcceptorMask_) ∧
    (setup demoTopology ionDonorSetup).2.Donor_ =
        SearchDonor demoTopology []
          (if ionDonorSetup.hasDonorMask_ then (setup demoTopology ionDonorSetup).2.DonorMask_
           else (setup demoTopology ionDonorSetup).2.Mask_)
          (!ionDonorSetup.hasDonorMask_) ∧
    (setup demoTopology ionDonorSetup).2.AcceptorMask_ =
        (if ionDonorSetup.hasAcceptorMask_ then
          (setupMask demoTopology ionDonorSetup.AcceptorMask_).2
         else ionDonorSetup.AcceptorMask_) ∧
    (setup demoTopology ionDonorSetup).2.DonorMask_ =
        (if ionDonorSetup.hasDonorMask_ then (setupMask demoTopology ionDonorSetup.DonorMask_).2
         else ionDonorSetup.DonorMask_) ∧
    (setup demoTopology ionDonorSetup).2.Mask_ =
        (if !ionDonorSetup.hasDonorMask_ || !ionDonorSetup.hasAcceptorMask_ then
          (setupMask demoTopology ionDonorSetup.Mask_).2
         else ionDonorSetup.Mask_)) ∧
    (setup demoTopology ionDonorSetup).2.Acceptor_ = [1, 4] ∧
    (setup demoTopology ionDonorSetup).2.Donor_ = [3, 3] :=
  ⟨by decide, setup_four_modes demoTopology ionDonorSetup (by decide), by decide, by decide⟩


/-! ### `print`: what each block writes and keeps -/

theorem printBridge_state (env : PrintEnv) (s : Action_Hbond) (fs : Files)
    (r : Action_Hbond × Files) (h : printBridge env s fs = some r) : r.1 = s := by
  unfold printBridge at h
  split_ifs at h <;> simp at h <;> rw [← h]

theorem print_BridgeMap (env : PrintEnv) (s : Action_Hbond) (fs : Files) :
    (print env s fs).1.BridgeMap_ = s.BridgeMap_ := by
  have hsol : ∀ r, printSolute env s fs = some r → r.1.BridgeMap_ = s.BridgeMap_ := by
    intro r h
    unfold printSolute at h
    split_ifs at h <;> simp at h <;> rw [← h]
  have hsolv : ∀ (t : Action_Hbond) (gs : Files) r,
      printSolvent env t gs = some r → r.1.BridgeMap_ = t.BridgeMap_ := by
    intro t gs r h
    unfold printSolvent at h
    split_ifs at h <;> simp at h <;> rw [← h]
  unfold print
  cases h1 : printSolute env s fs with
  | none => rfl
  | some r1 =>
    simp only
    cases h2 : printSolvent env r1.1 r1.2 with
    | none => exact hsol r1 h1
    | some r2 =>
      simp only
      cases h3 : printBridge env r2.1 r2.2 with
      | none => simp only; rw [hsolv _ _ r2 h2, hsol r1 h1]
      | some r3 =>
        simp only
        rw [printBridge_state env _ _ r3 h3, hsolv _ _ r2 h2, hsol r1 h1]

theorem bridge_lines_no_record (env : PrintEnv) (bm : BridgeType) :
    (bm.map (bridgeLine env)).all (fun l => !l.isRecord) = true := by
  rw [List.all_eq_true]
  intro l hl
  obtain ⟨e, _, rfl⟩ := List.mem_map.1 hl
  rfl


/-! ### Counts held by the registries -/

/-- C11 (evaluation of the code): the value of a `BridgeMap_` entry grows by one
for every bridging solvent molecule, not by one per frame. In a single frame in
which the molecules 100 and 200 both bridge the residues 2 and 5, the entry of
`{2, 5}` gets the value 2 while one frame has been processed. -/
theorem bridge_value_counts_molecules :
    (action demoWorld bondFrame 0 twoWaters).BridgeMap_ = [([2, 5], 2)] ∧
    (action demoWorld bondFrame 0 twoWaters).Nframes_ = 1 ∧
    (action demoWorld bondFrame 0 twoWaters).NumBridge_ = [(0, 2)] := by
  refine ⟨?_, ?_, ?_⟩ <;>
  norm_num [action, twoWaters, freshAction, bondFrame, constFrame,
    soluteDonorLoop, solventSweeps, solventDonorSweep, solventAcceptorSweep,
    soluteAcceptorCandidate, AtomsAreHbonded, mapFind, mapInsert, mapModify, newSolventHB, bumpHB,
    touch, setInsert, bridgeLoop, bridgeRecord, demoWorld]

section SortedKeys

variable {V : Type}

theorem mapInsert_keys_mem (k : Int) (v : V) (k' : Int) :
    ∀ m : List (Int × V), k' ∈ (mapInsert k v m).map Prod.fst → k' = k ∨ k' ∈ m.map Prod.fst := by
  intro m
  induction m with
  | nil => intro h; simpa [mapInsert] using h
  | cons e m ih =>
    obtain ⟨k₀, v₀⟩ := e
    intro h
    simp only [mapInsert] at h
    split_ifs at h with h1 h2
    · simpa using h
    · simp only [List.map_cons, List.mem_cons] at h ⊢
      rcases h with h | h
      · exact Or.inr (Or.inl h)
      · rcases ih h with h | h
        · exact Or.inl h
        · exact Or.inr (Or.inr h)
    · exact Or.inr h

theorem mapInsert_keys_pairwise (k : Int) (v : V) :
    ∀ m : List (Int × V), (m.map Prod.fst).Pairwise (· < ·) →
      ((mapInsert k v m).map Prod.fst).Pairwise (· < ·) := by
  intro m
  induction m with
  | nil => intro _; simp [mapInsert]
  | cons e m ih =>
    obtain ⟨k₀, v₀⟩ := e
    intro h
    rw [List.map_cons, List.pairwise_cons] at h
    simp only [mapInsert]
    split_ifs with h1 h2
    · simp only [List.map_cons, List.pairwise_cons, List.mem_cons]
      refine ⟨?_, h.1, h.2⟩
      rintro z (rfl | hz)
      · exact h1
      · exact lt_trans h1 (h.1 z hz)
    · simp only [List.map_cons, List.pairwise_cons]
      refine ⟨?_, ih h.2⟩
      intro z hz
      rcases mapInsert_keys_mem k v z m hz with rfl | hz
      · exact h2
      · exact h.1 z hz
    · simp only [List.map_cons, List.pairwise_cons]
      exact h

theorem mapFind_of_mem_sorted (k : Int) (v : V) (m : List (Int × V))
    (hs : (m.map Prod.fst).Pairwise (· < ·)) (hmem : (k, v) ∈ m) : mapFind k m = some v :=
  mapFind_of_mem k v m (hs.imp (fun h => ne_of_lt h)) hmem

end SortedKeys

theorem soluteCandidate_keys_sorted (w : World) (s : Action_Hbond) (f : Frame) (n : Nat)
    (D H A hbidx : Int) (st : HBmapType × Int)
    (h : (st.1.map Prod.fst).Pairwise (· < ·)) :
    ((soluteCandidate w s f n D H A hbidx st).1.map Prod.fst).Pairwise (· < ·) := by
  unfold soluteCandidate
  dsimp only
  split_ifs
  · exact h
  · exact h
  · exact h
  · cases mapFind hbidx st.1 with
    | none => exact mapInsert_keys_pairwise _ _ _ h
    | some hb => simp only [mapModify_keys]; exact h

theorem slotFold_keys_sorted (w : World) (s : Action_Hbond) (f : Frame) (n : Nat) :
    ∀ (cs : List (Int × Int × Int × Int)) (st : HBmapType × Int),
      (st.1.map Prod.fst).Pairwise (· < ·) →
      (((cs.foldl (soluteSlotStep w s f n) st).1).map Prod.fst).Pairwise (· < ·) := by
  intro cs
  induction cs with
  | nil => intro st h; exact h
  | cons c cs ih =>
    intro st h
    rw [List.foldl_cons]
    exact ih _ (soluteCandidate_keys_sorted w s f n _ _ _ _ st h)

theorem action_HbondMap_sorted (w : World) (f : Frame) (n : Nat) (s : Action_Hbond)
    (donors : List (Int × Int)) (hD : s.Donor_ = flatDonors donors)
    (h : (s.HbondMap_.map Prod.fst).Pairwise (· < ·)) :
    ((action w f n s).HbondMap_.map Prod.fst).Pairwise (· < ·) := by
  have hloop := soluteDonorLoop_eq w s f n donors 0 (s.HbondMap_, 0)
  simp only [Nat.cast_zero, zero_mul] at hloop
  rw [action_HbondMap, hD, hloop]
  exact slotFold_keys_sorted w s f n _ _ h

theorem action_Nframes (w : World) (f : Frame) (n : Nat) (s : Action_Hbond) :
    (action w f n s).Nframes_ = s.Nframes_ + 1 := by
  unfold action
  dsimp only
  split_ifs <;> rfl

theorem runFrames_HbondMap_sorted (w : World) (donors : List (Int × Int)) :
    ∀ (fs : List Frame) (n : Nat) (s : Action_Hbond), s.Donor_ = flatDonors donors →
      (s.HbondMap_.map Prod.fst).Pairwise (· < ·) →
      ((runFrames w n fs s).HbondMap_.map Prod.fst).Pairwise (· < ·) := by
  intro fs
  induction fs with
  | nil => intro n s _ h; exact h
  | cons f fs ih =>
    intro n s hD h
    rw [runFrames]
    exact ih (n + 1) (action w f n s) (by rw [(action_setup w f n s).1]; exact hD)
      (action_HbondMap_sorted w f n s donors hD h)

theorem runFrames_Nframes (w : World) :
    ∀ (fs : List Frame) (n : Nat) (s : Action_Hbond),
      (runFrames w n fs s).Nframes_ = s.Nframes_ + (fs.length : Int) := by
  intro fs
  induction fs with
  | nil => intro n s; simp [runFrames]
  | cons f fs ih =>
    intro n s
    rw [runFrames, ih, action_Nframes]
    simp only [List.length_cons, Nat.cast_add, Nat.cast_one]
    ring

theorem runFrames_setup (w : World) :
    ∀ (fs : List Frame) (n : Nat) (s : Action_Hbond),
      (runFrames w n fs s).Donor_ = s.Donor_ ∧ (runFrames w n fs s).Acceptor_ = s.Acceptor_ ∧
      (runFrames w n fs s).SolventDonor_ = s.SolventDonor_ ∧
      (runFrames w n fs s).SolventAcceptor_ = s.SolventAcceptor_ ∧
      (runFrames w n fs s).hasSolventDonor_ = s.hasSolventDonor_ ∧
      (runFrames w n fs s).hasSolventAcceptor_ = s.hasSolventAcceptor_ ∧
      (runFrames w n fs s).calcSolvent_ = s.calcSolvent_ := by
  intro fs
  induction fs with
  | nil => intro n s; exact ⟨rfl, rfl, rfl, rfl, rfl, rfl, rfl⟩
  | cons f fs ih =>
    intro n s
    obtain ⟨h1, h2, h3, h4, -, -, -, h8, h9, h10⟩ := action_setup w f n s
    obtain ⟨g1, g2, g3, g4, g5, g6, g7⟩ := ih (n + 1) (action w f n s)
    rw [runFrames]
    exact ⟨g1.trans h1, g2.trans h2, g3.trans h3, g4.trans h4, g5.trans h8, g6.trans h9,
      g7.trans h10⟩

theorem slot_of_key (nD nA : Nat) (k : Int) (h0 : 0 ≤ k)
    (h1 : k < (nD : Int) * (nA : Int)) :
    ∃ i j : Nat, i < nD ∧ j < nA ∧ k = (i : Int) * (nA : Int) + (j : Int) := by
  obtain ⟨K, rfl⟩ := Int.eq_ofNat_of_zero_le h0
  have hK : K < nD * nA := by exact_mod_cast h1
  have hA : 0 < nA := by
    rcases Nat.eq_zero_or_pos nA with h | h
    · subst h; simp at hK
    · exact h
  refine ⟨K / nA, K % nA, ?_, Nat.mod_lt K hA, ?_⟩
  · exact (Nat.div_lt_iff_lt_mul hA).2 hK
  · have := Nat.div_add_mod' K nA
    exact_mod_cast this.symm


theorem scenarioA_one_frame :
    (runFrames demoWorld 0 [bondFrame] scenarioA).HbondMap_ = [(0, scenarioARecord)] := by
  norm_num [runFrames, action, scenarioA, freshAction, bondFrame, constFrame, soluteDonorLoop,
    soluteAcceptorLoop, soluteCandidate, mapFind, mapInsert, newSoluteHB, scenarioARecord]

theorem solute_record_frames_bounds (w : World) (s : Action_Hbond)
    (donors : List (Int × Int)) (frames : List Frame) (n0 : Nat) (k : Int) (hb : HbondType)
    (hD : s.Donor_ = flatDonors donors) (hM : s.HbondMap_ = [])
    (hmem : (k, hb) ∈ (runFrames w n0 frames s).HbondMap_) :
    1 ≤ hb.Frames ∧ hb.Frames ≤ (frames.length : Int) := by
  have hsorted : ((runFrames w n0 frames s).HbondMap_.map Prod.fst).Pairwise (· < ·) :=
    runFrames_HbondMap_sorted w donors frames n0 s hD (by rw [hM]; exact List.Pairwise.nil)
  have hfind := mapFind_of_mem_sorted k hb _ hsorted hmem
  by_cases hk : k < 0 ∨ (donors.length : Int) * (s.Acceptor_.length : Int) ≤ k
  · rw [runFrames_find_not_slot w donors k frames n0 s hD hk, hM] at hfind
    simp [mapFind] at hfind
  · have h0 : 0 ≤ k := by omega
    have h1 : k < (donors.length : Int) * (s.Acceptor_.length : Int) := by omega
    obtain ⟨i, j, hi, hj, rfl⟩ := slot_of_key donors.length s.Acceptor_.length k h0 h1
    rw [runFrames_find_slot w donors i j frames n0 s hD hi hj, hM] at hfind
    have hnone := recordFold_none w s.series_ donors[i].1 donors[i].2 s.Acceptor_[j]
      (passedFrames s.dcut2_ s.acut_ donors[i].1 donors[i].2 s.Acceptor_[j] n0 frames)
    simp only [mapFind] at hfind
    rw [hfind] at hnone
    have hlen : (passedFrames s.dcut2_ s.acut_ donors[i].1 donors[i].2 s.Acceptor_[j] n0
        frames).length ≤ frames.length := by
      rw [← List.length_map _ Prod.snd, passedFrames_map_snd]
      exact List.length_filter_le _ _
    cases hps : passedFrames s.dcut2_ s.acut_ donors[i].1 donors[i].2 s.Acceptor_[j] n0 frames with
    | nil => rw [hps] at hnone; simp at hnone
    | cons p ps =>
      rw [hps] at hnone hlen
      simp only [Option.map_some', List.isEmpty_cons, Bool.false_eq_true, if_false,
        Option.some.injEq, Prod.mk.injEq] at hnone
      have hF : hb.Frames = ((p :: ps).length : Int) := hnone.1
      rw [hF]
      constructor
      · simp only [List.length_cons, Nat.cast_add, Nat.cast_one]
        omega
      · exact_mod_cast hlen

/-- C12: for a solute-solute registry accumulated by `action()` from an empty
registry and a frame counter of 0, every record has
`1 ≤ Frames ≤ Nframes_`, `Nframes_` being the number of frames processed; the
row `print()` writes for it carries the fraction `Frames / Nframes_`, which
lies in `[0, 1]`. -/
theorem solute_occupancy_in_unit_interval (w : World) (env : PrintEnv) (s : Action_Hbond)
    (donors : List (Int × Int)) (frames : List Frame) (n0 : Nat) (k : Int) (hb : HbondType)
    (hD : s.Donor_ = flatDonors donors) (hM : s.HbondMap_ = []) (hN : s.Nframes_ = 0)
    (hmem : (k, hb) ∈ (runFrames w n0 frames s).HbondMap_) :
    1 ≤ hb.Frames ∧ hb.Frames ≤ (runFrames w n0 frames s).Nframes_ ∧
    (runFrames w n0 frames s).Nframes_ = (frames.length : Int) ∧
    soluteLine env (runFrames w n0 frames s) hb =
      OutLine.hbond (env.ResAtomName hb.A) (env.ResAtomName hb.H) (env.ResAtomName hb.D)
        hb.Frames ((hb.Frames : ℚ) / ((runFrames w n0 frames s).Nframes_ : ℚ))
        (hb.dist / (hb.Frames : ℚ)) (hb.angle / (hb.Frames : ℚ) * env.RADDEG) ∧
    0 ≤ (hb.Frames : ℚ) / ((runFrames w n0 frames s).Nframes_ : ℚ) ∧
    (hb.Frames : ℚ) / ((runFrames w n0 frames s).Nframes_ : ℚ) ≤ 1 := by
  obtain ⟨h1, h2⟩ := solute_record_frames_bounds w s donors frames n0 k hb hD hM hmem
  have hNf : (runFrames w n0 frames s).Nframes_ = (frames.length : Int) := by
    rw [runFrames_Nframes, hN, zero_add]
  rw [hNf]
  have hpos : (0 : ℚ) < ((frames.length : Int) : ℚ) := by
    have : (0 : Int) < (frames.length : Int) := by omega
    exact_mod_cast this
  have hF0 : (0 : ℚ) ≤ (hb.Frames : ℚ) := by
    have : (0 : Int) ≤ hb.Frames := by omega
    exact_mod_cast this
  have hFle : (hb.Frames : ℚ) ≤ ((frames.length : Int) : ℚ) := by exact_mod_cast h2
  refine ⟨h1, h2, rfl, ?_, div_nonneg hF0 (le_of_lt hpos), (div_le_one hpos).2 hFle⟩
  simp only [soluteLine, hNf]

theorem solute_occupancy_in_unit_interval_witness :
    (scenarioA.Donor_ = flatDonors [(10, 11)] ∧ scenarioA.HbondMap_ = [] ∧
      scenarioA.Nframes_ = 0 ∧
      ((0 : Int), scenarioARecord) ∈ (runFrames demoWorld 0 [bondFrame] scenarioA).HbondMap_) ∧
    (1 ≤ scenarioARecord.Frames ∧
      scenarioARecord.Frames ≤ (runFrames demoWorld 0 [bondFrame] scenarioA).Nframes_ ∧
      (runFrames demoWorld 0 [bondFrame] scenarioA).Nframes_ = (([bondFrame].length : Nat) : Int) ∧
      soluteLine (demoPrintEnv fun _ => true) (runFrames demoWorld 0 [bondFrame] scenarioA)
          scenarioARecord =
        OutLine.hbond ((demoPrintEnv fun _ => true).ResAtomName scenarioARecord.A)
          ((demoPrintEnv fun _ => true).ResAtomName scenarioARecord.H)
          ((demoPrintEnv fun _ => true).ResAtomName scenarioARecord.D)
          scenarioARecord.Frames
          ((scenarioARecord.Frames : ℚ) /
            ((runFrames demoWorld 0 [bondFrame] scenarioA).Nframes_ : ℚ))
          (scenarioARecord.dist / (scenarioARecord.Frames : ℚ))
          (scenarioARecord.angle / (scenarioARecord.Frames : ℚ) *
            (demoPrintEnv fun _ => true).RADDEG) ∧
      0 ≤ (scenarioARecord.Frames : ℚ) /
        ((runFrames demoWorld 0 [bondFrame] scenarioA).Nframes_ : ℚ) ∧
      (scenarioARecord.Frames : ℚ) /
        ((runFrames demoWorld 0 [bondFrame] scenarioA).Nframes_ : ℚ) ≤ 1) :=
  ⟨⟨rfl, rfl, rfl, by rw [scenarioA_one_frame]; exact List.mem_singleton.2 rfl⟩,
    solute_occupancy_in_unit_interval demoWorld (demoPrintEnv fun _ => true) scenarioA
      [(10, 11)] [bondFrame] 0 0 scenarioARecord rfl rfl rfl
      (by rw [scenarioA_one_frame]; exact List.mem_singleton.2 rfl)⟩


/-! ### A relation between the solute-solvent registry before and after -/

section SolventLift

variable (P : Nat → HBmapType → HBmapType → Prop)

theorem acceptorFold_lift (hrefl : ∀ m, P 0 m m)
    (htrans : ∀ a b m1 m2 m3, P a m1 m2 → P b m2 m3 → P (a + b) m1 m3)
    (hstep : ∀ w s f n a d h k sd m, P 1 m (AtomsAreHbonded w s f n a d h k sd m).2)
    (w : World) (s : Action_Hbond) (f : Frame) (n : Nat) (D H : Int) :
    ∀ (accs : List Int) (st : SolventState),
      P accs.length st.SolventMap_
        (accs.foldl (fun st a => solventAcceptorCandidate w s f n D H a st) st).SolventMap_ := by
  intro accs
  induction accs with
  | nil => intro st; exact hrefl _
  | cons a accs ih =>
    intro st
    rw [List.foldl_cons, List.length_cons, Nat.add_comm]
    refine htrans 1 accs.length _ _ _ ?_ (ih _)
    rw [solventAcceptorCandidate_eq]
    exact hstep w s f n a D H H true st.SolventMap_

theorem donorFold_lift (hrefl : ∀ m, P 0 m m)
    (htrans : ∀ a b m1 m2 m3, P a m1 m2 → P b m2 m3 → P (a + b) m1 m3)
    (hstep : ∀ w s f n a d h k sd m, P 1 m (AtomsAreHbonded w s f n a d h k sd m).2)
    (w : World) (s : Action_Hbond) (f : Frame) (n : Nat) (D H : Int) :
    ∀ (accs : List Int) (st : SolventState),
      P accs.length st.SolventMap_
        (accs.foldl (fun st a => soluteAcceptorCandidate w s f n D H a st) st).SolventMap_ := by
  intro accs
  induction accs with
  | nil => intro st; exact hrefl _
  | cons a accs ih =>
    intro st
    rw [List.foldl_cons, List.length_cons, Nat.add_comm]
    refine htrans 1 accs.length _ _ _ ?_ (ih _)
    rw [soluteAcceptorCandidate_eq]
    exact hstep w s f n a D H a false st.SolventMap_

theorem solventAcceptorSweep_lift (hrefl : ∀ m, P 0 m m)
    (htrans : ∀ a b m1 m2 m3, P a m1 m2 → P b m2 m3 → P (a + b) m1 m3)
    (hstep : ∀ w s f n a d h k sd m, P 1 m (AtomsAreHbonded w s f n a d h k sd m).2)
    (w : World) (s : Action_Hbond) (f : Frame) (n : Nat) :
    ∀ (donors : List (Int × Int)) (st : SolventState),
      P (donors.length * s.SolventAcceptor_.length) st.SolventMap_
        (solventAcceptorSweep w s f n (flatDonors donors) st).SolventMap_ := by
  intro donors
  induction donors with
  | nil => intro st; simpa [flatDonors, solventAcceptorSweep] using hrefl st.SolventMap_
  | cons d donors ih =>
    intro st
    rw [flatDonors_cons, solventAcceptorSweep, List.length_cons, Nat.succ_mul, Nat.add_comm]
    exact htrans _ _ _ _ _ (acceptorFold_lift P hrefl htrans hstep w s f n d.1 d.2 _ st) (ih _)

theorem solventDonorSweep_lift (hrefl : ∀ m, P 0 m m)
    (htrans : ∀ a b m1 m2 m3, P a m1 m2 → P b m2 m3 → P (a + b) m1 m3)
    (hstep : ∀ w s f n a d h k sd m, P 1 m (AtomsAreHbonded w s f n a d h k sd m).2)
    (w : World) (s : Action_Hbond) (f : Frame) (n : Nat) :
    ∀ (donors : List (Int × Int)) (st : SolventState),
      P (donors.length * s.Acceptor_.length) st.SolventMap_
        (solventDonorSweep w s f n (flatDonors donors) st).SolventMap_ := by
  intro donors
  induction donors with
  | nil => intro st; simpa [flatDonors, solventDonorSweep] using hrefl st.SolventMap_
  | cons d donors ih =>
    intro st
    rw [flatDonors_cons, solventDonorSweep, List.length_cons, Nat.succ_mul, Nat.add_comm]
    exact htrans _ _ _ _ _ (donorFold_lift P hrefl htrans hstep w s f n d.1 d.2 _ st) (ih _)

theorem solventSweeps_lift (hrefl : ∀ m, P 0 m m)
    (htrans : ∀ a b m1 m2 m3, P a m1 m2 → P b m2 m3 → P (a + b) m1 m3)
    (hstep : ∀ w s f n a d h k sd m, P 1 m (AtomsAreHbonded w s f n a d h k sd m).2)
    (w : World) (s : Action_Hbond) (f : Frame) (n : Nat)
    (donors solventDonors : List (Int × Int))
    (hD : s.Donor_ = flatDonors donors) (hSD : s.SolventDonor_ = flatDonors solventDonors) :
    P (solventCandidatesPerFrame s donors solventDonors) s.SolventMap_
      (solventSweeps w s f n).1.SolventMap_ := by
  unfold solventSweeps solventCandidatesPerFrame
  rw [hD, hSD]
  cases ha : s.hasSolventAcceptor_ <;> cases hd : s.hasSolventDonor_
  · simpa using hrefl s.SolventMap_
  · simp only [Bool.false_eq_true, if_false, if_true, Nat.zero_add]
    exact solventDonorSweep_lift P hrefl htrans hstep w s f n solventDonors
      { SolventMap_ := s.SolventMap_, numHB := 0, solvent2solute := [] }
  · simp only [Bool.false_eq_true, if_false, if_true, Nat.add_zero]
    exact solventAcceptorSweep_lift P hrefl htrans hstep w s f n donors
      { SolventMap_ := s.SolventMap_, numHB := 0, solvent2solute := [] }
  · simp only [if_true]
    exact htrans _ _ _ _ _
      (solventAcceptorSweep_lift P hrefl htrans hstep w s f n donors
        { SolventMap_ := s.SolventMap_, numHB := 0, solvent2solute := [] })
      (solventDonorSweep_lift P hrefl htrans hstep w s f n solventDonors
        { SolventMap_ := (solventAcceptorSweep w s f n (flatDonors donors)
            { SolventMap_ := s.SolventMap_, numHB := 0, solvent2solute := [] }).SolventMap_,
          numHB := 0,
          solvent2solute := (solventAcceptorSweep w s f n (flatDonors donors)
            { SolventMap_ := s.SolventMap_, numHB := 0, solvent2solute := [] }).solvent2solute })

theorem action_SolventMap (w : World) (f : Frame) (n : Nat) (s : Action_Hbond) :
    (action w f n s).SolventMap_ =
      if s.calcSolvent_ then
        (solventSweeps w
          { s with
            HbondMap_ := (soluteDonorLoop w s f n s.Donor_ 0 (s.HbondMap_, 0)).1.1,
            NumHbonds_ := s.NumHbonds_ ++
              [(n, (soluteDonorLoop w s f n s.Donor_ 0 (s.HbondMap_, 0)).1.2)] }
          f n).1.SolventMap_
      else s.SolventMap_ := by
  unfold action
  dsimp only
  split_ifs <;> rfl

theorem action_lift (hrefl : ∀ m, P 0 m m)
    (htrans : ∀ a b m1 m2 m3, P a m1 m2 → P b m2 m3 → P (a + b) m1 m3)
    (hmono : ∀ a b m1 m2, a ≤ b → P a m1 m2 → P b m1 m2)
    (hstep : ∀ w s f n a d h k sd m, P 1 m (AtomsAreHbonded w s f n a d h k sd m).2)
    (w : World) (s : Action_Hbond) (f : Frame) (n : Nat)
    (donors solventDonors : List (Int × Int))
    (hD : s.Donor_ = flatDonors donors) (hSD : s.SolventDonor_ = flatDonors solventDonors) :
    P (solventCandidatesPerFrame s donors solventDonors) s.SolventMap_
      (action w f n s).SolventMap_ := by
  rw [action_SolventMap]
  split_ifs
  · exact solventSweeps_lift P hrefl htrans hstep w
      { s with
        HbondMap_ := (soluteDonorLoop w s f n s.Donor_ 0 (s.HbondMap_, 0)).1.1,
        NumHbonds_ := s.NumHbonds_ ++
          [(n, (soluteDonorLoop w s f n s.Donor_ 0 (s.HbondMap_, 0)).1.2)] }
      f n donors solventDonors hD hSD
  · exact hmono 0 _ _ _ (Nat.zero_le _) (hrefl _)

theorem runFrames_lift (hrefl : ∀ m, P 0 m m)
    (htrans : ∀ a b m1 m2 m3, P a m1 m2 → P b m2 m3 → P (a + b) m1 m3)
    (hmono : ∀ a b m1 m2, a ≤ b → P a m1 m2 → P b m1 m2)
    (hstep : ∀ w s f n a d h k sd m, P 1 m (AtomsAreHbonded w s f n a d h k sd m).2)
    (w : World) (donors solventDonors : List (Int × Int)) :
    ∀ (fs : List Frame) (n : Nat) (s : Action_Hbond),
      s.Donor_ = flatDonors donors → s.SolventDonor_ = flatDonors solventDonors →
      P (fs.length * solventCandidatesPerFrame s donors solventDonors) s.SolventMap_
        (runFrames w n fs s).SolventMap_ := by
  intro fs
  induction fs with
  | nil => intro n s _ _; simpa [runFrames] using hrefl s.SolventMap_
  | cons f fs ih =>
    intro n s hD hSD
    obtain ⟨h1, h2, h3, h4, -, -, -, h8, h9, -⟩ := action_setup w f n s
    have hC : solventCandidatesPerFrame (action w f n s) donors solventDonors =
        solventCandidatesPerFrame s donors solventDonors := by
      unfold solventCandidatesPerFrame
      rw [h2, h4, h8, h9]
    have hstep1 := action_lift P hrefl htrans hmono hstep w s f n donors solventDonors hD hSD
    have hrest := ih (n + 1) (action w f n s) (by rw [h1]; exact hD) (by rw [h3]; exact hSD)
    rw [hC] at hrest
    rw [runFrames, List.length_cons, Nat.succ_mul, Nat.add_comm]
    exact htrans _ _ _ _ _ hstep1 hrest

end SolventLift


theorem solventGrowth_refl (m : HBmapType) : SolventGrowth 0 m m :=
  ⟨fun h => h, fun h => h, fun k => by simp⟩

theorem solventGrowth_trans (a b : Nat) (m1 m2 m3 : HBmapType)
    (h12 : SolventGrowth a m1 m2) (h23 : SolventGrowth b m2 m3) :
    SolventGrowth (a + b) m1 m3 := by
  refine ⟨fun h => h23.1 (h12.1 h), fun h => h23.2.1 (h12.2.1 h), fun k => ?_⟩
  have h1 := h12.2.2 k
  have h2 := h23.2.2 k
  push_cast
  omega

theorem solventGrowth_mono (a b : Nat) (m1 m2 : HBmapType) (hab : a ≤ b)
    (h : SolventGrowth a m1 m2) : SolventGrowth b m1 m2 := by
  refine ⟨h.1, h.2.1, fun k => ?_⟩
  have h1 := h.2.2 k
  have : (a : Int) ≤ (b : Int) := by exact_mod_cast hab
  omega

theorem atomsAreHbonded_keys_sorted (w : World) (s : Action_Hbond) (f : Frame) (n : Nat)
    (a d h hbidx : Int) (sd : Bool) (m : HBmapType)
    (hs : (m.map Prod.fst).Pairwise (· < ·)) :
    ((AtomsAreHbonded w s f n a d h hbidx sd m).2.map Prod.fst).Pairwise (· < ·) := by
  have key : ∀ ang : ℚ,
      ((match mapFind hbidx m with
        | none => ((1 : Int), mapInsert hbidx (newSolventHB w s.series_ n a d h sd
            (w.sqrt (f.DIST2 a d)) ang) m)
        | some _ => ((1 : Int),
            mapModify hbidx (bumpHB s.series_ n (w.sqrt (f.DIST2 a d)) ang) m)).2.map
        Prod.fst).Pairwise (· < ·) := by
    intro ang
    cases mapFind hbidx m with
    | none => exact mapInsert_keys_pairwise _ _ _ hs
    | some hb => simp only [mapModify_keys]; exact hs
  unfold AtomsAreHbonded
  dsimp only
  split_ifs <;> first | exact hs | exact key _

theorem solventGrowth_step (w : World) (s : Action_Hbond) (f : Frame) (n : Nat)
    (a d h hbidx : Int) (sd : Bool) (m : HBmapType) :
    SolventGrowth 1 m (AtomsAreHbonded w s f n a d h hbidx sd m).2 := by
  refine ⟨atomsAreHbonded_keys_sorted w s f n a d h hbidx sd m, ?_, ?_⟩
  · intro hpos k hb hfind
    rw [atomsAreHbonded_find] at hfind
    split_ifs at hfind with hc
    · simp only [Option.some.injEq] at hfind
      subst hfind
      cases hold : mapFind hbidx m with
      | none => simp [solventRecord, newSolventHB]
      | some old =>
        have := hpos hbidx old hold
        simp only [solventRecord, bumpHB]
        omega
    · exact hpos k hb hfind
  · intro k
    unfold framesUnder
    rw [atomsAreHbonded_find]
    split_ifs with hc
    · rw [hc.1]
      cases hold : mapFind hbidx m with
      | none => simp [solventRecord, newSolventHB]
      | some old => simp [solventRecord, bumpHB]
    · simp

/-- C13 (as stated, refuted): one solute donor pair `(10, 11)` and two solvent
acceptors, both accepted in the one frame processed: the record under key 11
has frame count 2 while `Nframes_` is 1, so the fraction printed is 2. -/
theorem solvent_record_exceeds_frames :
    (runFrames demoWorld 0 [bondFrame] twoAcceptors).SolventMap_ = [(11, twoAcceptorsRecord)] ∧
    (runFrames demoWorld 0 [bondFrame] twoAcceptors).Nframes_ = 1 ∧
    ¬ (twoAcceptorsRecord.Frames ≤ (runFrames demoWorld 0 [bondFrame] twoAcceptors).Nframes_) := by
  have hN : (runFrames demoWorld 0 [bondFrame] twoAcceptors).Nframes_ = 1 := by
    rw [runFrames_Nframes]
    rfl
  refine ⟨?_, hN, ?_⟩
  · norm_num [runFrames, action, twoAcceptors, freshAction, bondFrame, constFrame,
      soluteDonorLoop, solventSweeps, solventDonorSweep, solventAcceptorSweep,
      solventAcceptorCandidate, AtomsAreHbonded, mapFind, mapInsert, mapModify, newSolventHB,
      bumpHB, touch, setInsert, bridgeLoop, bridgeRecord, demoWorld, twoAcceptorsRecord]
  · rw [hN]
    decide

/-- C13 (amended): for a solute-solvent registry accumulated by `action()` from
an empty registry and a frame counter of 0, every record has `Frames ≥ 1` and
`Frames ≤ Nframes_ * c`, where `c` is the number of solute-solvent candidates
evaluated per frame; the row `print()` writes for it carries the fraction
`Frames / Nframes_`, which is not negative (and can exceed 1). -/
theorem solvent_occupancy_bounds (w : World) (env : PrintEnv) (s : Action_Hbond)
    (donors solventDonors : List (Int × Int)) (frames : List Frame) (n0 : Nat)
    (k : Int) (hb : HbondType)
    (hD : s.Donor_ = flatDonors donors) (hSD : s.SolventDonor_ = flatDonors solventDonors)
    (hM : s.SolventMap_ = []) (hN : s.Nframes_ = 0)
    (hmem : (k, hb) ∈ (runFrames w n0 frames s).SolventMap_) :
    1 ≤ hb.Frames ∧
    hb.Frames ≤ (runFrames w n0 frames s).Nframes_ *
      (solventCandidatesPerFrame s donors solventDonors : Int) ∧
    (runFrames w n0 frames s).Nframes_ = (frames.length : Int) ∧
    solventLine env (runFrames w n0 frames s) hb =
      OutLine.hbond (if hb.A = -1 then "SolventAcc" else env.ResAtomName hb.A)
        (if hb.D = -1 then "SolventH  " else env.ResAtomName hb.H)
        (if hb.D = -1 then "SolventDnr" else env.ResAtomName hb.D)
        hb.Frames ((hb.Frames : ℚ) / ((runFrames w n0 frames s).Nframes_ : ℚ))
        (hb.dist / (hb.Frames : ℚ)) (hb.angle / (hb.Frames : ℚ) * env.RADDEG) ∧
    0 ≤ (hb.Frames : ℚ) / ((runFrames w n0 frames s).Nframes_ : ℚ) := by
  obtain ⟨g1, g2, g3⟩ := runFrames_lift SolventGrowth solventGrowth_refl solventGrowth_trans
    solventGrowth_mono solventGrowth_step w donors solventDonors frames n0 s hD hSD
  rw [hM] at g1 g2 g3
  have hsorted := g1 List.Pairwise.nil
  have hfind := mapFind_of_mem_sorted k hb _ hsorted hmem
  have hpos : 1 ≤ hb.Frames :=
    g2 (by intro k hb h; simp [mapFind] at h) k hb hfind
  have hle := g3 k
  simp only [framesUnder, hfind, mapFind, Option.map_some', Option.getD_some, Option.map_none',
    Option.getD_none, zero_add] at hle
  have hNf : (runFrames w n0 frames s).Nframes_ = (frames.length : Int) := by
    rw [runFrames_Nframes, hN, zero_add]
  have hF0 : (0 : ℚ) ≤ (hb.Frames : ℚ) := by
    have : (0 : Int) ≤ hb.Frames := by omega
    exact_mod_cast this
  have hN0 : (0 : ℚ) ≤ (((frames.length : Nat) : Int) : ℚ) := by
    exact_mod_cast Nat.zero_le _
  refine ⟨hpos, ?_, hNf, rfl, ?_⟩
  · rw [hNf]
    push_cast at hle ⊢
    exact hle
  · rw [hNf]
    exact div_nonneg hF0 hN0

theorem solvent_occupancy_bounds_witness :
    (twoAcceptors.Donor_ = flatDonors [(10, 11)] ∧ twoAcceptors.SolventDonor_ = flatDonors [] ∧
      twoAcceptors.SolventMap_ = [] ∧ twoAcceptors.Nframes_ = 0 ∧
      ((11 : Int), twoAcceptorsRecord) ∈
        (runFrames demoWorld 0 [bondFrame] twoAcceptors).SolventMap_) ∧
    (1 ≤ twoAcceptorsRecord.Frames ∧
      twoAcceptorsRecord.Frames ≤ (runFrames demoWorld 0 [bondFrame] twoAcceptors).Nframes_ *
        (solventCandidatesPerFrame twoAcceptors [(10, 11)] [] : Int) ∧
      (runFrames demoWorld 0 [bondFrame] twoAcceptors).Nframes_ =
        (([bondFrame].length : Nat) : Int) ∧
      solventLine (demoPrintEnv fun _ => true) (runFrames demoWorld 0 [bondFrame] twoAcceptors)
          twoAcceptorsRecord =
        OutLine.hbond
          (if twoAcceptorsRecord.A = -1 then "SolventAcc"
           else (demoPrintEnv fun _ => true).ResAtomName twoAcceptorsRecord.A)
          (if twoAcceptorsRecord.D = -1 then "SolventH  "
           else (demoPrintEnv fun _ => true).ResAtomName twoAcceptorsRecord.H)
          (if twoAcceptorsRecord.D = -1 then "SolventDnr"
           else (demoPrintEnv fun _ => true).ResAtomName twoAcceptorsRecord.D)
          twoAcceptorsRecord.Frames
          ((twoAcceptorsRecord.Frames : ℚ) /
            ((runFrames demoWorld 0 [bondFrame] twoAcceptors).Nframes_ : ℚ))
          (twoAcceptorsRecord.dist / (twoAcceptorsRecord.Frames : ℚ))
          (twoAcceptorsRecord.angle / (twoAcceptorsRecord.Frames : ℚ) *
            (demoPrintEnv fun _ => true).RADDEG) ∧
      0 ≤ (twoAcceptorsRecord.Frames : ℚ) /
        ((runFrames demoWorld 0 [bondFrame] twoAcceptors).Nframes_ : ℚ)) :=
  have hrun : (runFrames demoWorld 0 [bondFrame] twoAcceptors).SolventMap_ =
      [(11, twoAcceptorsRecord)] := by
    norm_num [runFrames, action, twoAcceptors, freshAction, bondFrame, constFrame,
      soluteDonorLoop, solventSweeps, solventDonorSweep, solventAcceptorSweep,
      solventAcceptorCandidate, AtomsAreHbonded, mapFind, mapInsert, mapModify, newSolventHB,
      bumpHB, touch, setInsert, bridgeLoop, bridgeRecord, demoWorld, twoAcceptorsRecord]
  ⟨⟨rfl, rfl, rfl, rfl, by rw [hrun]; exact List.mem_singleton.2 rfl⟩,
    solvent_occupancy_bounds demoWorld (demoPrintEnv fun _ => true) twoAcceptors
      [(10, 11)] [] [bondFrame] 0 11 twoAcceptorsRecord rfl rfl rfl rfl
      (by rw [hrun]; exact List.mem_singleton.2 rfl)⟩

/-! ### Candidates whose acceptor is the donor heavy atom -/

/-- C29: a candidate whose acceptor atom is the donor heavy atom is rejected
before any geometry is looked at. The body of the solute-solute sweep returns
its state (registry and count) as it is, `AtomsAreHbonded` returns 0 and leaves
the registry as it is, and the bodies of both solute-solvent sweeps return their
state (registry, count and solvent contacts) as it is, for every frame. -/
theorem same_atom_candidate_rejected (w : World) (s : Action_Hbond) (f : Frame) (n : Nat)
    (D H hbidx : Int) (sd : Bool) (st : HBmapType × Int) (m : HBmapType) (sv : SolventState) :
    soluteCandidate w s f n D H D hbidx st = st ∧
    AtomsAreHbonded w s f n D D H hbidx sd m = (0, m) ∧
    solventAcceptorCandidate w s f n D H D sv = sv ∧
    soluteAcceptorCandidate w s f n D H D sv = sv := by
  refine ⟨?_, ?_, ?_, ?_⟩
  · simp [soluteCandidate]
  · simp [AtomsAreHbonded]
  · simp [solventAcceptorCandidate, AtomsAreHbonded]
  · simp [soluteAcceptorCandidate, AtomsAreHbonded]

/-! ### Donor pairs of a candidate heavy atom -/


theorem atomDonorPairs_mem (parm : Topology) (Auto : Bool) (X : Int) (p : Int × Int)
    (hp : p ∈ atomDonorPairs parm Auto X) (hnd : p.1 ≠ p.2) :
    p.1 = X ∧ (parm.atom p.2).Element = AtomicElementType.HYDROGEN ∧
      p.2 ∈ (parm.atom X).bonds ∧ (Auto = false ∨ isFON parm X = true) := by
  unfold atomDonorPairs at hp
  split_ifs at hp with h1 h2 h3
  · simp at hp
  · simp at hp
  · simp only [List.mem_singleton] at hp
    subst hp
    exact absurd rfl hnd
  · obtain ⟨b, hb, rfl⟩ := List.mem_map.1 hp
    obtain ⟨hb1, hb2⟩ := List.mem_filter.1 hb
    refine ⟨rfl, by simpa using hb2, hb1, ?_⟩
    by_contra hF
    push_neg at hF
    exact h2 ⟨by simpa using hF.1, by simpa using hF.2⟩


/-! ### Masks evaluated by `setup`, and what it leaves alone -/


theorem setupOneMask_fst (parm : Topology) (inUse : Bool) (m : AtomMask) :
    (setupOneMask parm inUse m).1 = if inUse && maskFails parm m then 1 else 0 := by
  unfold setupOneMask setupMask maskFails AtomMask.None
  cases inUse
  · simp
  · cases h : parm.SetupIntegerMask m.maskString with
    | none => simp
    | some sel => cases sel <;> simp

theorem usedMasks_any (parm : Topology) (s : Action_Hbond) :
    (usedMasks s).any (maskFails parm) =
      (((!s.hasDonorMask_ || !s.hasAcceptorMask_) && maskFails parm s.Mask_) ||
        (s.hasDonorMask_ && maskFails parm s.DonorMask_) ||
        (s.hasAcceptorMask_ && maskFails parm s.AcceptorMask_) ||
        (s.hasSolventDonor_ && maskFails parm s.SolventDonorMask_) ||
        (s.hasSolventAcceptor_ && maskFails parm s.SolventAcceptorMask_)) := by
  unfold usedMasks
  cases s.hasDonorMask_ <;> cases s.hasAcceptorMask_ <;> cases s.hasSolventDonor_ <;>
    cases s.hasSolventAcceptor_ <;> simp [List.any_append, Bool.or_assoc]

theorem setup_fst (parm : Topology) (s : Action_Hbond) :
    (setup parm s).1 = if (usedMasks s).any (maskFails parm) then 1 else 0 := by
  rw [usedMasks_any]
  unfold setup
  simp only [setupOneMask_fst]
  cases (!s.hasDonorMask_ || !s.hasAcceptorMask_) && maskFails parm s.Mask_ <;>
  cases s.hasDonorMask_ && maskFails parm s.DonorMask_ <;>
  cases s.hasAcceptorMask_ && maskFails parm s.AcceptorMask_ <;>
  cases s.hasSolventDonor_ && maskFails parm s.SolventDonorMask_ <;>
  cases s.hasSolventAcceptor_ && maskFails parm s.SolventAcceptorMask_ <;>
  simp

/-- C22 (as stated, refuted): with a donor mask and an acceptor mask given,
`setup()` does not evaluate the generic mask. On `demoTopology` the generic mask
`nothing` selects no atom, and `setup()` still returns 0, with the lists taken
from the two other masks. -/
theorem setup_ignores_unused_generic_mask :
    demoTopology.SetupIntegerMask bothMasksSetup.Mask_.maskString = some [] ∧
    (setup demoTopology bothMasksSetup).1 = 0 ∧
    (setup demoTopology bothMasksSetup).2.Donor_ = [3, 3] ∧
    (setup demoTopology bothMasksSetup).2.Acceptor_ = [1, 2] := by
  decide

/-- C22 (amended): `setup()` returns 1 exactly when one of the masks it
evaluates (the generic mask unless both a donor and an acceptor mask were given,
and each of the donor, acceptor, solvent-donor and solvent-acceptor masks that
was given) cannot be evaluated or selects no atom; otherwise it returns 0. -/
theorem setup_fails_iff_used_mask_fails (parm : Topology) (s : Action_Hbond) :
    ((setup parm s).1 = 1 ↔ ∃ m ∈ usedMasks s, maskFails parm m = true) ∧
    ((setup parm s).1 = 0 ↔ ∀ m ∈ usedMasks s, maskFails parm m = false) := by
  rw [setup_fst]
  refine ⟨?_, ?_⟩
  · cases h : (usedMasks s).any (maskFails parm)
    · simp only [Bool.false_eq_true, if_false]
      constructor
      · intro h0; exact absurd h0 (by decide)
      · rintro ⟨m, hm, hf⟩
        have := List.any_eq_true.2 ⟨m, hm, hf⟩
        rw [h] at this
        exact Bool.noConfusion this
    · simp only [if_true, true_iff]
      obtain ⟨m, hm, hf⟩ := List.any_eq_true.1 h
      exact ⟨m, hm, hf⟩
  · cases h : (usedMasks s).any (maskFails parm)
    · simp only [Bool.false_eq_true, if_false, true_iff]
      intro m hm
      cases hf : maskFails parm m
      · rfl
      · have := List.any_eq_true.2 ⟨m, hm, hf⟩
        rw [h] at this
        exact Bool.noConfusion this
    · simp only [if_true]
      constructor
      · intro h0; exact absurd h0 (by decide)
      · intro hall
        obtain ⟨m, hm, hf⟩ := List.any_eq_true.1 h
        rw [hall m hm] at hf
        exact Bool.noConfusion hf

theorem setupLists_Nframes (parm : Topology) (t : Action_Hbond) :
    (setupLists parm t).Nframes_ = t.Nframes_ := by
  unfold setupLists
  dsimp only
  split_ifs <;> rfl

theorem setup_keeps (parm : Topology) (s : Action_Hbond) :
    (setup parm s).2.HbondMap_ = s.HbondMap_ ∧ (setup parm s).2.SolventMap_ = s.SolventMap_ ∧
    (setup parm s).2.BridgeMap_ = s.BridgeMap_ ∧ (setup parm s).2.Nframes_ = s.Nframes_ := by
  unfold setup
  dsimp only
  split_ifs
  · exact ⟨rfl, rfl, rfl, rfl⟩
  · exact ⟨rfl, rfl, rfl, rfl⟩
  · exact ⟨rfl, rfl, rfl, rfl⟩
  · exact ⟨rfl, rfl, rfl, rfl⟩
  · exact ⟨rfl, rfl, rfl, rfl⟩
  · exact ⟨(setupLists_keeps parm _).2.2.2.1, (setupLists_keeps parm _).2.2.2.2.1,
      (setupLists_keeps parm _).2.2.2.2.2, setupLists_Nframes parm _⟩

/-- C23 (as stated, refuted): `setup()` run again on an instance that holds a
record under slot 0 from the lists `[10, 11]` and `[20]` returns 0 with the new
lists `[3, 3]` and `[1, 4]` and the old record still in the registry; the next
frame evaluated with the new lists adds to that record. -/
theorem setup_keeps_stale_record :
    (setup demoTopology staleSetup).1 = 0 ∧
    (setup demoTopology staleSetup).2.Donor_ = [3, 3] ∧
    (setup demoTopology staleSetup).2.Acceptor_ = [1, 4] ∧
    (setup demoTopology staleSetup).2.HbondMap_ = [(0, scenarioARecord)] ∧
    (mapFind 0 (action demoWorld bondFrame 1 (setup demoTopology staleSetup).2).HbondMap_).map
      (fun hb => (hb.A, hb.H, hb.D, hb.Frames)) = some (20, 11, 10, 2) := by
  have h : (setup demoTopology staleSetup).2.HbondMap_ = [(0, scenarioARecord)] := by
    rw [(setup_keeps demoTopology staleSetup).1]
    rfl
  have hs : (setup demoTopology staleSetup).2 =
      { staleSetup with
        Mask_ := { maskString := "all", Selected_ := [1, 2, 3, 4, 5, 6, 7] },
        DonorMask_ := { maskString := "ion", Selected_ := [3] },
        Donor_ := [3, 3], Acceptor_ := [1, 4] } := by
    rfl
  refine ⟨by decide, by decide, by decide, h, ?_⟩
  rw [hs]
  norm_num [action, staleSetup, ionDonorSetup, freshAction, bondFrame, constFrame,
    soluteDonorLoop, soluteAcceptorLoop, soluteCandidate, mapFind, mapInsert, mapModify,
    newSoluteHB, bumpHB, scenarioARecord, demoWorld]

/-- C23 (amended): `setup()` does not touch the registries. Whatever it
returns, the solute-solute registry, the solute-solvent registry, the bridge
table and the frame counter are afterwards what they were before; so the
solute-solute registry is empty after `setup()` exactly when it was empty
before. -/
theorem setup_leaves_registries (parm : Topology) (s : Action_Hbond) :
    (setup parm s).2.HbondMap_ = s.HbondMap_ ∧ (setup parm s).2.SolventMap_ = s.SolventMap_ ∧
    (setup parm s).2.BridgeMap_ = s.BridgeMap_ ∧ (setup parm s).2.Nframes_ = s.Nframes_ ∧
    ((setup parm s).2.HbondMap_ = [] ↔ s.HbondMap_ = []) := by
  obtain ⟨h1, h2, h3, h4⟩ := setup_keeps parm s
  exact ⟨h1, h2, h3, h4, by rw [h1]⟩

/-! ### Output destinations of `print` -/

theorem printSolute_eq (env : PrintEnv) (s : Action_Hbond) (fs : Files)
    (hA : s.avgout_ = "" ∨ env.canOpen s.avgout_ = true) :
    printSolute env s fs =
      some (if s.avgout_ ≠ "" then
          ({ s with HbondMap_ := [] }, fileWrite false fs s.avgout_ (soluteReport env s))
        else (s, fs)) := by
  unfold printSolute soluteReport
  rcases hA with hA | hA
  · simp [hA]
  · simp only [hA, if_true]
    split_ifs <;> rfl

theorem printSolvent_eq (env : PrintEnv) (s : Action_Hbond) (fs : Files)
    (hS : s.solvout_ = "" ∨ env.canOpen s.solvout_ = true) :
    printSolvent env s fs =
      some (if s.solvout_ ≠ "" ∧ s.calcSolvent_ = true then
          ({ s with SolventMap_ := [] },
            fileWrite (decide (s.solvout_ = s.avgout_)) fs s.solvout_ (solventReport env s))
        else (s, fs)) := by
  unfold printSolvent solventReport
  rcases hS with hS | hS
  · simp [hS]
  · simp only [hS, if_true]
    split_ifs <;> rfl

theorem printBridge_eq (env : PrintEnv) (s : Action_Hbond) (fs : Files)
    (hB : s.bridgeout_ = "" ∨ env.canOpen s.bridgeout_ = true) :
    printBridge env s fs =
      some (if s.bridgeout_ ≠ "" ∧ s.calcSolvent_ = true then
          (s, fileWrite (decide (s.bridgeout_ = s.avgout_) || decide (s.bridgeout_ = s.solvout_))
            fs s.bridgeout_ (bridgeReport env s))
        else (s, fs)) := by
  unfold printBridge bridgeReport
  rcases hB with hB | hB
  · simp [hB]
  · simp only [hB, if_true]
    split_ifs <;> rfl

theorem print_eq (env : PrintEnv) (s : Action_Hbond) (fs : Files)
    (hA : s.avgout_ = "" ∨ env.canOpen s.avgout_ = true)
    (hS : s.solvout_ = "" ∨ env.canOpen s.solvout_ = true)
    (hB : s.bridgeout_ = "" ∨ env.canOpen s.bridgeout_ = true) :
    (print env s fs).2 =
      (fun F2 : Files =>
        if s.bridgeout_ ≠ "" ∧ s.calcSolvent_ = true then
          fileWrite (decide (s.bridgeout_ = s.avgout_) || decide (s.bridgeout_ = s.solvout_))
            F2 s.bridgeout_ (bridgeReport env s)
        else F2)
      ((fun F1 : Files =>
        if s.solvout_ ≠ "" ∧ s.calcSolvent_ = true then
          fileWrite (decide (s.solvout_ = s.avgout_)) F1 s.solvout_ (solventReport env s)
        else F1)
      (if s.avgout_ ≠ "" then fileWrite false fs s.avgout_ (soluteReport env s) else fs)) := by
  have e1 := printSolute_eq env s fs hA
  unfold print
  rw [e1]
  dsimp only
  by_cases c1 : s.avgout_ ≠ ""
  · rw [if_pos c1, if_pos c1]
    dsimp only
    have e2 := printSolvent_eq env { s with HbondMap_ := [] }
      (fileWrite false fs s.avgout_ (soluteReport env s)) hS
    rw [e2]
    dsimp only
    by_cases c2 : s.solvout_ ≠ "" ∧ s.calcSolvent_ = true
    · rw [if_pos c2, if_pos c2]
      dsimp only
      have e3 := printBridge_eq env { s with HbondMap_ := [], SolventMap_ := [] }
        (fileWrite (decide (s.solvout_ = s.avgout_))
          (fileWrite false fs s.avgout_ (soluteReport env s)) s.solvout_
          (solventReport env { s with HbondMap_ := [] })) hB
      rw [e3]
      dsimp only
      by_cases c3 : s.bridgeout_ ≠ "" ∧ s.calcSolvent_ = true
      · rw [if_pos c3, if_pos c3]; rfl
      · rw [if_neg c3, if_neg c3]; rfl
    · rw [if_neg c2, if_neg c2]
      dsimp only
      have e3 := printBridge_eq env { s with HbondMap_ := [] }
        (fileWrite false fs s.avgout_ (soluteReport env s)) hB
      rw [e3]
      dsimp only
      by_cases c3 : s.bridgeout_ ≠ "" ∧ s.calcSolvent_ = true
      · rw [if_pos c3, if_pos c3]; rfl
      · rw [if_neg c3, if_neg c3]
  · rw [if_neg c1, if_neg c1]
    dsimp only
    have e2 := printSolvent_eq env s fs hS
    rw [e2]
    dsimp only
    by_cases c2 : s.solvout_ ≠ "" ∧ s.calcSolvent_ = true
    · rw [if_pos c2, if_pos c2]
      dsimp only
      have e3 := printBridge_eq env { s with SolventMap_ := [] }
        (fileWrite (decide (s.solvout_ = s.avgout_)) fs s.solvout_ (solventReport env s)) hB
      rw [e3]
      dsimp only
      by_cases c3 : s.bridgeout_ ≠ "" ∧ s.calcSolvent_ = true
      · rw [if_pos c3, if_pos c3]; rfl
      · rw [if_neg c3, if_neg c3]
    · rw [if_neg c2, if_neg c2]
      dsimp only
      have e3 := printBridge_eq env s fs hB
      rw [e3]
      dsimp only
      by_cases c3 : s.bridgeout_ ≠ "" ∧ s.calcSolvent_ = true
      · rw [if_pos c3, if_pos c3]
      · rw [if_neg c3, if_neg c3]

theorem print_files (env : PrintEnv) (s : Action_Hbond) (fs : Files) (n : String)
    (hA : s.avgout_ = "" ∨ env.canOpen s.avgout_ = true)
    (hS : s.solvout_ = "" ∨ env.canOpen s.solvout_ = true)
    (hB : s.bridgeout_ = "" ∨ env.canOpen s.bridgeout_ = true) :
    (print env s fs).2 n = if isDestination s n then reportsFor env s n else fs n := by
  rw [print_eq env s fs hA hS hB]
  unfold isDestination reportsFor
  by_cases c1 : s.avgout_ ≠ "" <;> by_cases c2 : s.solvout_ ≠ "" ∧ s.calcSolvent_ = true <;>
    by_cases c3 : s.bridgeout_ ≠ "" ∧ s.calcSolvent_ = true <;>
    simp only [c1, c2, c3, fileWrite, if_true, if_false, true_and, and_true,
      false_and, and_false, or_true, true_or, or_false, false_or, List.nil_append,
      List.append_nil, not_true_eq_false, not_false_eq_true, ne_eq, and_self,
      Bool.false_eq_true, Bool.or_eq_true, decide_eq_true_eq] <;>
    split_ifs <;> simp_all [fileWrite]
/-- C28: when every configured destination opens, each block of `print()`
writes its report with `OpenWrite` (the old content is dropped) unless the
name is that of an earlier report: the solute-solvent block appends exactly
when `solvout_` equals `avgout_`, the bridging block exactly when `bridgeout_`
equals `avgout_` or `solvout_`, the solute-solute block never. After `print()`
a destination holds the reports directed to it one after the other, in the
order solute-solute, solute-solvent, bridging, and any other file is as it
was. -/
theorem report_open_mode (env : PrintEnv) (s : Action_Hbond) (fs : Files) (n : String)
    (hA : s.avgout_ = "" ∨ env.canOpen s.avgout_ = true)
    (hS : s.solvout_ = "" ∨ env.canOpen s.solvout_ = true)
    (hB : s.bridgeout_ = "" ∨ env.canOpen s.bridgeout_ = true) :
    printSolute env s fs =
      some (if s.avgout_ ≠ "" then
          ({ s with HbondMap_ := [] }, fileWrite false fs s.avgout_ (soluteReport env s))
        else (s, fs)) ∧
    printSolvent env s fs =
      some (if s.solvout_ ≠ "" ∧ s.calcSolvent_ = true then
          ({ s with SolventMap_ := [] },
            fileWrite (decide (s.solvout_ = s.avgout_)) fs s.solvout_ (solventReport env s))
        else (s, fs)) ∧
    printBridge env s fs =
      some (if s.bridgeout_ ≠ "" ∧ s.calcSolvent_ = true then
          (s, fileWrite (decide (s.bridgeout_ = s.avgout_) || decide (s.bridgeout_ = s.solvout_))
            fs s.bridgeout_ (bridgeReport env s))
        else (s, fs)) ∧
    (print env s fs).2 n = (if isDestination s n then reportsFor env s n else fs n) :=
  ⟨printSolute_eq env s fs hA, printSolvent_eq env s fs hS, printBridge_eq env s fs hB,
    print_files env s fs n hA hS hB⟩

theorem report_open_mode_witness :
    ((sharedReportState.avgout_ = "" ∨
        (demoPrintEnv fun _ => true).canOpen sharedReportState.avgout_ = true) ∧
      (sharedReportState.solvout_ = "" ∨
        (demoPrintEnv fun _ => true).canOpen sharedReportState.solvout_ = true) ∧
      (sharedReportState.bridgeout_ = "" ∨
        (demoPrintEnv fun _ => true).canOpen sharedReportState.bridgeout_ = true)) ∧
    (print (demoPrintEnv fun _ => true) sharedReportState noFiles).2 "avg.dat" =
      (if isDestination sharedReportState "avg.dat" then
        reportsFor (demoPrintEnv fun _ => true) sharedReportState "avg.dat"
      else noFiles "avg.dat") ∧
    isDestination sharedReportState "avg.dat" ∧
    reportsFor (demoPrintEnv fun _ => true) sharedReportState "avg.dat" =
      soluteReport (demoPrintEnv fun _ => true) sharedReportState ++
        solventReport (demoPrintEnv fun _ => true) sharedReportState ++
        bridgeReport (demoPrintEnv fun _ => true) sharedReportState :=
  ⟨⟨Or.inr rfl, Or.inr rfl, Or.inr rfl⟩,
    (report_open_mode (demoPrintEnv fun _ => true) sharedReportState noFiles "avg.dat"
      (Or.inr rfl) (Or.inr rfl) (Or.inr rfl)).2.2.2,
    by decide, by simp [reportsFor, sharedReportState, reportState, freshAction]⟩


/-! ### `action` after `print` -/

theorem printSolute_state (env : PrintEnv) (s : Action_Hbond) (fs : Files)
    (r : Action_Hbond × Files) (h : printSolute env s fs = some r) :
    r.1 = { s with HbondMap_ := r.1.HbondMap_ } ∧
      (r.1.HbondMap_ = [] ∨ r.1.HbondMap_ = s.HbondMap_) := by
  unfold printSolute at h
  split_ifs at h
  · simp only [Option.some.injEq] at h
    subst h
    exact ⟨rfl, Or.inl rfl⟩
  · simp only [Option.some.injEq] at h
    subst h
    exact ⟨rfl, Or.inr rfl⟩

theorem printSolvent_state (env : PrintEnv) (s : Action_Hbond) (fs : Files)
    (r : Action_Hbond × Files) (h : printSolvent env s fs = some r) :
    r.1 = { s with SolventMap_ := r.1.SolventMap_ } ∧
      (r.1.SolventMap_ = [] ∨ r.1.SolventMap_ = s.SolventMap_) := by
  unfold printSolvent at h
  split_ifs at h
  · simp only [Option.some.injEq] at h
    subst h
    exact ⟨rfl, Or.inl rfl⟩
  · simp only [Option.some.injEq] at h
    subst h
    exact ⟨rfl, Or.inr rfl⟩

theorem print_state (env : PrintEnv) (s : Action_Hbond) (fs : Files) :
    (print env s fs).1 =
        { s with
          HbondMap_ := (print env s fs).1.HbondMap_,
          SolventMap_ := (print env s fs).1.SolventMap_ } ∧
      ((print env s fs).1.HbondMap_ = [] ∨ (print env s fs).1.HbondMap_ = s.HbondMap_) ∧
      ((print env s fs).1.SolventMap_ = [] ∨ (print env s fs).1.SolventMap_ = s.SolventMap_) := by
  unfold print
  cases h1 : printSolute env s fs with
  | none => exact ⟨rfl, Or.inr rfl, Or.inr rfl⟩
  | some r1 =>
    obtain ⟨a1, a2⟩ := printSolute_state env s fs r1 h1
    dsimp only
    cases h2 : printSolvent env r1.1 r1.2 with
    | none =>
      dsimp only
      refine ⟨?_, a2, Or.inr ?_⟩
      · rw [a1]
      · rw [a1]
    | some r2 =>
      obtain ⟨b1, b2⟩ := printSolvent_state env r1.1 r1.2 r2 h2
      have hfin : r2.1 = { s with HbondMap_ := r2.1.HbondMap_, SolventMap_ := r2.1.SolventMap_ } ∧
          (r2.1.HbondMap_ = [] ∨ r2.1.HbondMap_ = s.HbondMap_) ∧
          (r2.1.SolventMap_ = [] ∨ r2.1.SolventMap_ = s.SolventMap_) := by
        have e1 : r2.1.HbondMap_ = r1.1.HbondMap_ := by rw [b1]
        have e2 : r1.1.SolventMap_ = s.SolventMap_ := by rw [a1]
        refine ⟨?_, ?_, ?_⟩
        · rw [b1, a1]
        · rw [e1]; exact a2
        · rw [← e2]; exact b2
      dsimp only
      cases h3 : printBridge env r2.1 r2.2 with
      | none => exact hfin
      | some r3 =>
        have := printBridge_state env r2.1 r2.2 r3 h3
        dsimp only
        rw [this]
        exact hfin

theorem donorPairs_mem : ∀ (l : List Int) (p : Int × Int), p ∈ donorPairs l → p.1 ∈ l ∧ p.2 ∈ l
  | [], p, h => by simp [donorPairs] at h
  | [_], p, h => by simp [donorPairs] at h
  | D :: H :: rest, p, h => by
    rw [donorPairs, List.mem_cons] at h
    rcases h with h | h
    · subst h
      simp
    · have := donorPairs_mem rest p h
      exact ⟨List.mem_cons_of_mem _ (List.mem_cons_of_mem _ this.1),
        List.mem_cons_of_mem _ (List.mem_cons_of_mem _ this.2)⟩

section Invariants

variable (I : HBmapType → Prop)

theorem soluteAcceptorLoop_inv (w : World) (s : Action_Hbond) (f : Frame) (n : Nat) (D H : Int) :
    ∀ (as : List Int) (hbidx : Int) (st : HBmapType × Int),
      (∀ a ∈ as, ∀ k st, I st.1 → I (soluteCandidate w s f n D H a k st).1) → I st.1 →
      I (soluteAcceptorLoop w s f n D H as hbidx st).1.1 := by
  intro as
  induction as with
  | nil => intro hbidx st _ h; simpa [soluteAcceptorLoop] using h
  | cons a as ih =>
    intro hbidx st hstep h
    rw [soluteAcceptorLoop]
    exact ih _ _ (fun b hb => hstep b (List.mem_cons_of_mem _ hb))
      (hstep a (List.mem_cons_self _ _) hbidx st h)

theorem soluteDonorLoop_inv (w : World) (s : Action_Hbond) (f : Frame) (n : Nat) :
    ∀ (l : List Int) (hbidx : Int) (st : HBmapType × Int),
      (∀ p ∈ donorPairs l, ∀ a ∈ s.Acceptor_, ∀ k st,
        I st.1 → I (soluteCandidate w s f n p.1 p.2 a k st).1) → I st.1 →
      I (soluteDonorLoop w s f n l hbidx st).1.1
  | [], hbidx, st, _, h => by simpa [soluteDonorLoop] using h
  | [_], hbidx, st, _, h => by simpa [soluteDonorLoop] using h
  | D :: H :: rest, hbidx, st, hstep, h => by
    rw [soluteDonorLoop]
    exact soluteDonorLoop_inv w s f n rest _ _
      (fun p hp => hstep p (by rw [donorPairs]; exact List.mem_cons_of_mem _ hp))
      (soluteAcceptorLoop_inv I w s f n D H s.Acceptor_ hbidx st
        (fun a ha => hstep (D, H) (by rw [donorPairs]; exact List.mem_cons_self _ _) a ha) h)

theorem acceptorFold_inv (w : World) (s : Action_Hbond) (f : Frame) (n : Nat) (D H : Int) :
    ∀ (accs : List Int) (st : SolventState),
      (∀ a ∈ accs, ∀ m, I m → I (AtomsAreHbonded w s f n a D H H true m).2) →
      I st.SolventMap_ →
      I (accs.foldl (fun st a => solventAcceptorCandidate w s f n D H a st) st).SolventMap_ := by
  intro accs
  induction accs with
  | nil => intro st _ h; exact h
  | cons a accs ih =>
    intro st hstep h
    rw [List.foldl_cons]
    refine ih _ (fun b hb => hstep b (List.mem_cons_of_mem _ hb)) ?_
    rw [solventAcceptorCandidate_eq]
    exact hstep a (List.mem_cons_self _ _) _ h

theorem donorFold_inv (w : World) (s : Action_Hbond) (f : Frame) (n : Nat) (D H : Int) :
    ∀ (accs : List Int) (st : SolventState),
      (∀ a ∈ accs, ∀ m, I m → I (AtomsAreHbonded w s f n a D H a false m).2) →
      I st.SolventMap_ →
      I (accs.foldl (fun st a => soluteAcceptorCandidate w s f n D H a st) st).SolventMap_ := by
  intro accs
  induction accs with
  | nil => intro st _ h; exact h
  | cons a accs ih =>
    intro st hstep h
    rw [List.foldl_cons]
    refine ih _ (fun b hb => hstep b (List.mem_cons_of_mem _ hb)) ?_
    rw [soluteAcceptorCandidate_eq]
    exact hstep a (List.mem_cons_self _ _) _ h

theorem solventAcceptorSweep_inv (w : World) (s : Action_Hbond) (f : Frame) (n : Nat) :
    ∀ (l : List Int) (st : SolventState),
      (∀ p ∈ donorPairs l, ∀ a ∈ s.SolventAcceptor_, ∀ m,
        I m → I (AtomsAreHbonded w s f n a p.1 p.2 p.2 true m).2) →
      I st.SolventMap_ → I (solventAcceptorSweep w s f n l st).SolventMap_
  | [], st, _, h => by simpa [solventAcceptorSweep] using h
  | [_], st, _, h => by simpa [solventAcceptorSweep] using h
  | D :: H :: rest, st, hstep, h => by
    rw [solventAcceptorSweep]
    exact solventAcceptorSweep_inv w s f n rest _
      (fun p hp => hstep p (by rw [donorPairs]; exact List.mem_cons_of_mem _ hp))
      (acceptorFold_inv I w s f n D H s.SolventAcceptor_ st
        (fun a ha => hstep (D, H) (by rw [donorPairs]; exact List.mem_cons_self _ _) a ha) h)

theorem solventDonorSweep_inv (w : World) (s : Action_Hbond) (f : Frame) (n : Nat) :
    ∀ (l : List Int) (st : SolventState),
      (∀ p ∈ donorPairs l, ∀ a ∈ s.Acceptor_, ∀ m,
        I m → I (AtomsAreHbonded w s f n a p.1 p.2 a false m).2) →
      I st.SolventMap_ → I (solventDonorSweep w s f n l st).SolventMap_
  | [], st, _, h => by simpa [solventDonorSweep] using h
  | [_], st, _, h => by simpa [solventDonorSweep] using h
  | D :: H :: rest, st, hstep, h => by
    rw [solventDonorSweep]
    exact solventDonorSweep_inv w s f n rest _
      (fun p hp => hstep p (by rw [donorPairs]; exact List.mem_cons_of_mem _ hp))
      (donorFold_inv I w s f n D H s.Acceptor_ st
        (fun a ha => hstep (D, H) (by rw [donorPairs]; exact List.mem_cons_self _ _) a ha) h)

theorem solventSweeps_inv (w : World) (s : Action_Hbond) (f : Frame) (n : Nat)
    (hA : ∀ p ∈ donorPairs s.Donor_, ∀ a ∈ s.SolventAcceptor_, ∀ m,
      I m → I (AtomsAreHbonded w s f n a p.1 p.2 p.2 true m).2)
    (hB : ∀ p ∈ donorPairs s.SolventDonor_, ∀ a ∈ s.Acceptor_, ∀ m,
      I m → I (AtomsAreHbonded w s f n a p.1 p.2 a false m).2)
    (h : I s.SolventMap_) : I (solventSweeps w s f n).1.SolventMap_ := by
  unfold solventSweeps
  cases ha : s.hasSolventAcceptor_ <;> cases hd : s.hasSolventDonor_
  · simpa using h
  · simp only [Bool.false_eq_true, if_false, if_true]
    exact solventDonorSweep_inv I w s f n _ _ hB h
  · simp only [Bool.false_eq_true, if_false, if_true]
    exact solventAcceptorSweep_inv I w s f n _ _ hA h
  · simp only [if_true]
    exact solventDonorSweep_inv I w s f n _ _ hB
      (solventAcceptorSweep_inv I w s f n _ _ hA h)

theorem action_HbondMap_inv (w : World) (f : Frame) (n : Nat) (s : Action_Hbond)
    (hstep : ∀ p ∈ donorPairs s.Donor_, ∀ a ∈ s.Acceptor_, ∀ k st,
      I st.1 → I (soluteCandidate w s f n p.1 p.2 a k st).1)
    (h : I s.HbondMap_) : I (action w f n s).HbondMap_ := by
  rw [action_HbondMap]
  exact soluteDonorLoop_inv I w s f n _ _ _ hstep h

theorem action_SolventMap_inv (w : World) (f : Frame) (n : Nat) (s : Action_Hbond)
    (hA : ∀ p ∈ donorPairs s.Donor_, ∀ a ∈ s.SolventAcceptor_, ∀ m,
      I m → I (AtomsAreHbonded w s f n a p.1 p.2 p.2 true m).2)
    (hB : ∀ p ∈ donorPairs s.SolventDonor_, ∀ a ∈ s.Acceptor_, ∀ m,
      I m → I (AtomsAreHbonded w s f n a p.1 p.2 a false m).2)
    (h : I s.SolventMap_) : I (action w f n s).SolventMap_ := by
  rw [action_SolventMap]
  split_ifs
  · exact solventSweeps_inv I w _ f n hA hB h
  · exact h

end Invariants

/-! ### Nothing is reset by a frame -/

theorem registryGrows_refl (m : HBmapType) : registryGrows m m :=
  fun _ hb h => ⟨hb, h, le_refl _⟩

theorem registryGrows_trans {m1 m2 m3 : HBmapType} (h12 : registryGrows m1 m2)
    (h23 : registryGrows m2 m3) : registryGrows m1 m3 := by
  intro k hb h
  obtain ⟨hb2, g2, l2⟩ := h12 k hb h
  obtain ⟨hb3, g3, l3⟩ := h23 k hb2 g2
  exact ⟨hb3, g3, le_trans l2 l3⟩

theorem registryGrows_keys {m m' : HBmapType} (h : registryGrows m m') :
    m.map Prod.fst ⊆ m'.map Prod.fst := by
  intro k hk
  cases hf : mapFind k m with
  | none => exact absurd hk ((mapFind_eq_none_iff k m).1 hf)
  | some hb =>
    obtain ⟨hb', g, _⟩ := h k hb hf
    by_contra hn
    rw [(mapFind_eq_none_iff k m').2 hn] at g
    exact Option.noConfusion g

theorem soluteCandidate_grows (w : World) (s : Action_Hbond) (f : Frame) (n : Nat)
    (D H A hbidx : Int) (st : HBmapType × Int) :
    registryGrows st.1 (soluteCandidate w s f n D H A hbidx st).1 := by
  intro k hb h
  rw [soluteCandidate_find]
  split_ifs with hc
  · rw [← hc.1, h]
    exact ⟨_, rfl, by simp [soluteRecord, bumpHB]⟩
  · exact ⟨hb, h, le_refl _⟩

theorem atomsAreHbonded_grows (w : World) (s : Action_Hbond) (f : Frame) (n : Nat)
    (a d h hbidx : Int) (sd : Bool) (m : HBmapType) :
    registryGrows m (AtomsAreHbonded w s f n a d h hbidx sd m).2 := by
  intro k hb hf
  rw [atomsAreHbonded_find]
  split_ifs with hc
  · rw [← hc.1, hf]
    exact ⟨_, rfl, by simp [solventRecord, bumpHB]⟩
  · exact ⟨hb, hf, le_refl _⟩

theorem bridgeRecord_grows (key : List Int) (bm : BridgeType) :
    bridgeGrows bm (bridgeRecord key bm) := by
  intro k c h
  rw [mapFind_bridgeRecord]
  split_ifs with hc
  · rw [← hc, h]
    exact ⟨_, rfl, by simp⟩
  · exact ⟨c, h, le_refl _⟩

theorem bridgeLoop_grows :
    ∀ (l : List (Int × List Int)) (st : BridgeType × Int), bridgeGrows st.1 (bridgeLoop l st).1 := by
  intro l
  induction l with
  | nil => intro st k c h; exact ⟨c, h, le_refl _⟩
  | cons e l ih =>
    intro st
    rw [bridgeLoop]
    split_ifs
    · intro k c h
      obtain ⟨c1, g1, l1⟩ := bridgeRecord_grows e.2 st.1 k c h
      obtain ⟨c2, g2, l2⟩ := ih (bridgeRecord e.2 st.1, st.2 + 1) k c1 g1
      exact ⟨c2, g2, le_trans l1 l2⟩
    · exact ih st

theorem action_BridgeMap (w : World) (f : Frame) (n : Nat) (s : Action_Hbond) :
    (action w f n s).BridgeMap_ =
      if s.calcSolvent_ then
        (bridgeLoop
          (solventSweeps w
            { s with
              HbondMap_ := (soluteDonorLoop w s f n s.Donor_ 0 (s.HbondMap_, 0)).1.1,
              NumHbonds_ := s.NumHbonds_ ++
                [(n, (soluteDonorLoop w s f n s.Donor_ 0 (s.HbondMap_, 0)).1.2)] }
            f n).1.solvent2solute (s.BridgeMap_, 0)).1
      else s.BridgeMap_ := by
  unfold action
  dsimp only
  split_ifs <;> rfl

/-- C27: a call of `action()` resets nothing. Every key the solute-solute
registry, the solute-solvent registry or the bridge table holds before the
frame is held after it, the frame count of every hydrogen-bond record is after
the frame at least what it was before, and so is the count of every bridge
entry. -/
theorem action_never_resets (w : World) (f : Frame) (n : Nat) (s : Action_Hbond) :
    registryGrows s.HbondMap_ (action w f n s).HbondMap_ ∧
    registryGrows s.SolventMap_ (action w f n s).SolventMap_ ∧
    bridgeGrows s.BridgeMap_ (action w f n s).BridgeMap_ ∧
    s.HbondMap_.map Prod.fst ⊆ (action w f n s).HbondMap_.map Prod.fst ∧
    s.SolventMap_.map Prod.fst ⊆ (action w f n s).SolventMap_.map Prod.fst := by
  have h1 : registryGrows s.HbondMap_ (action w f n s).HbondMap_ :=
    action_HbondMap_inv (registryGrows s.HbondMap_) w f n s
      (fun p _ a _ k st h => registryGrows_trans h (soluteCandidate_grows w s f n p.1 p.2 a k st))
      (registryGrows_refl _)
  have h2 : registryGrows s.SolventMap_ (action w f n s).SolventMap_ :=
    action_SolventMap_inv (registryGrows s.SolventMap_) w f n s
      (fun p _ a _ m h =>
        registryGrows_trans h (atomsAreHbonded_grows w s f n a p.1 p.2 p.2 true m))
      (fun p _ a _ m h =>
        registryGrows_trans h (atomsAreHbonded_grows w s f n a p.1 p.2 a false m))
      (registryGrows_refl _)
  refine ⟨h1, h2, ?_, registryGrows_keys h1, registryGrows_keys h2⟩
  rw [action_BridgeMap]
  split_ifs
  · exact bridgeLoop_grows _ (s.BridgeMap_, 0)
  · intro k c h; exact ⟨c, h, le_refl _⟩


/-! ### Shape of the records -/

section MapForall
variable {K V : Type}

theorem mapInsert_forall [LT K] [DecidableRel (α := K) (· < ·)] (P : V → Prop) (k : K) (v : V)
    (hv : P v) : ∀ m : List (K × V), (∀ e ∈ m, P e.2) → ∀ e ∈ mapInsert k v m, P e.2 := by
  intro m
  induction m with
  | nil =>
    intro _ e he
    simp only [mapInsert, List.mem_singleton] at he
    subst he
    exact hv
  | cons x m ih =>
    intro hm e he
    obtain ⟨k', v'⟩ := x
    simp only [mapInsert] at he
    split_ifs at he
    · rcases List.mem_cons.1 he with h | h
      · subst h; exact hv
      · exact hm e h
    · rcases List.mem_cons.1 he with h | h
      · subst h; exact hm _ (List.mem_cons_self _ _)
      · exact ih (fun e he => hm e (List.mem_cons_of_mem _ he)) e h
    · exact hm e he

theorem mapModify_forall [DecidableEq K] (P : V → Prop) (k : K) (f : V → V)
    (hf : ∀ v, P v → P (f v)) :
    ∀ m : List (K × V), (∀ e ∈ m, P e.2) → ∀ e ∈ mapModify k f m, P e.2 := by
  intro m
  induction m with
  | nil => intro _ e he; simp [mapModify] at he
  | cons x m ih =>
    intro hm e he
    obtain ⟨k', v'⟩ := x
    simp only [mapModify] at he
    split_ifs at he
    · rcases List.mem_cons.1 he with h | h
      · subst h; exact hf _ (hm _ (List.mem_cons_self _ _))
      · exact hm e (List.mem_cons_of_mem _ h)
    · rcases List.mem_cons.1 he with h | h
      · subst h; exact hm _ (List.mem_cons_self _ _)
      · exact ih (fun e he => hm e (List.mem_cons_of_mem _ he)) e h

end MapForall

theorem soluteCandidate_shape (w : World) (s : Action_Hbond) (f : Frame) (n : Nat)
    (D H A hbidx : Int) (st : HBmapType × Int) (hD : 0 ≤ D) (hH : 0 ≤ H) (hA : 0 ≤ A)
    (h : ∀ e ∈ st.1, soluteShape e.2) :
    ∀ e ∈ (soluteCandidate w s f n D H A hbidx st).1, soluteShape e.2 := by
  unfold soluteCandidate
  dsimp only
  split_ifs
  · exact h
  · exact h
  · exact h
  · cases mapFind hbidx st.1 with
    | none => exact mapInsert_forall soluteShape _ _ ⟨hA, hD, hH⟩ _ h
    | some _ =>
      exact mapModify_forall soluteShape hbidx
        (bumpHB s.series_ n (w.sqrt (f.DIST2 A D)) (f.ANGLE A H D)) (fun v hv => hv) _ h

theorem atomsAreHbonded_shape (w : World) (s : Action_Hbond) (f : Frame) (n : Nat)
    (a d h hbidx : Int) (sd : Bool) (m : HBmapType)
    (hnew : ∀ dist ang : ℚ, solventShape (newSolventHB w s.series_ n a d h sd dist ang))
    (hm : ∀ e ∈ m, solventShape e.2) :
    ∀ e ∈ (AtomsAreHbonded w s f n a d h hbidx sd m).2, solventShape e.2 := by
  have key : ∀ ang : ℚ,
      ∀ e ∈ (match mapFind hbidx m with
        | none => ((1 : Int), mapInsert hbidx (newSolventHB w s.series_ n a d h sd
            (w.sqrt (f.DIST2 a d)) ang) m)
        | some _ => ((1 : Int),
            mapModify hbidx (bumpHB s.series_ n (w.sqrt (f.DIST2 a d)) ang) m)).2,
        solventShape e.2 := by
    intro ang
    cases mapFind hbidx m with
    | none => exact mapInsert_forall solventShape _ _ (hnew _ _) _ hm
    | some _ =>
      exact mapModify_forall solventShape hbidx
        (bumpHB s.series_ n (w.sqrt (f.DIST2 a d)) ang) (fun v hv => hv) _ hm
  unfold AtomsAreHbonded
  dsimp only
  split_ifs <;> first | exact hm | exact key _

/-- C25: when the entries of `Donor_` and `Acceptor_` are atom indices (not
negative), a call of `action()` keeps the shape of the records: if every
solute-solute record has `A`, `D` and `H` not negative before the frame, so it
is after it, and if every solute-solvent record has either `A = -1` with `D`
and `H` not negative or `A` not negative with `D = -1` and `H = -1` before the
frame, so it is after it. -/
theorem action_keeps_record_shape (w : World) (f : Frame) (n : Nat) (s : Action_Hbond)
    (hDon : s.Donor_.all (fun x => decide (0 ≤ x)) = true)
    (hAcc : s.Acceptor_.all (fun x => decide (0 ≤ x)) = true)
    (hH : s.HbondMap_.all (fun e => decide (soluteShape e.2)) = true)
    (hS : s.SolventMap_.all (fun e => decide (solventShape e.2)) = true) :
    (action w f n s).HbondMap_.all (fun e => decide (soluteShape e.2)) = true ∧
    (action w f n s).SolventMap_.all (fun e => decide (solventShape e.2)) = true := by
  simp only [List.all_eq_true, decide_eq_true_eq] at hDon hAcc hH hS ⊢
  have hpair : ∀ p ∈ donorPairs s.Donor_, 0 ≤ p.1 ∧ 0 ≤ p.2 := fun p hp =>
    ⟨hDon _ (donorPairs_mem _ p hp).1, hDon _ (donorPairs_mem _ p hp).2⟩
  constructor
  · exact action_HbondMap_inv (fun m => ∀ e ∈ m, soluteShape e.2) w f n s
      (fun p hp a ha k st h =>
        soluteCandidate_shape w s f n p.1 p.2 a k st (hpair p hp).1 (hpair p hp).2 (hAcc a ha) h)
      hH
  · refine action_SolventMap_inv (fun m => ∀ e ∈ m, solventShape e.2) w f n s ?_ ?_ hS
    · intro p hp a _ m hm
      exact atomsAreHbonded_shape w s f n a p.1 p.2 p.2 true m
        (fun _ _ => Or.inl ⟨rfl, (hpair p hp).1, (hpair p hp).2⟩) hm
    · intro p _ a ha m hm
      exact atomsAreHbonded_shape w s f n a p.1 p.2 a false m
        (fun _ _ => Or.inr ⟨hAcc a ha, rfl, rfl⟩) hm

theorem action_keeps_record_shape_witness :
    (reportState.Donor_.all (fun x => decide (0 ≤ x)) = true ∧
      reportState.Acceptor_.all (fun x => decide (0 ≤ x)) = true ∧
      reportState.HbondMap_.all (fun e => decide (soluteShape e.2)) = true ∧
      reportState.SolventMap_.all (fun e => decide (solventShape e.2)) = true) ∧
    ((action demoWorld bondFrame 1 reportState).HbondMap_.all
        (fun e => decide (soluteShape e.2)) = true ∧
      (action demoWorld bondFrame 1 reportState).SolventMap_.all
        (fun e => decide (solventShape e.2)) = true) :=
  ⟨⟨by decide, by decide, by decide, by simp [reportState, solventShape]⟩,
    action_keeps_record_shape demoWorld bondFrame 1 reportState (by decide) (by decide)
      (by decide) (by simp [reportState, solventShape])⟩

/-! ### Counts stored for a frame -/

theorem contactsA_length (w : World) (s : Action_Hbond) (f : Frame) (donors : List (Int × Int)) :
    (contactsA w s f donors).length = acceptedSweepA s f donors := by
  unfold contactsA acceptedSweepA
  induction donors with
  | nil => rfl
  | cons d donors ih =>
    simp only [List.flatMap_cons, List.length_append, List.length_map, ih]

theorem contactsB_length (w : World) (s : Action_Hbond) (f : Frame)
    (solventDonors : List (Int × Int)) :
    (contactsB w s f solventDonors).length = acceptedSweepB s f solventDonors := by
  unfold contactsB acceptedSweepB
  induction solventDonors with
  | nil => rfl
  | cons d donors ih =>
    simp only [List.flatMap_cons, List.length_append, List.length_map, ih]

theorem action_NumSolvent (w : World) (f : Frame) (n : Nat) (s : Action_Hbond) :
    (action w f n s).NumSolvent_ =
      if s.calcSolvent_ then
        s.NumSolvent_ ++
          [(n, (solventSweeps w
            { s with
              HbondMap_ := (soluteDonorLoop w s f n s.Donor_ 0 (s.HbondMap_, 0)).1.1,
              NumHbonds_ := s.NumHbonds_ ++
                [(n, (soluteDonorLoop w s f n s.Donor_ 0 (s.HbondMap_, 0)).1.2)] }
            f n).2)]
      else s.NumSolvent_ := by
  unfold action
  dsimp only
  split_ifs <;> rfl

/-- C24: the value `action()` adds to `NumHbonds_` for the frame is the number
of slots (donor pair, acceptor) whose candidate passes in the frame; when the
solvent calculation is on, the value it adds to `NumSolvent_` is the number of
candidates accepted in sweep (a) plus the number accepted in sweep (b), a sweep
that is switched off counting 0, and each of the two numbers is a function of
the frame and the lists alone. Without the solvent calculation nothing is added
to `NumSolvent_`. -/
theorem frame_counts (w : World) (f : Frame) (n : Nat) (s : Action_Hbond)
    (donors solventDonors : List (Int × Int))
    (hD : s.Donor_ = flatDonors donors) (hSD : s.SolventDonor_ = flatDonors solventDonors) :
    (action w f n s).NumHbonds_ = s.NumHbonds_ ++ [(n, (acceptedSolute s f donors : Int))] ∧
    (action w f n s).NumSolvent_ =
      (if s.calcSolvent_ then
        s.NumSolvent_ ++
          [(n, (((if s.hasSolventAcceptor_ then acceptedSweepA s f donors else 0) +
            (if s.hasSolventDonor_ then acceptedSweepB s f solventDonors else 0) : Nat) : Int))]
      else s.NumSolvent_) := by
  constructor
  · have hloop := soluteDonorLoop_eq w s f n donors 0 (s.HbondMap_, 0)
    simp only [Nat.cast_zero, zero_mul] at hloop
    rw [action_NumHbonds, hD, hloop]
    have hc := slotFold_count w s f n (soluteSlots donors s.Acceptor_) (s.HbondMap_, 0)
    simp only [zero_add] at hc
    unfold acceptedSolute
    rw [← hc]
    rfl
  · have h : (solventSweeps w
        { s with
          HbondMap_ := (soluteDonorLoop w s f n s.Donor_ 0 (s.HbondMap_, 0)).1.1,
          NumHbonds_ := s.NumHbonds_ ++
            [(n, (soluteDonorLoop w s f n s.Donor_ 0 (s.HbondMap_, 0)).1.2)] }
        f n).2 = (((frameContacts w s f donors solventDonors).length : Nat) : Int) :=
      (solventSweeps_contacts w
        { s with
          HbondMap_ := (soluteDonorLoop w s f n s.Donor_ 0 (s.HbondMap_, 0)).1.1,
          NumHbonds_ := s.NumHbonds_ ++
            [(n, (soluteDonorLoop w s f n s.Donor_ 0 (s.HbondMap_, 0)).1.2)] }
        f n donors solventDonors hD hSD).1
    have hlen : (frameContacts w s f donors solventDonors).length =
        (if s.hasSolventAcceptor_ then acceptedSweepA s f donors else 0) +
          (if s.hasSolventDonor_ then acceptedSweepB s f solventDonors else 0) := by
      unfold frameContacts
      rw [List.length_append, ← contactsA_length w, ← contactsB_length w]
      cases s.hasSolventAcceptor_ <;> cases s.hasSolventDonor_ <;> rfl
    rw [action_NumSolvent, h, hlen]

theorem frame_counts_witness :
    (reportState.Donor_ = flatDonors [(10, 11)] ∧
      reportState.SolventDonor_ = flatDonors [(100, 101)]) ∧
    ((action demoWorld bondFrame 1 reportState).NumHbonds_ =
        reportState.NumHbonds_ ++ [(1, (acceptedSolute reportState bondFrame [(10, 11)] : Int))] ∧
      (action demoWorld bondFrame 1 reportState).NumSolvent_ =
        (if reportState.calcSolvent_ then
          reportState.NumSolvent_ ++
            [(1, (((if reportState.hasSolventAcceptor_ then
                acceptedSweepA reportState bondFrame [(10, 11)] else 0) +
              (if reportState.hasSolventDonor_ then
                acceptedSweepB reportState bondFrame [(100, 101)] else 0) : Nat) : Int))]
        else reportState.NumSolvent_)) ∧
    acceptedSolute reportState bondFrame [(10, 11)] = 1 ∧
    acceptedSweepA reportState bondFrame [(10, 11)] = 1 ∧
    acceptedSweepB reportState bondFrame [(100, 101)] = 1 :=
  ⟨⟨rfl, rfl⟩,
    frame_counts demoWorld bondFrame 1 reportState [(10, 11)] [(100, 101)] rfl rfl,
    by norm_num [acceptedSolute, soluteSlots, soluteAccepts, reportState, freshAction,
      bondFrame, constFrame],
    by norm_num [acceptedSweepA, solventAccepts, reportState, freshAction, bondFrame,
      constFrame],
    by norm_num [acceptedSweepB, solventAccepts, reportState, freshAction, bondFrame,
      constFrame]⟩


/-! ### Bound on the solute-solute registry -/

theorem sorted_keys_length_le (l : List Int) (N : Nat) (hs : l.Pairwise (· < ·))
    (hr : ∀ k ∈ l, 0 ≤ k ∧ k < (N : Int)) : l.length ≤ N := by
  have hnd : l.Nodup := hs.imp (fun h => ne_of_lt h)
  have hsub : l.toFinset ⊆ Finset.Ico (0 : Int) (N : Int) := by
    intro k hk
    rw [List.mem_toFinset] at hk
    rw [Finset.mem_Ico]
    exact hr k hk
  have hcard := Finset.card_le_card hsub
  rw [List.toFinset_card_of_nodup hnd, Int.card_Ico] at hcard
  simpa using hcard

theorem runFrames_keys_in_range (w : World) (donors : List (Int × Int)) (fs : List Frame)
    (n : Nat) (s : Action_Hbond) (hD : s.Donor_ = flatDonors donors)
    (hr : ∀ k ∈ s.HbondMap_.map Prod.fst,
      0 ≤ k ∧ k < (donors.length : Int) * (s.Acceptor_.length : Int)) :
    ∀ k ∈ (runFrames w n fs s).HbondMap_.map Prod.fst,
      0 ≤ k ∧ k < (donors.length : Int) * (s.Acceptor_.length : Int) := by
  intro k hk
  by_contra hout
  have hk' : k < 0 ∨ (donors.length : Int) * (s.Acceptor_.length : Int) ≤ k := by
    by_contra hn
    push_neg at hn
    exact hout ⟨hn.1, hn.2⟩
  have hfind := runFrames_find_not_slot w donors k fs n s hD hk'
  have hnone : mapFind k s.HbondMap_ = none := by
    rw [mapFind_eq_none_iff]
    intro hmem
    exact hout (hr k hmem)
  rw [hnone, mapFind_eq_none_iff] at hfind
  exact hfind hk

/-- C26: with the donor pairs `donors` and the acceptor list fixed, and a
solute-solute registry whose keys are in ascending order and lie in
`[0, donorCount * acceptorCount)` to begin with (the empty registry among
them), after any run of frames every key of the registry lies in
`[0, donorCount * acceptorCount)` and the registry holds at most
`donorCount * acceptorCount` records. -/
theorem solute_registry_bounded (w : World) (s : Action_Hbond)
    (donors : List (Int × Int)) (frames : List Frame) (n0 : Nat)
    (hD : s.Donor_ = flatDonors donors)
    (hsorted : (s.HbondMap_.map Prod.fst).Pairwise (· < ·))
    (hrange : (s.HbondMap_.map Prod.fst).all (fun k =>
      decide (0 ≤ k ∧ k < (donors.length : Int) * (s.Acceptor_.length : Int))) = true) :
    ((runFrames w n0 frames s).HbondMap_.map Prod.fst).all (fun k =>
      decide (0 ≤ k ∧ k < (donors.length : Int) * (s.Acceptor_.length : Int))) = true ∧
    (runFrames w n0 frames s).HbondMap_.length ≤ donors.length * s.Acceptor_.length := by
  simp only [List.all_eq_true, decide_eq_true_eq] at hrange ⊢
  have hr := runFrames_keys_in_range w donors frames n0 s hD hrange
  refine ⟨hr, ?_⟩
  have hs := runFrames_HbondMap_sorted w donors frames n0 s hD hsorted
  have := sorted_keys_length_le _ (donors.length * s.Acceptor_.length) hs
    (fun k hk => by
      have := hr k hk
      push_cast
      exact this)
  simpa using this

theorem solute_registry_bounded_witness :
    (scenarioA.Donor_ = flatDonors [(10, 11)] ∧
      (scenarioA.HbondMap_.map Prod.fst).Pairwise (· < ·) ∧
      (scenarioA.HbondMap_.map Prod.fst).all (fun k =>
        decide (0 ≤ k ∧ k < (([((10 : Int), (11 : Int))].length : Nat) : Int) *
          (scenarioA.Acceptor_.length : Int))) = true) ∧
    (((runFrames demoWorld 0 [bondFrame, noBondFrame, bondFrame] scenarioA).HbondMap_.map
        Prod.fst).all (fun k =>
      decide (0 ≤ k ∧ k < (([((10 : Int), (11 : Int))].length : Nat) : Int) *
        (scenarioA.Acceptor_.length : Int))) = true ∧
      (runFrames demoWorld 0 [bondFrame, noBondFrame, bondFrame] scenarioA).HbondMap_.length ≤
        [((10 : Int), (11 : Int))].length * scenarioA.Acceptor_.length) :=
  ⟨⟨rfl, List.Pairwise.nil, rfl⟩,
    solute_registry_bounded demoWorld scenarioA [(10, 11)] [bondFrame, noBondFrame, bondFrame] 0
      rfl List.Pairwise.nil rfl⟩

/-! ### A failed `setup`, and the layout of the donor lists -/

theorem setup_lists_of_fail (parm : Topology) (s : Action_Hbond) (hfail : (setup parm s).1 ≠ 0) :
    (setup parm s).2.Donor_ = s.Donor_ ∧ (setup parm s).2.Acceptor_ = s.Acceptor_ ∧
    (setup parm s).2.SolventDonor_ = s.SolventDonor_ ∧
    (setup parm s).2.SolventAcceptor_ = s.SolventAcceptor_ := by
  unfold setup at hfail ⊢
  dsimp only at hfail ⊢
  split_ifs at hfail ⊢
  · exact ⟨rfl, rfl, rfl, rfl⟩
  · exact ⟨rfl, rfl, rfl, rfl⟩
  · exact ⟨rfl, rfl, rfl, rfl⟩
  · exact ⟨rfl, rfl, rfl, rfl⟩
  · exact ⟨rfl, rfl, rfl, rfl⟩
  · exact absurd rfl hfail

/-- C36: when `setup()` returns failure, the solute donor list, the solute
acceptor list, the solvent donor list, the solvent acceptor list and the three
registries are what they were before the call. -/
theorem setup_failure_keeps_lists (parm : Topology) (s : Action_Hbond)
    (hfail : (setup parm s).1 ≠ 0) :
    (setup parm s).2.Donor_ = s.Donor_ ∧ (setup parm s).2.Acceptor_ = s.Acceptor_ ∧
    (setup parm s).2.SolventDonor_ = s.SolventDonor_ ∧
    (setup parm s).2.SolventAcceptor_ = s.SolventAcceptor_ ∧
    (setup parm s).2.HbondMap_ = s.HbondMap_ ∧ (setup parm s).2.SolventMap_ = s.SolventMap_ ∧
    (setup parm s).2.BridgeMap_ = s.BridgeMap_ := by
  obtain ⟨h1, h2, h3, h4⟩ := setup_lists_of_fail parm s hfail
  obtain ⟨g1, g2, g3, _⟩ := setup_keeps parm s
  exact ⟨h1, h2, h3, h4, g1, g2, g3⟩

theorem setup_failure_keeps_lists_witness :
    (setup demoTopology emptyMaskSetup).1 ≠ 0 ∧
    ((setup demoTopology emptyMaskSetup).2.Donor_ = emptyMaskSetup.Donor_ ∧
      (setup demoTopology emptyMaskSetup).2.Acceptor_ = emptyMaskSetup.Acceptor_ ∧
      (setup demoTopology emptyMaskSetup).2.SolventDonor_ = emptyMaskSetup.SolventDonor_ ∧
      (setup demoTopology emptyMaskSetup).2.SolventAcceptor_ =
        emptyMaskSetup.SolventAcceptor_ ∧
      (setup demoTopology emptyMaskSetup).2.HbondMap_ = emptyMaskSetup.HbondMap_ ∧
      (setup demoTopology emptyMaskSetup).2.SolventMap_ = emptyMaskSetup.SolventMap_ ∧
      (setup demoTopology emptyMaskSetup).2.BridgeMap_ = emptyMaskSetup.BridgeMap_) :=
  ⟨by decide, setup_failure_keeps_lists demoTopology emptyMaskSetup (by decide)⟩

theorem flatDonors_length (ps : List (Int × Int)) : (flatDonors ps).length = 2 * ps.length := by
  induction ps with
  | nil => rfl
  | cons p ps ih => rw [flatDonors_cons, List.length_cons, List.length_cons, ih, List.length_cons]; ring

theorem setupLists_SolventDonor (parm : Topology) (t : Action_Hbond) :
    (setupLists parm t).SolventDonor_ =
      if t.hasSolventDonor_ then SearchDonor parm [] t.SolventDonorMask_ false
      else t.SolventDonor_ := by
  unfold setupLists
  dsimp only
  cases hD : t.hasDonorMask_ <;> cases hA : t.hasAcceptorMask_ <;>
    simp only [Bool.not_false, Bool.not_true, Bool.and_true, Bool.and_false, Bool.false_and,
      Bool.true_and, if_true, if_false, Bool.false_eq_true] <;>
    split_ifs <;> rfl

theorem atomDonorPairs_all (parm : Topology) (Auto : Bool) (X : Int) :
    ∀ p ∈ atomDonorPairs parm Auto X,
      (parm.atom p.1).Element ≠ AtomicElementType.HYDROGEN ∧
        (p.2 = p.1 ∨ ((parm.atom p.2).Element = AtomicElementType.HYDROGEN ∧
          p.2 ∈ (parm.atom p.1).bonds)) := by
  intro p hp
  obtain ⟨h1, h2, _⟩ := atomDonorPairs_fst parm Auto X p hp
  refine ⟨by rw [h1]; exact h2, ?_⟩
  by_cases hnd : p.1 = p.2
  · exact Or.inl hnd.symm
  · obtain ⟨g1, g2, g3, _⟩ := atomDonorPairs_mem parm Auto X p hp hnd
    exact Or.inr ⟨g2, by rw [g1]; exact g3⟩

/-- C37: for every topology, mask and filter mode the list that `SearchDonor`
builds from an empty list has even length and is a sequence of pairs, the heavy
atom (not a hydrogen) first and then either the same atom or a hydrogen bonded
to it; so the lists `Donor_` and `SolventDonor_` that `setup()` fills are read
by `action()` two entries at a time with no entry left over. -/
theorem searchDonor_even (parm : Topology) (dmask : AtomMask) (Auto : Bool)
    (t : Action_Hbond) :
    (SearchDonor parm [] dmask Auto).length % 2 = 0 ∧
    flatDonors (donorPairs (SearchDonor parm [] dmask Auto)) = SearchDonor parm [] dmask Auto ∧
    (donorPairs (SearchDonor parm [] dmask Auto)).all (fun p =>
      decide ((parm.atom p.1).Element ≠ AtomicElementType.HYDROGEN ∧
        (p.2 = p.1 ∨ ((parm.atom p.2).Element = AtomicElementType.HYDROGEN ∧
          p.2 ∈ (parm.atom p.1).bonds)))) = true ∧
    flatDonors (donorPairs (setupLists parm t).Donor_) = (setupLists parm t).Donor_ ∧
    (t.hasSolventDonor_ = false ∨
      flatDonors (donorPairs (setupLists parm t).SolventDonor_) =
        (setupLists parm t).SolventDonor_) := by
  have hflat : ∀ (m : AtomMask) (A : Bool),
      flatDonors (donorPairs (SearchDonor parm [] m A)) = SearchDonor parm [] m A := by
    intro m A
    rw [searchDonor_eq, List.nil_append, donorPairs_flatDonors]
  refine ⟨?_, hflat dmask Auto, ?_, ?_, ?_⟩
  · rw [searchDonor_eq, List.nil_append, flatDonors_length]
    omega
  · rw [List.all_eq_true]
    intro p hp
    rw [searchDonor_eq, List.nil_append, donorPairs_flatDonors] at hp
    obtain ⟨X, _, hX⟩ := List.mem_flatMap.1 hp
    exact decide_eq_true (atomDonorPairs_all parm Auto X p hX)
  · rw [setupLists_Donor]
    exact hflat _ _
  · cases h : t.hasSolventDonor_
    · exact Or.inl rfl
    · right
      rw [setupLists_SolventDonor, h, if_pos rfl]
      exact hflat _ _

/-! ### Records and their keys -/

/-- C33 (evaluation of the code): the two sweeps share a record when a solute
atom is both the key of a donor pair and an acceptor. For the ion 5, sweep (a)
creates the record under key 5 with `A = -1`; the accepted candidate of sweep
(b) with acceptor 5 finds that record and adds to it, so after the frame the
registry holds one record, with `A = -1` and frame count 2. -/
theorem sweeps_share_record_of_ion :
    AtomsAreHbonded demoWorld ionBothRoles bondFrame 0 30 5 5 5 true [] =
      (1, [(5, ionDonorRecord)]) ∧
    AtomsAreHbonded demoWorld ionBothRoles bondFrame 0 5 100 101 5 false [(5, ionDonorRecord)] =
      (1, [(5, { ionDonorRecord with
        Frames := 2, dist := demoWorld.sqrt 6 + demoWorld.sqrt 6, angle := 0 + 2443 / 1000 })]) ∧
    (action demoWorld bondFrame 0 ionBothRoles).SolventMap_ =
      [(5, { ionDonorRecord with
        Frames := 2, dist := demoWorld.sqrt 6 + demoWorld.sqrt 6, angle := 0 + 2443 / 1000 })] ∧
    (action demoWorld bondFrame 0 ionBothRoles).NumSolvent_ = [(0, 2)] := by
  refine ⟨?_, ?_, ?_, ?_⟩ <;>
  norm_num [action, ionBothRoles, ionDonorRecord, freshAction, bondFrame, constFrame,
      soluteDonorLoop, soluteAcceptorLoop, soluteCandidate, solventSweeps, solventDonorSweep,
      solventAcceptorSweep, solventAcceptorCandidate, soluteAcceptorCandidate, AtomsAreHbonded,
      mapFind, mapInsert, mapModify, newSolventHB, bumpHB, touch, setInsert, bridgeLoop,
      bridgeRecord, demoWorld]


theorem recordFold_atoms (w : World) (series : Bool) (D H A : Int) :
    ∀ (ps : List (Nat × Frame)) (o : Option HbondType),
      (∀ hb, o = some hb → hb.A = A ∧ hb.H = H ∧ hb.D = D) →
      ∀ hb', recordFold w series D H A ps o = some hb' → hb'.A = A ∧ hb'.H = H ∧ hb'.D = D := by
  intro ps
  induction ps with
  | nil =>
    intro o ho hb' h
    exact ho hb' (by simpa [recordFold] using h)
  | cons p ps ih =>
    intro o ho hb' h
    have hstep : recordFold w series D H A (p :: ps) o =
        recordFold w series D H A ps (some (soluteRecord w series p.2 p.1 D H A o)) := by
      simp [recordFold]
    rw [hstep] at h
    refine ih _ ?_ hb' h
    intro hb hhb
    simp only [Option.some.injEq] at hhb
    subst hhb
    cases o with
    | none => exact ⟨rfl, rfl, rfl⟩
    | some hb0 => exact ho hb0 rfl

/-- C32: in a solute-solute registry accumulated by `action()` from an empty
registry with the donor pairs `donors` and the acceptor list fixed, a record
under key `k` has `0 ≤ k < donorCount * acceptorCount`, its acceptor field is
the acceptor at index `k mod acceptorCount`, and its donor heavy atom and
hydrogen are the donor pair at index `k div acceptorCount`. -/
theorem solute_record_matches_key (w : World) (s : Action_Hbond)
    (donors : List (Int × Int)) (frames : List Frame) (n0 : Nat) (k : Int) (hb : HbondType)
    (hD : s.Donor_ = flatDonors donors) (hM : s.HbondMap_ = [])
    (hmem : (k, hb) ∈ (runFrames w n0 frames s).HbondMap_) :
    0 ≤ k ∧ k < (donors.length : Int) * (s.Acceptor_.length : Int) ∧
    s.Acceptor_[(k % (s.Acceptor_.length : Int)).toNat]? = some hb.A ∧
    donors[(k / (s.Acceptor_.length : Int)).toNat]? = some (hb.D, hb.H) := by
  have hsorted : ((runFrames w n0 frames s).HbondMap_.map Prod.fst).Pairwise (· < ·) :=
    runFrames_HbondMap_sorted w donors frames n0 s hD (by rw [hM]; exact List.Pairwise.nil)
  have hfind := mapFind_of_mem_sorted k hb _ hsorted hmem
  by_cases hk : k < 0 ∨ (donors.length : Int) * (s.Acceptor_.length : Int) ≤ k
  · rw [runFrames_find_not_slot w donors k frames n0 s hD hk, hM] at hfind
    simp [mapFind] at hfind
  · have h0 : 0 ≤ k := by omega
    have h1 : k < (donors.length : Int) * (s.Acceptor_.length : Int) := by omega
    refine ⟨h0, h1, ?_⟩
    obtain ⟨i, j, hi, hj, rfl⟩ := slot_of_key donors.length s.Acceptor_.length k h0 h1
    rw [runFrames_find_slot w donors i j frames n0 s hD hi hj, hM] at hfind
    obtain ⟨hA, hH, hDD⟩ := recordFold_atoms w s.series_ donors[i].1 donors[i].2 s.Acceptor_[j]
      _ none (by intro hb h; exact Option.noConfusion h) hb hfind
    have hpos : (0 : Int) < (s.Acceptor_.length : Int) := by omega
    have hmod : ((i : Int) * (s.Acceptor_.length : Int) + (j : Int)) % (s.Acceptor_.length : Int)
        = (j : Int) := by
      rw [add_comm, Int.add_mul_emod_self]
      exact Int.emod_eq_of_lt (by omega) (by omega)
    have hdiv : ((i : Int) * (s.Acceptor_.length : Int) + (j : Int)) / (s.Acceptor_.length : Int)
        = (i : Int) := by
      rw [add_comm, Int.add_mul_ediv_right _ _ (ne_of_gt hpos), Int.ediv_eq_zero_of_lt (by omega)
        (by omega)]
      simp
    rw [hmod, hdiv, Int.toNat_ofNat, Int.toNat_ofNat, List.getElem?_eq_getElem hj,
      List.getElem?_eq_getElem hi, hA]
    refine ⟨rfl, ?_⟩
    rw [hH, hDD]

theorem solute_record_matches_key_witness :
    (scenarioA.Donor_ = flatDonors [(10, 11)] ∧ scenarioA.HbondMap_ = [] ∧
      ((0 : Int), scenarioARecord) ∈ (runFrames demoWorld 0 [bondFrame] scenarioA).HbondMap_) ∧
    ((0 : Int) ≤ 0 ∧
      (0 : Int) < (([((10 : Int), (11 : Int))].length : Nat) : Int) *
        (scenarioA.Acceptor_.length : Int) ∧
      scenarioA.Acceptor_[((0 : Int) % (scenarioA.Acceptor_.length : Int)).toNat]? =
        some scenarioARecord.A ∧
      [((10 : Int), (11 : Int))][((0 : Int) / (scenarioA.Acceptor_.length : Int)).toNat]? =
        some (scenarioARecord.D, scenarioARecord.H)) :=
  ⟨⟨rfl, rfl, by rw [scenarioA_one_frame]; exact List.mem_singleton.2 rfl⟩,
    solute_record_matches_key demoWorld scenarioA [(10, 11)] [bondFrame] 0 0 scenarioARecord
      rfl rfl (by rw [scenarioA_one_frame]; exact List.mem_singleton.2 rfl)⟩

/-! ### Divisors of the report -/

theorem soluteCandidate_forall (P : HbondType → Prop) (w : World) (s : Action_Hbond)
    (f : Frame) (n : Nat) (D H A hbidx : Int) (st : HBmapType × Int)
    (hnew : ∀ dist ang : ℚ, P (newSoluteHB w s.series_ n A D H dist ang))
    (hbump : ∀ (dist ang : ℚ) (v : HbondType), P v → P (bumpHB s.series_ n dist ang v))
    (h : ∀ e ∈ st.1, P e.2) :
    ∀ e ∈ (soluteCandidate w s f n D H A hbidx st).1, P e.2 := by
  unfold soluteCandidate
  dsimp only
  split_ifs
  · exact h
  · exact h
  · exact h
  · cases mapFind hbidx st.1 with
    | none => exact mapInsert_forall P _ _ (hnew _ _) _ h
    | some _ =>
      exact mapModify_forall P hbidx
        (bumpHB s.series_ n (w.sqrt (f.DIST2 A D)) (f.ANGLE A H D)) (hbump _ _) _ h

theorem atomsAreHbonded_forall (P : HbondType → Prop) (w : World) (s : Action_Hbond)
    (f : Frame) (n : Nat) (a d h hbidx : Int) (sd : Bool) (m : HBmapType)
    (hnew : ∀ dist ang : ℚ, P (newSolventHB w s.series_ n a d h sd dist ang))
    (hbump : ∀ (dist ang : ℚ) (v : HbondType), P v → P (bumpHB s.series_ n dist ang v))
    (hm : ∀ e ∈ m, P e.2) :
    ∀ e ∈ (AtomsAreHbonded w s f n a d h hbidx sd m).2, P e.2 := by
  have key : ∀ ang : ℚ,
      ∀ e ∈ (match mapFind hbidx m with
        | none => ((1 : Int), mapInsert hbidx (newSolventHB w s.series_ n a d h sd
            (w.sqrt (f.DIST2 a d)) ang) m)
        | some _ => ((1 : Int),
            mapModify hbidx (bumpHB s.series_ n (w.sqrt (f.DIST2 a d)) ang) m)).2,
        P e.2 := by
    intro ang
    cases mapFind hbidx m with
    | none => exact mapInsert_forall P _ _ (hnew _ _) _ hm
    | some _ =>
      exact mapModify_forall P hbidx
        (bumpHB s.series_ n (w.sqrt (f.DIST2 a d)) ang) (hbump _ _) _ hm
  unfold AtomsAreHbonded
  dsimp only
  split_ifs <;> first | exact hm | exact key _

theorem action_frames_pos (w : World) (f : Frame) (n : Nat) (s : Action_Hbond)
    (hH : ∀ e ∈ s.HbondMap_, 1 ≤ e.2.Frames) (hS : ∀ e ∈ s.SolventMap_, 1 ≤ e.2.Frames) :
    (∀ e ∈ (action w f n s).HbondMap_, 1 ≤ e.2.Frames) ∧
    (∀ e ∈ (action w f n s).SolventMap_, 1 ≤ e.2.Frames) := by
  have hbump : ∀ (dist ang : ℚ) (v : HbondType),
      1 ≤ v.Frames → 1 ≤ (bumpHB s.series_ n dist ang v).Frames := by
    intro dist ang v hv
    simp only [bumpHB]
    omega
  constructor
  · exact action_HbondMap_inv (fun m => ∀ e ∈ m, 1 ≤ e.2.Frames) w f n s
      (fun p _ a _ k st h =>
        soluteCandidate_forall (fun hb => 1 ≤ hb.Frames) w s f n p.1 p.2 a k st
          (fun _ _ => le_refl _) hbump h)
      hH
  · exact action_SolventMap_inv (fun m => ∀ e ∈ m, 1 ≤ e.2.Frames) w f n s
      (fun p _ a _ m hm =>
        atomsAreHbonded_forall (fun hb => 1 ≤ hb.Frames) w s f n a p.1 p.2 p.2 true m
          (fun _ _ => le_refl _) hbump hm)
      (fun p _ a _ m hm =>
        atomsAreHbonded_forall (fun hb => 1 ≤ hb.Frames) w s f n a p.1 p.2 a false m
          (fun _ _ => le_refl _) hbump hm)
      hS

theorem action_sound (w : World) (f : Frame) (n : Nat) (s : Action_Hbond)
    (h : registriesSound s) : registriesSound (action w f n s) := by
  obtain ⟨h0, h1, h2, _⟩ := h
  obtain ⟨g1, g2⟩ := action_frames_pos w f n s h1 h2
  refine ⟨?_, g1, g2, fun _ => ?_⟩ <;> rw [action_Nframes] <;> omega

theorem setup_sound (parm : Topology) (s : Action_Hbond) (h : registriesSound s) :
    registriesSound (setup parm s).2 := by
  obtain ⟨g1, g2, _, g4⟩ := setup_keeps parm s
  unfold registriesSound
  rw [g1, g2, g4]
  exact h

theorem print_sound (env : PrintEnv) (s : Action_Hbond) (fs : Files) (h : registriesSound s) :
    registriesSound (print env s fs).1 := by
  obtain ⟨h0, h1, h2, h3⟩ := h
  obtain ⟨e, eH, eS⟩ := print_state env s fs
  have hN : (print env s fs).1.Nframes_ = s.Nframes_ := by rw [e]
  refine ⟨by rw [hN]; exact h0, ?_, ?_, ?_⟩
  · rcases eH with eH | eH <;> rw [eH]
    · intro e he; simp at he
    · exact h1
  · rcases eS with eS | eS <;> rw [eS]
    · intro e he; simp at he
    · exact h2
  · intro hne
    rw [hN]
    apply h3
    rcases hne with hne | hne
    · left
      rcases eH with eH | eH
      · exact absurd eH hne
      · rw [← eH]; exact hne
    · right
      rcases eS with eS | eS
      · exact absurd eS hne
      · rw [← eS]; exact hne

/-- C38: `print()` never divides by zero. On a fresh instance the frame
counter is 0 and both hydrogen-bond registries are empty, and `action()`,
`setup()` and `print()` each keep this property: every record of either registry
has a frame count of at least 1 and the frame counter is at least 1 whenever a
registry holds a record. So for every record `print()` finds, the two divisors,
its frame count and `Nframes_`, are not zero. -/
theorem print_divisors_nonzero (w : World) (parm : Topology) (env : PrintEnv) (fs : Files)
    (f : Frame) (n : Nat) (s : Action_Hbond) (donor acceptor solventDonor solventAcceptor : List Int)
    (h : registriesSound s) :
    registriesSound (freshAction donor acceptor solventDonor solventAcceptor) ∧
    registriesSound (action w f n s) ∧ registriesSound (setup parm s).2 ∧
    registriesSound (print env s fs).1 ∧
    s.HbondMap_.all (fun e => decide ((e.2.Frames : ℚ) ≠ 0 ∧ (s.Nframes_ : ℚ) ≠ 0)) = true ∧
    s.SolventMap_.all (fun e => decide ((e.2.Frames : ℚ) ≠ 0 ∧ (s.Nframes_ : ℚ) ≠ 0)) = true := by
  refine ⟨?_, action_sound w f n s h, setup_sound parm s h, print_sound env s fs h, ?_, ?_⟩
  · refine ⟨le_refl _, ?_, ?_, ?_⟩
    · intro e he; simp [freshAction] at he
    · intro e he; simp [freshAction] at he
    · intro hne; simp [freshAction] at hne
  · obtain ⟨_, h1, _, h3⟩ := h
    rw [List.all_eq_true]
    intro e he
    have hF := h1 e he
    have hN := h3 (Or.inl (List.ne_nil_of_mem he))
    refine decide_eq_true ⟨?_, ?_⟩
    · have : e.2.Frames ≠ 0 := by omega
      exact_mod_cast this
    · have : s.Nframes_ ≠ 0 := by omega
      exact_mod_cast this
  · obtain ⟨_, _, h2, h3⟩ := h
    rw [List.all_eq_true]
    intro e he
    have hF := h2 e he
    have hN := h3 (Or.inr (List.ne_nil_of_mem he))
    refine decide_eq_true ⟨?_, ?_⟩
    · have : e.2.Frames ≠ 0 := by omega
      exact_mod_cast this
    · have : s.Nframes_ ≠ 0 := by omega
      exact_mod_cast this

theorem print_divisors_nonzero_witness :
    registriesSound reportState ∧
    (registriesSound (freshAction [10, 11] [20] [] []) ∧
      registriesSound (action demoWorld bondFrame 1 reportState) ∧
      registriesSound (setup demoTopology reportState).2 ∧
      registriesSound (print (demoPrintEnv fun _ => true) reportState noFiles).1 ∧
      reportState.HbondMap_.all (fun e =>
        decide ((e.2.Frames : ℚ) ≠ 0 ∧ (reportState.Nframes_ : ℚ) ≠ 0)) = true ∧
      reportState.SolventMap_.all (fun e =>
        decide ((e.2.Frames : ℚ) ≠ 0 ∧ (reportState.Nframes_ : ℚ) ≠ 0)) = true) :=
  have h : registriesSound reportState := by
    simp [registriesSound, reportState, freshAction]
  ⟨h, print_divisors_nonzero demoWorld demoTopology (demoPrintEnv fun _ => true) noFiles
    bondFrame 1 reportState [10, 11] [20] [] [] h⟩

/-! ### Bridges and solute-solvent bonds of a frame -/


theorem sum_contacts_le (B : Finset Int) :
    ∀ cs : List (Int × Int),
      ∑ M in B, (cs.filter fun c => decide (c.1 = M)).length ≤ cs.length := by
  intro cs
  induction cs with
  | nil => simp
  | cons c cs ih =>
    have hstep : ∀ M, ((c :: cs).filter fun c => decide (c.1 = M)).length =
        (if c.1 = M then 1 else 0) + (cs.filter fun c => decide (c.1 = M)).length := by
      intro M
      by_cases h : c.1 = M
      · simp [List.filter_cons, h]; omega
      · simp [List.filter_cons, h]
    simp only [hstep, Finset.sum_add_distrib, List.length_cons]
    have h1 : (∑ M in B, if c.1 = M then 1 else 0) ≤ 1 := by
      rw [Finset.sum_ite_eq]
      split_ifs <;> omega
    omega

theorem two_bridges_le_contacts (cs : List (Int × Int)) :
    2 * (bridgingMolecules cs).card ≤ cs.length := by
  have h1 : ∑ _M in bridgingMolecules cs, 2 ≤
      ∑ M in bridgingMolecules cs, (cs.filter fun c => decide (c.1 = M)).length := by
    apply Finset.sum_le_sum
    intro M hM
    unfold bridgingMolecules at hM
    rw [Finset.mem_filter] at hM
    have := List.toFinset_card_le ((cs.filter fun c => decide (c.1 = M)).map Prod.snd)
    rw [List.length_map] at this
    omega
  have h2 := sum_contacts_le (bridgingMolecules cs) cs
  rw [Finset.sum_const, smul_eq_mul] at h1
  omega

theorem frame_bridge_value (w : World) (s : Action_Hbond) (f : Frame) (n : Nat)
    (donors solventDonors : List (Int × Int))
    (hC : s.calcSolvent_ = true)
    (hD : s.Donor_ = flatDonors donors) (hSD : s.SolventDonor_ = flatDonors solventDonors) :
    (action w f n s).NumBridge_ =
      s.NumBridge_ ++
        [(n, (((bridgingMolecules (frameContacts w s f donors solventDonors)).card : Nat) : Int))] := by
  rw [action_NumBridge w f n s hC]
  have hsw := (solventSweeps_contacts w
    { s with
      HbondMap_ := (soluteDonorLoop w s f n s.Donor_ 0 (s.HbondMap_, 0)).1.1,
      NumHbonds_ := s.NumHbonds_ ++
        [(n, (soluteDonorLoop w s f n s.Donor_ 0 (s.HbondMap_, 0)).1.2)] }
    f n donors solventDonors hD hSD).2
  rw [hsw, bridgeLoop_count]
  obtain ⟨g1, g2, g3⟩ := touchFold_inv
    (frameContacts w
      { s with
        HbondMap_ := (soluteDonorLoop w s f n s.Donor_ 0 (s.HbondMap_, 0)).1.1,
        NumHbonds_ := s.NumHbonds_ ++
          [(n, (soluteDonorLoop w s f n s.Donor_ 0 (s.HbondMap_, 0)).1.2)] }
      f donors solventDonors) [] []
    (by simp) (by intro M'; simp [mapFind]) (by intro M' rs h; simp [mapFind] at h)
  rw [List.nil_append] at g2 g3
  rw [table_bridge_count _ _ g1 g2 g3]
  simp only [zero_add]
  rfl

/-- C35: for a frame evaluated with the solvent calculation on, the value
`action()` adds to `NumBridge_` is the number of solvent molecules in contact
with at least two solute residues, the value it adds to `NumSolvent_` is the
number of accepted solute-solvent candidates, each of which is one contact of
one molecule, and twice the first is at most the second. -/
theorem two_bridges_le_solvent_total (w : World) (s : Action_Hbond) (f : Frame) (n : Nat)
    (donors solventDonors : List (Int × Int))
    (hC : s.calcSolvent_ = true)
    (hD : s.Donor_ = flatDonors donors) (hSD : s.SolventDonor_ = flatDonors solventDonors) :
    (action w f n s).NumBridge_ =
      s.NumBridge_ ++
        [(n, (((bridgingMolecules (frameContacts w s f donors solventDonors)).card : Nat) : Int))] ∧
    (action w f n s).NumSolvent_ =
      s.NumSolvent_ ++
        [(n, (((frameContacts w s f donors solventDonors).length : Nat) : Int))] ∧
    2 * (((bridgingMolecules (frameContacts w s f donors solventDonors)).card : Nat) : Int) ≤
      (((frameContacts w s f donors solventDonors).length : Nat) : Int) := by
  refine ⟨?_, ?_, ?_⟩
  · exact frame_bridge_value w s f n donors solventDonors hC hD hSD
  · have h : (solventSweeps w
        { s with
          HbondMap_ := (soluteDonorLoop w s f n s.Donor_ 0 (s.HbondMap_, 0)).1.1,
          NumHbonds_ := s.NumHbonds_ ++
            [(n, (soluteDonorLoop w s f n s.Donor_ 0 (s.HbondMap_, 0)).1.2)] }
        f n).2 = (((frameContacts w s f donors solventDonors).length : Nat) : Int) :=
      (solventSweeps_contacts w
        { s with
          HbondMap_ := (soluteDonorLoop w s f n s.Donor_ 0 (s.HbondMap_, 0)).1.1,
          NumHbonds_ := s.NumHbonds_ ++
            [(n, (soluteDonorLoop w s f n s.Donor_ 0 (s.HbondMap_, 0)).1.2)] }
        f n donors solventDonors hD hSD).1
    rw [action_NumSolvent, if_pos hC, h]
  · exact_mod_cast two_bridges_le_contacts _

theorem two_bridges_le_solvent_total_witness :
    (twoWaters.calcSolvent_ = true ∧ twoWaters.Donor_ = flatDonors [] ∧
      twoWaters.SolventDonor_ = flatDonors [(100, 101), (200, 201)]) ∧
    ((action demoWorld bondFrame 0 twoWaters).NumBridge_ =
      twoWaters.NumBridge_ ++
        [(0, (((bridgingMolecules
          (frameContacts demoWorld twoWaters bondFrame [] [(100, 101), (200, 201)])).card :
            Nat) : Int))] ∧
    (action demoWorld bondFrame 0 twoWaters).NumSolvent_ =
      twoWaters.NumSolvent_ ++
        [(0, (((frameContacts demoWorld twoWaters bondFrame []
          [(100, 101), (200, 201)]).length : Nat) : Int))] ∧
    2 * (((bridgingMolecules
        (frameContacts demoWorld twoWaters bondFrame [] [(100, 101), (200, 201)])).card :
          Nat) : Int) ≤
      (((frameContacts demoWorld twoWaters bondFrame [] [(100, 101), (200, 201)]).length :
        Nat) : Int)) ∧
    (action demoWorld bondFrame 0 twoWaters).NumBridge_ = [(0, 2)] ∧
    (action demoWorld bondFrame 0 twoWaters).NumSolvent_ = [(0, 4)] :=
  ⟨⟨rfl, rfl, rfl⟩,
    two_bridges_le_solvent_total demoWorld twoWaters bondFrame 0 [] [(100, 101), (200, 201)]
      rfl rfl rfl,
    by norm_num [action, twoWaters, freshAction, bondFrame, constFrame,
      soluteDonorLoop, solventSweeps, solventDonorSweep, solventAcceptorSweep,
      soluteAcceptorCandidate, AtomsAreHbonded, mapFind, mapInsert, mapModify, newSolventHB,
      bumpHB, touch, setInsert, bridgeLoop, bridgeRecord, demoWorld],
    by norm_num [action, twoWaters, freshAction, bondFrame, constFrame,
      soluteDonorLoop, solventSweeps, solventDonorSweep, solventAcceptorSweep,
      soluteAcceptorCandidate, AtomsAreHbonded, mapFind, mapInsert, mapModify, newSolventHB,
      bumpHB, touch, setInsert, bridgeLoop, bridgeRecord, demoWorld]⟩

/-! ### Conservation of counts -/

theorem sumFrames_mapInsert (k : Int) (v : HbondType) :
    ∀ m : HBmapType, mapFind k m = none → sumFrames (mapInsert k v m) = sumFrames m + v.Frames := by
  intro m
  induction m with
  | nil => intro _; simp [mapInsert, sumFrames]
  | cons x m ih =>
    intro h
    obtain ⟨k', v'⟩ := x
    simp only [mapFind] at h
    split_ifs at h with hk
    simp only [mapInsert]
    split_ifs with h1 h2
    · simp [sumFrames]; ring
    · have := ih h
      simp only [sumFrames, List.map_cons, List.sum_cons] at this ⊢
      rw [this]; ring
    · exact absurd (int_trichotomy k k' h1 h2).symm hk

theorem sumFrames_mapModify (k : Int) (g : HbondType → HbondType) :
    ∀ (m : HBmapType) (hb : HbondType), mapFind k m = some hb →
      sumFrames (mapModify k g m) = sumFrames m + ((g hb).Frames - hb.Frames) := by
  intro m
  induction m with
  | nil => intro hb h; simp [mapFind] at h
  | cons x m ih =>
    intro hb h
    obtain ⟨k', v'⟩ := x
    simp only [mapFind] at h
    simp only [mapModify]
    split_ifs at h ⊢ with hk
    · simp only [Option.some.injEq] at h
      subst h
      simp [sumFrames]; ring
    · have := ih hb h
      simp only [sumFrames, List.map_cons, List.sum_cons] at this ⊢
      rw [this]; ring

theorem soluteCandidate_sum (w : World) (s : Action_Hbond) (f : Frame) (n : Nat)
    (D H A hbidx : Int) (st : HBmapType × Int) :
    sumFrames (soluteCandidate w s f n D H A hbidx st).1 - (soluteCandidate w s f n D H A hbidx st).2
      = sumFrames st.1 - st.2 := by
  unfold soluteCandidate
  dsimp only
  split_ifs
  · rfl
  · rfl
  · rfl
  · cases hfind : mapFind hbidx st.1 with
    | none =>
      dsimp only
      rw [sumFrames_mapInsert _ _ _ hfind]
      simp [newSoluteHB]
    | some hb =>
      dsimp only
      rw [sumFrames_mapModify _ _ _ hb hfind]
      simp [bumpHB]

theorem atomsAreHbonded_sum (w : World) (s : Action_Hbond) (f : Frame) (n : Nat)
    (a d h hbidx : Int) (sd : Bool) (m : HBmapType) :
    sumFrames (AtomsAreHbonded w s f n a d h hbidx sd m).2 =
      sumFrames m + (AtomsAreHbonded w s f n a d h hbidx sd m).1 := by
  have key : ∀ ang : ℚ,
      sumFrames (match mapFind hbidx m with
        | none => ((1 : Int), mapInsert hbidx (newSolventHB w s.series_ n a d h sd
            (w.sqrt (f.DIST2 a d)) ang) m)
        | some _ => ((1 : Int),
            mapModify hbidx (bumpHB s.series_ n (w.sqrt (f.DIST2 a d)) ang) m)).2 =
      sumFrames m + (match mapFind hbidx m with
        | none => ((1 : Int), mapInsert hbidx (newSolventHB w s.series_ n a d h sd
            (w.sqrt (f.DIST2 a d)) ang) m)
        | some _ => ((1 : Int),
            mapModify hbidx (bumpHB s.series_ n (w.sqrt (f.DIST2 a d)) ang) m)).1 := by
    intro ang
    cases hfind : mapFind hbidx m with
    | none =>
      dsimp only
      rw [sumFrames_mapInsert _ _ _ hfind]
      simp [newSolventHB]
    | some hb =>
      dsimp only
      rw [sumFrames_mapModify _ _ _ hb hfind]
      simp [bumpHB]
  unfold AtomsAreHbonded
  dsimp only
  split_ifs <;> first | exact (add_zero _).symm | exact key _

theorem slotFold_sum (w : World) (s : Action_Hbond) (f : Frame) (n : Nat) :
    ∀ (cs : List (Int × Int × Int × Int)) (st : HBmapType × Int),
      sumFrames (cs.foldl (soluteSlotStep w s f n) st).1 - (cs.foldl (soluteSlotStep w s f n) st).2
        = sumFrames st.1 - st.2 := by
  intro cs
  induction cs with
  | nil => intro st; rfl
  | cons c cs ih =>
    intro st
    rw [List.foldl_cons, ih]
    exact soluteCandidate_sum w s f n _ _ _ _ st

theorem action_solute_sum (w : World) (f : Frame) (n : Nat) (s : Action_Hbond)
    (donors : List (Int × Int)) (hD : s.Donor_ = flatDonors donors) :
    sumFrames (action w f n s).HbondMap_ - sumValues (action w f n s).NumHbonds_ =
      sumFrames s.HbondMap_ - sumValues s.NumHbonds_ := by
  have hloop := soluteDonorLoop_eq w s f n donors 0 (s.HbondMap_, 0)
  simp only [Nat.cast_zero, zero_mul] at hloop
  rw [action_HbondMap, action_NumHbonds, hD, hloop]
  have h := slotFold_sum w s f n
    ((donors.enumFrom 0).flatMap fun d =>
      s.Acceptor_.enum.map fun a =>
        (d.2.1, d.2.2, a.2, (d.1 : Int) * (s.Acceptor_.length : Int) + (a.1 : Int)))
    (s.HbondMap_, 0)
  simp only [sumValues, List.map_append, List.sum_append, List.map_cons, List.map_nil,
    List.sum_cons, List.sum_nil, add_zero, sub_zero] at h ⊢
  omega

theorem acceptorFold_sum (w : World) (s : Action_Hbond) (f : Frame) (n : Nat) (D H : Int) :
    ∀ (accs : List Int) (st : SolventState),
      sumFrames (accs.foldl (fun st a => solventAcceptorCandidate w s f n D H a st) st).SolventMap_
          - (accs.foldl (fun st a => solventAcceptorCandidate w s f n D H a st) st).numHB =
        sumFrames st.SolventMap_ - st.numHB := by
  intro accs
  induction accs with
  | nil => intro st; rfl
  | cons a accs ih =>
    intro st
    rw [List.foldl_cons, ih, solventAcceptorCandidate_eq]
    dsimp only
    rw [atomsAreHbonded_sum, atomsAreHbonded_fst]
    ring

theorem donorFold_sum (w : World) (s : Action_Hbond) (f : Frame) (n : Nat) (D H : Int) :
    ∀ (accs : List Int) (st : SolventState),
      sumFrames (accs.foldl (fun st a => soluteAcceptorCandidate w s f n D H a st) st).SolventMap_
          - (accs.foldl (fun st a => soluteAcceptorCandidate w s f n D H a st) st).numHB =
        sumFrames st.SolventMap_ - st.numHB := by
  intro accs
  induction accs with
  | nil => intro st; rfl
  | cons a accs ih =>
    intro st
    rw [List.foldl_cons, ih, soluteAcceptorCandidate_eq]
    dsimp only
    rw [atomsAreHbonded_sum, atomsAreHbonded_fst]
    ring

theorem solventAcceptorSweep_sum (w : World) (s : Action_Hbond) (f : Frame) (n : Nat) :
    ∀ (l : List Int) (st : SolventState),
      sumFrames (solventAcceptorSweep w s f n l st).SolventMap_ -
          (solventAcceptorSweep w s f n l st).numHB =
        sumFrames st.SolventMap_ - st.numHB
  | [], st => by simp [solventAcceptorSweep]
  | [_], st => by simp [solventAcceptorSweep]
  | D :: H :: rest, st => by
    rw [solventAcceptorSweep, solventAcceptorSweep_sum w s f n rest]
    exact acceptorFold_sum w s f n D H _ st

theorem solventDonorSweep_sum (w : World) (s : Action_Hbond) (f : Frame) (n : Nat) :
    ∀ (l : List Int) (st : SolventState),
      sumFrames (solventDonorSweep w s f n l st).SolventMap_ -
          (solventDonorSweep w s f n l st).numHB =
        sumFrames st.SolventMap_ - st.numHB
  | [], st => by simp [solventDonorSweep]
  | [_], st => by simp [solventDonorSweep]
  | D :: H :: rest, st => by
    rw [solventDonorSweep, solventDonorSweep_sum w s f n rest]
    exact donorFold_sum w s f n D H _ st

theorem solventSweeps_sum (w : World) (s : Action_Hbond) (f : Frame) (n : Nat) :
    sumFrames (solventSweeps w s f n).1.SolventMap_ =
      sumFrames s.SolventMap_ + (solventSweeps w s f n).2 := by
  unfold solventSweeps
  cases ha : s.hasSolventAcceptor_ <;> cases hd : s.hasSolventDonor_
  · simp
  · simp only [Bool.false_eq_true, if_false, if_true]
    have h := solventDonorSweep_sum w s f n s.SolventDonor_
      { SolventMap_ := s.SolventMap_, numHB := 0, solvent2solute := [] }
    simp only [sub_zero] at h
    omega
  · simp only [Bool.false_eq_true, if_false, if_true]
    have h := solventAcceptorSweep_sum w s f n s.Donor_
      { SolventMap_ := s.SolventMap_, numHB := 0, solvent2solute := [] }
    simp only [sub_zero] at h
    omega
  · simp only [if_true]
    have h1 := solventAcceptorSweep_sum w s f n s.Donor_
      { SolventMap_ := s.SolventMap_, numHB := 0, solvent2solute := [] }
    have h2 := solventDonorSweep_sum w s f n s.SolventDonor_
      { (solventAcceptorSweep w s f n s.Donor_
          { SolventMap_ := s.SolventMap_, numHB := 0, solvent2solute := [] }) with numHB := 0 }
    simp only [sub_zero] at h1 h2
    omega

theorem action_solvent_sum (w : World) (f : Frame) (n : Nat) (s : Action_Hbond) :
    sumFrames (action w f n s).SolventMap_ - sumValues (action w f n s).NumSolvent_ =
      sumFrames s.SolventMap_ - sumValues s.NumSolvent_ := by
  rw [action_SolventMap, action_NumSolvent]
  by_cases hc : s.calcSolvent_ = true
  swap
  · rw [if_neg hc, if_neg hc]
  · rw [if_pos hc, if_pos hc]
    have h := solventSweeps_sum w
      { s with
        HbondMap_ := (soluteDonorLoop w s f n s.Donor_ 0 (s.HbondMap_, 0)).1.1,
        NumHbonds_ := s.NumHbonds_ ++
          [(n, (soluteDonorLoop w s f n s.Donor_ 0 (s.HbondMap_, 0)).1.2)] } f n
    simp only [sumValues, List.map_append, List.sum_append, List.map_cons, List.map_nil,
      List.sum_cons, List.sum_nil, add_zero] at h ⊢
    omega

theorem runFrames_sums (w : World) (donors : List (Int × Int)) :
    ∀ (fs : List Frame) (n : Nat) (s : Action_Hbond), s.Donor_ = flatDonors donors →
      sumFrames (runFrames w n fs s).HbondMap_ - sumValues (runFrames w n fs s).NumHbonds_ =
        sumFrames s.HbondMap_ - sumValues s.NumHbonds_ ∧
      sumFrames (runFrames w n fs s).SolventMap_ - sumValues (runFrames w n fs s).NumSolvent_ =
        sumFrames s.SolventMap_ - sumValues s.NumSolvent_ := by
  intro fs
  induction fs with
  | nil => intro n s _; exact ⟨rfl, rfl⟩
  | cons f fs ih =>
    intro n s hD
    rw [runFrames]
    have hD' : (action w f n s).Donor_ = flatDonors donors := by
      rw [(action_setup w f n s).1, hD]
    obtain ⟨h1, h2⟩ := ih (n + 1) (action w f n s) hD'
    exact ⟨h1.trans (action_solute_sum w f n s donors hD), h2.trans (action_solvent_sum w f n s)⟩

/-- C34: from empty registries and empty per-frame data sets, after any run of
frames the frame counts of the records of the solute-solute registry add up to
the sum of the values stored in `NumHbonds_`, and the frame counts of the
records of the solute-solvent registry add up to the sum of the values stored
in `NumSolvent_`. -/
theorem counts_conserved (w : World) (s : Action_Hbond) (donors : List (Int × Int))
    (frames : List Frame) (n0 : Nat)
    (hD : s.Donor_ = flatDonors donors)
    (hH : s.HbondMap_ = []) (hS : s.SolventMap_ = [])
    (hNH : s.NumHbonds_ = []) (hNS : s.NumSolvent_ = []) :
    sumFrames (runFrames w n0 frames s).HbondMap_ =
      sumValues (runFrames w n0 frames s).NumHbonds_ ∧
    sumFrames (runFrames w n0 frames s).SolventMap_ =
      sumValues (runFrames w n0 frames s).NumSolvent_ := by
  obtain ⟨h1, h2⟩ := runFrames_sums w donors frames n0 s hD
  rw [hH, hNH] at h1
  rw [hS, hNS] at h2
  simp only [sumFrames, sumValues, List.map_nil, List.sum_nil, sub_zero] at h1 h2
  constructor
  · simp only [sumFrames, sumValues]; omega
  · simp only [sumFrames, sumValues]; omega

theorem counts_conserved_witness :
    (twoAcceptors.Donor_ = flatDonors [(10, 11)] ∧ twoAcceptors.HbondMap_ = [] ∧
      twoAcceptors.SolventMap_ = [] ∧ twoAcceptors.NumHbonds_ = [] ∧
      twoAcceptors.NumSolvent_ = []) ∧
    (sumFrames (runFrames demoWorld 0 [bondFrame, noBondFrame] twoAcceptors).HbondMap_ =
        sumValues (runFrames demoWorld 0 [bondFrame, noBondFrame] twoAcceptors).NumHbonds_ ∧
      sumFrames (runFrames demoWorld 0 [bondFrame, noBondFrame] twoAcceptors).SolventMap_ =
        sumValues (runFrames demoWorld 0 [bondFrame, noBondFrame] twoAcceptors).NumSolvent_) ∧
    (runFrames demoWorld 0 [bondFrame, noBondFrame] twoAcceptors).NumSolvent_ =
      [(0, 2), (1, 0)] :=
  ⟨⟨rfl, rfl, rfl, rfl, rfl⟩,
    counts_conserved demoWorld twoAcceptors [(10, 11)] [bondFrame, noBondFrame] 0
      rfl rfl rfl rfl rfl,
    by norm_num [runFrames, action, twoAcceptors, freshAction, bondFrame, noBondFrame,
      constFrame, soluteDonorLoop, solventSweeps, solventDonorSweep, solventAcceptorSweep,
      solventAcceptorCandidate, AtomsAreHbonded, mapFind, mapInsert, mapModify, newSolventHB,
      bumpHB, touch, setInsert, bridgeLoop, bridgeRecord, demoWorld]⟩

/-! ### Independence of the order of the frames -/

theorem addCount_add (c : Option Int) (a b : Nat) :
    addCount (addCount c a) b = addCount c (a + b) := by
  unfold addCount
  by_cases ha : a = 0 <;> by_cases hb : b = 0
  · simp [ha, hb]
  · simp [ha, hb]
  · simp [ha, hb]
  · have hab : ¬ a + b = 0 := by omega
    simp only [ha, hb, hab, if_false, Option.getD_some, Nat.cast_add, Option.some.injEq]
    ring

theorem slotFold_count_under (w : World) (s : Action_Hbond) (f : Frame) (n : Nat) (k : Int) :
    ∀ (cs : List (Int × Int × Int × Int)) (st : HBmapType × Int),
      countUnder k (cs.foldl (soluteSlotStep w s f n) st).1 =
        addCount (countUnder k st.1) ((cs.filter fun c =>
          decide (k = c.2.2.2 ∧ soluteAccepts s.dcut2_ s.acut_ f c.1 c.2.1 c.2.2.1)).length) := by
  intro cs
  induction cs with
  | nil => intro st; simp [addCount]
  | cons c cs ih =>
    intro st
    rw [List.foldl_cons, ih]
    have hstep : countUnder k (soluteSlotStep w s f n st c).1 =
        addCount (countUnder k st.1)
          (if k = c.2.2.2 ∧ soluteAccepts s.dcut2_ s.acut_ f c.1 c.2.1 c.2.2.1 then 1 else 0) := by
      unfold countUnder soluteSlotStep
      rw [soluteCandidate_find]
      by_cases hc : k = c.2.2.2 ∧ soluteAccepts s.dcut2_ s.acut_ f c.1 c.2.1 c.2.2.1
      · rw [if_pos hc, if_pos hc, ← hc.1]
        cases hf : mapFind k st.1 <;> simp [addCount, soluteRecord, newSoluteHB, bumpHB]
      · rw [if_neg hc, if_neg hc]
        simp [addCount]
    rw [hstep, addCount_add]
    congr 1
    by_cases hc : k = c.2.2.2 ∧ soluteAccepts s.dcut2_ s.acut_ f c.1 c.2.1 c.2.2.1
    · simp [List.filter_cons, hc]; omega
    · simp [List.filter_cons, hc]

theorem action_solute_count (w : World) (f : Frame) (n : Nat) (s : Action_Hbond)
    (donors : List (Int × Int)) (hD : s.Donor_ = flatDonors donors) (k : Int) :
    countUnder k (action w f n s).HbondMap_ =
      addCount (countUnder k s.HbondMap_) (soluteInc s donors k f) := by
  have hloop := soluteDonorLoop_eq w s f n donors 0 (s.HbondMap_, 0)
  simp only [Nat.cast_zero, zero_mul] at hloop
  rw [action_HbondMap, hD, hloop]
  exact slotFold_count_under w s f n k (soluteSlots donors s.Acceptor_) (s.HbondMap_, 0)

theorem atomsAreHbonded_count_under (w : World) (s : Action_Hbond) (f : Frame) (n : Nat)
    (a d h hbidx : Int) (sd : Bool) (m : HBmapType) (k : Int) :
    countUnder k (AtomsAreHbonded w s f n a d h hbidx sd m).2 =
      addCount (countUnder k m)
        (if k = hbidx ∧ solventAccepts s.dcut2_ s.acut_ f a d h then 1 else 0) := by
  unfold countUnder
  rw [atomsAreHbonded_find]
  by_cases hc : k = hbidx ∧ solventAccepts s.dcut2_ s.acut_ f a d h
  · rw [if_pos hc, if_pos hc, ← hc.1]
    cases hf : mapFind k m <;> simp [addCount, solventRecord, newSolventHB, bumpHB]
  · rw [if_neg hc, if_neg hc]
    simp [addCount]

theorem acceptorFold_count_under (w : World) (s : Action_Hbond) (f : Frame) (n : Nat)
    (D H k : Int) :
    ∀ (accs : List Int) (st : SolventState),
      countUnder k
          (accs.foldl (fun st a => solventAcceptorCandidate w s f n D H a st) st).SolventMap_ =
        addCount (countUnder k st.SolventMap_) ((accs.filter fun a =>
          decide (k = H ∧ solventAccepts s.dcut2_ s.acut_ f a D H)).length) := by
  intro accs
  induction accs with
  | nil => intro st; simp [addCount]
  | cons a accs ih =>
    intro st
    rw [List.foldl_cons, ih, solventAcceptorCandidate_eq]
    dsimp only
    rw [atomsAreHbonded_count_under, addCount_add]
    congr 1
    by_cases hc : k = H ∧ solventAccepts s.dcut2_ s.acut_ f a D H
    · simp [List.filter_cons, hc]; omega
    · simp [List.filter_cons, hc]

theorem donorFold_count_under (w : World) (s : Action_Hbond) (f : Frame) (n : Nat)
    (D H k : Int) :
    ∀ (accs : List Int) (st : SolventState),
      countUnder k
          (accs.foldl (fun st a => soluteAcceptorCandidate w s f n D H a st) st).SolventMap_ =
        addCount (countUnder k st.SolventMap_) ((accs.filter fun a =>
          decide (k = a ∧ solventAccepts s.dcut2_ s.acut_ f a D H)).length) := by
  intro accs
  induction accs with
  | nil => intro st; simp [addCount]
  | cons a accs ih =>
    intro st
    rw [List.foldl_cons, ih, soluteAcceptorCandidate_eq]
    dsimp only
    rw [atomsAreHbonded_count_under, addCount_add]
    congr 1
    by_cases hc : k = a ∧ solventAccepts s.dcut2_ s.acut_ f a D H
    · simp [List.filter_cons, hc]; omega
    · simp [List.filter_cons, hc]

theorem solventAcceptorSweep_count_under (w : World) (s : Action_Hbond) (f : Frame) (n : Nat)
    (k : Int) :
    ∀ (donors : List (Int × Int)) (st : SolventState),
      countUnder k (solventAcceptorSweep w s f n (flatDonors donors) st).SolventMap_ =
        addCount (countUnder k st.SolventMap_)
          (donors.flatMap fun d => s.SolventAcceptor_.filter fun a =>
            decide (k = d.2 ∧ solventAccepts s.dcut2_ s.acut_ f a d.1 d.2)).length := by
  intro donors
  induction donors with
  | nil => intro st; simp [flatDonors, solventAcceptorSweep, addCount]
  | cons d donors ih =>
    intro st
    rw [flatDonors_cons, solventAcceptorSweep, ih, acceptorFold_count_under, addCount_add,
      List.flatMap_cons, List.length_append]

theorem solventDonorSweep_count_under (w : World) (s : Action_Hbond) (f : Frame) (n : Nat)
    (k : Int) :
    ∀ (donors : List (Int × Int)) (st : SolventState),
      countUnder k (solventDonorSweep w s f n (flatDonors donors) st).SolventMap_ =
        addCount (countUnder k st.SolventMap_)
          (donors.flatMap fun d => s.Acceptor_.filter fun a =>
            decide (k = a ∧ solventAccepts s.dcut2_ s.acut_ f a d.1 d.2)).length := by
  intro donors
  induction donors with
  | nil => intro st; simp [flatDonors, solventDonorSweep, addCount]
  | cons d donors ih =>
    intro st
    rw [flatDonors_cons, solventDonorSweep, ih, donorFold_count_under, addCount_add,
      List.flatMap_cons, List.length_append]

theorem solventSweeps_count_under (w : World) (s : Action_Hbond) (f : Frame) (n : Nat)
    (donors solventDonors : List (Int × Int))
    (hD : s.Donor_ = flatDonors donors) (hSD : s.SolventDonor_ = flatDonors solventDonors)
    (k : Int) :
    countUnder k (solventSweeps w s f n).1.SolventMap_ =
      addCount (countUnder k s.SolventMap_)
        ((if s.hasSolventAcceptor_ then
          (donors.flatMap fun d => s.SolventAcceptor_.filter fun a =>
            decide (k = d.2 ∧ solventAccepts s.dcut2_ s.acut_ f a d.1 d.2)).length
        else 0) +
        (if s.hasSolventDonor_ then
          (solventDonors.flatMap fun d => s.Acceptor_.filter fun a =>
            decide (k = a ∧ solventAccepts s.dcut2_ s.acut_ f a d.1 d.2)).length
        else 0)) := by
  unfold solventSweeps
  rw [hD, hSD]
  cases ha : s.hasSolventAcceptor_ <;> cases hd : s.hasSolventDonor_
  · simp [addCount]
  · simp only [Bool.false_eq_true, if_false, if_true, zero_add]
    exact solventDonorSweep_count_under w s f n k solventDonors _
  · simp only [Bool.false_eq_true, if_false, if_true, add_zero]
    exact solventAcceptorSweep_count_under w s f n k donors _
  · simp only [if_true]
    rw [solventDonorSweep_count_under]
    dsimp only
    rw [solventAcceptorSweep_count_under, addCount_add]

theorem action_solvent_count (w : World) (f : Frame) (n : Nat) (s : Action_Hbond)
    (donors solventDonors : List (Int × Int))
    (hD : s.Donor_ = flatDonors donors) (hSD : s.SolventDonor_ = flatDonors solventDonors)
    (k : Int) :
    countUnder k (action w f n s).SolventMap_ =
      addCount (countUnder k s.SolventMap_) (solventInc s donors solventDonors k f) := by
  rw [action_SolventMap]
  unfold solventInc
  by_cases hc : s.calcSolvent_ = true
  · rw [if_pos hc, if_pos hc]
    exact solventSweeps_count_under w
      { s with
        HbondMap_ := (soluteDonorLoop w s f n s.Donor_ 0 (s.HbondMap_, 0)).1.1,
        NumHbonds_ := s.NumHbonds_ ++
          [(n, (soluteDonorLoop w s f n s.Donor_ 0 (s.HbondMap_, 0)).1.2)] }
      f n donors solventDonors hD hSD k
  · rw [if_neg hc, if_neg hc]
    simp [addCount]

theorem bridgeLoop_count_under (K : List Int) :
    ∀ (l : List (Int × List Int)) (st : BridgeType × Int),
      mapFind K (bridgeLoop l st).1 =
        addCount (mapFind K st.1)
          ((l.filter fun e => decide (K = e.2 ∧ e.2.length > 1)).length) := by
  intro l
  induction l with
  | nil => intro st; simp [bridgeLoop, addCount]
  | cons e l ih =>
    intro st
    rw [bridgeLoop]
    by_cases hb : e.2.length > 1
    · rw [if_pos hb, ih]
      dsimp only
      rw [mapFind_bridgeRecord]
      by_cases hK : K = e.2
      · rw [if_pos hK]
        have hfil : ((e :: l).filter fun e => decide (K = e.2 ∧ e.2.length > 1)).length =
            1 + (l.filter fun e => decide (K = e.2 ∧ e.2.length > 1)).length := by
          simp [List.filter_cons, hK, hb]; omega
        rw [hfil, ← addCount_add, ← hK]
        congr 1
      · rw [if_neg hK]
        simp [List.filter_cons, hK]
    · rw [if_neg hb, ih]
      simp [List.filter_cons, hb]

theorem action_bridge_count (w : World) (f : Frame) (n : Nat) (s : Action_Hbond)
    (donors solventDonors : List (Int × Int))
    (hD : s.Donor_ = flatDonors donors) (hSD : s.SolventDonor_ = flatDonors solventDonors)
    (K : List Int) :
    mapFind K (action w f n s).BridgeMap_ =
      addCount (mapFind K s.BridgeMap_) (bridgeInc w s donors solventDonors K f) := by
  rw [action_BridgeMap]
  unfold bridgeInc
  by_cases hc : s.calcSolvent_ = true
  · rw [if_pos hc, if_pos hc, bridgeLoop_count_under]
    have hsw : (solventSweeps w
        { s with
          HbondMap_ := (soluteDonorLoop w s f n s.Donor_ 0 (s.HbondMap_, 0)).1.1,
          NumHbonds_ := s.NumHbonds_ ++
            [(n, (soluteDonorLoop w s f n s.Donor_ 0 (s.HbondMap_, 0)).1.2)] }
        f n).1.solvent2solute =
        (frameContacts w s f donors solventDonors).foldl (fun m c => touch c.1 c.2 m) [] :=
      (solventSweeps_contacts w
        { s with
          HbondMap_ := (soluteDonorLoop w s f n s.Donor_ 0 (s.HbondMap_, 0)).1.1,
          NumHbonds_ := s.NumHbonds_ ++
            [(n, (soluteDonorLoop w s f n s.Donor_ 0 (s.HbondMap_, 0)).1.2)] }
        f n donors solventDonors hD hSD).2
    rw [hsw]
  · rw [if_neg hc, if_neg hc]
    simp [addCount]

theorem incs_action (w : World) (f : Frame) (n : Nat) (s : Action_Hbond)
    (donors solventDonors : List (Int × Int)) (k : Int) (K : List Int) (g : Frame) :
    soluteInc (action w f n s) donors k g = soluteInc s donors k g ∧
    solventInc (action w f n s) donors solventDonors k g =
      solventInc s donors solventDonors k g ∧
    bridgeInc w (action w f n s) donors solventDonors K g =
      bridgeInc w s donors solventDonors K g := by
  obtain ⟨_, h2, _, h4, h5, h6, _, h8, h9, h10⟩ := action_setup w f n s
  refine ⟨?_, ?_, ?_⟩
  · unfold soluteInc
    rw [h2, h5, h6]
  · unfold solventInc
    rw [h2, h4, h5, h6, h8, h9, h10]
  · unfold bridgeInc frameContacts contactsA contactsB
    rw [h2, h4, h5, h6, h8, h9, h10]

theorem runFrames_counts (w : World) (donors solventDonors : List (Int × Int))
    (k : Int) (K : List Int) :
    ∀ (fs : List Frame) (n : Nat) (s : Action_Hbond),
      s.Donor_ = flatDonors donors → s.SolventDonor_ = flatDonors solventDonors →
      countUnder k (runFrames w n fs s).HbondMap_ =
        addCount (countUnder k s.HbondMap_) (fs.map (soluteInc s donors k)).sum ∧
      countUnder k (runFrames w n fs s).SolventMap_ =
        addCount (countUnder k s.SolventMap_)
          (fs.map (solventInc s donors solventDonors k)).sum ∧
      mapFind K (runFrames w n fs s).BridgeMap_ =
        addCount (mapFind K s.BridgeMap_)
          (fs.map (bridgeInc w s donors solventDonors K)).sum := by
  intro fs
  induction fs with
  | nil => intro n s _ _; simp [runFrames, addCount]
  | cons f fs ih =>
    intro n s hD hSD
    rw [runFrames]
    have hD' : (action w f n s).Donor_ = flatDonors donors := by
      rw [(action_setup w f n s).1, hD]
    have hSD' : (action w f n s).SolventDonor_ = flatDonors solventDonors := by
      rw [(action_setup w f n s).2.2.1, hSD]
    obtain ⟨h1, h2, h3⟩ := ih (n + 1) (action w f n s) hD' hSD'
    have e1 : fs.map (soluteInc (action w f n s) donors k) = fs.map (soluteInc s donors k) :=
      List.map_congr_left fun g _ => (incs_action w f n s donors solventDonors k K g).1
    have e2 : fs.map (solventInc (action w f n s) donors solventDonors k) =
        fs.map (solventInc s donors solventDonors k) :=
      List.map_congr_left fun g _ => (incs_action w f n s donors solventDonors k K g).2.1
    have e3 : fs.map (bridgeInc w (action w f n s) donors solventDonors K) =
        fs.map (bridgeInc w s donors solventDonors K) :=
      List.map_congr_left fun g _ => (incs_action w f n s donors solventDonors k K g).2.2
    rw [h1, h2, h3, e1, e2, e3, action_solute_count w f n s donors hD,
      action_solvent_count w f n s donors solventDonors hD hSD,
      action_bridge_count w f n s donors solventDonors hD hSD, addCount_add, addCount_add,
      addCount_add, List.map_cons, List.sum_cons, List.map_cons, List.sum_cons, List.map_cons,
      List.sum_cons]
    exact ⟨rfl, rfl, rfl⟩

theorem countUnder_isSome (k : Int) (m : HBmapType) :
    (countUnder k m).isSome = true ↔ k ∈ m.map Prod.fst := by
  unfold countUnder
  cases h : mapFind k m with
  | none =>
    simp only [Option.map_none', Option.isSome_none, Bool.false_eq_true, false_iff]
    exact (mapFind_eq_none_iff k m).1 h
  | some hb =>
    simp only [Option.map_some', Option.isSome_some, true_iff]
    by_contra hn
    rw [(mapFind_eq_none_iff k m).2 hn] at h
    exact Option.noConfusion h

/-- C39: with the lists fixed, two runs of `action()` from the same instance
over the same frames in two different orders end with the same keys and the
same frame count under every key in the solute-solute registry and in the
solute-solvent registry, and with the same count for every residue set in the
bridge table (a residue set is in the table of one run exactly when it is in
that of the other). This holds with the per-bond series on or off. -/
theorem counts_frame_order_independent (w : World) (s : Action_Hbond)
    (donors solventDonors : List (Int × Int)) (frames frames' : List Frame) (n n' : Nat)
    (k : Int) (K : List Int)
    (hD : s.Donor_ = flatDonors donors) (hSD : s.SolventDonor_ = flatDonors solventDonors)
    (hperm : frames.Perm frames') :
    countUnder k (runFrames w n frames s).HbondMap_ =
      countUnder k (runFrames w n' frames' s).HbondMap_ ∧
    countUnder k (runFrames w n frames s).SolventMap_ =
      countUnder k (runFrames w n' frames' s).SolventMap_ ∧
    mapFind K (runFrames w n frames s).BridgeMap_ =
      mapFind K (runFrames w n' frames' s).BridgeMap_ ∧
    (k ∈ (runFrames w n frames s).HbondMap_.map Prod.fst ↔
      k ∈ (runFrames w n' frames' s).HbondMap_.map Prod.fst) ∧
    (k ∈ (runFrames w n frames s).SolventMap_.map Prod.fst ↔
      k ∈ (runFrames w n' frames' s).SolventMap_.map Prod.fst) := by
  obtain ⟨a1, a2, a3⟩ := runFrames_counts w donors solventDonors k K frames n s hD hSD
  obtain ⟨b1, b2, b3⟩ := runFrames_counts w donors solventDonors k K frames' n' s hD hSD
  have e1 : countUnder k (runFrames w n frames s).HbondMap_ =
      countUnder k (runFrames w n' frames' s).HbondMap_ := by
    rw [a1, b1, (hperm.map _).sum_eq]
  have e2 : countUnder k (runFrames w n frames s).SolventMap_ =
      countUnder k (runFrames w n' frames' s).SolventMap_ := by
    rw [a2, b2, (hperm.map _).sum_eq]
  refine ⟨e1, e2, ?_, ?_, ?_⟩
  · rw [a3, b3, (hperm.map _).sum_eq]
  · rw [← countUnder_isSome, ← countUnder_isSome, e1]
  · rw [← countUnder_isSome, ← countUnder_isSome, e2]

theorem counts_frame_order_independent_witness :
    (reportState.Donor_ = flatDonors [(10, 11)] ∧
      reportState.SolventDonor_ = flatDonors [(100, 101)] ∧
      [bondFrame, noBondFrame].Perm [noBondFrame, bondFrame]) ∧
    (countUnder 0 (runFrames demoWorld 0 [bondFrame, noBondFrame] reportState).HbondMap_ =
      countUnder 0 (runFrames demoWorld 0 [noBondFrame, bondFrame] reportState).HbondMap_ ∧
    countUnder 0 (runFrames demoWorld 0 [bondFrame, noBondFrame] reportState).SolventMap_ =
      countUnder 0 (runFrames demoWorld 0 [noBondFrame, bondFrame] reportState).SolventMap_ ∧
    mapFind [2, 5] (runFrames demoWorld 0 [bondFrame, noBondFrame] reportState).BridgeMap_ =
      mapFind [2, 5] (runFrames demoWorld 0 [noBondFrame, bondFrame] reportState).BridgeMap_ ∧
    ((0 : Int) ∈ (runFrames demoWorld 0 [bondFrame, noBondFrame] reportState).HbondMap_.map
        Prod.fst ↔
      (0 : Int) ∈ (runFrames demoWorld 0 [noBondFrame, bondFrame] reportState).HbondMap_.map
        Prod.fst) ∧
    ((0 : Int) ∈ (runFrames demoWorld 0 [bondFrame, noBondFrame] reportState).SolventMap_.map
        Prod.fst ↔
      (0 : Int) ∈ (runFrames demoWorld 0 [noBondFrame, bondFrame] reportState).SolventMap_.map
        Prod.fst)) :=
  ⟨⟨rfl, rfl, List.Perm.swap _ _ _⟩,
    counts_frame_order_independent demoWorld reportState [(10, 11)] [(100, 101)]
      [bondFrame, noBondFrame] [noBondFrame, bondFrame] 0 0 0 [2, 5] rfl rfl
      (List.Perm.swap _ _ _)⟩


/-! ### `Action_Diffusion`: unwrapping -/

/-- C31 (evaluation of the code): in a cubic box of length 10, an atom that
moves from `(1, 1, 1)` to `(9, 9, 1)` has gone more than half the box along x
and along y. The `else if` chain adjusts the x correction only: afterwards the
x correction is -10 and the y correction is still 0. -/
theorem unwrap_adjusts_first_axis_only :
    (diffusionAtomStep true (10, 10, 10) (9, 9, 1) (1, 1, 1) cornerAtom).dx = -10 ∧
    (diffusionAtomStep true (10, 10, 10) (9, 9, 1) (1, 1, 1) cornerAtom).dy = 0 ∧
    ((9 : ℚ) - cornerAtom.py > 10 / 2) ∧
    unwrapCorrection true (10, 10, 10) (5, 5, 5) 8 8 0 (0, 0, 0) = (-10, 0, 0) ∧
    unwrapCorrection true (10, 10, 10) (5, 5, 5) 0 8 0 (0, 0, 0) = (0, -10, 0) := by
  refine ⟨?_, ?_, ?_, ?_, ?_⟩ <;>
  norm_num [diffusionAtomStep, unwrapCorrection, cornerAtom]

/-! ### `PDBfile`: the record buffer -/

theorem readField_buffer (buffer : List Char) (off stop : Nat) :
    (readField buffer off stop).2 = buffer := by
  unfold readField
  dsimp only
  rw [List.set_set]
  by_cases h : stop < buffer.length
  · rw [List.getD_eq_getElem _ _ h]
    apply List.ext_getElem (by simp)
    intro i h1 h2
    rw [List.getElem_set]
    split_ifs with hi
    · subst hi; rfl
    · rfl
  · exact List.set_eq_of_length_le (by omega)

theorem pdb_Atom_buffer (env : PdbEnv) (p : PDBfile) :
    (pdb_Atom env p).2.buffer_ = p.buffer_ := by
  unfold pdb_Atom
  simp only [readField_buffer]

theorem pdb_Residue_state (env : PdbEnv) (p : PDBfile) : (pdb_Residue env p).2 = p := by
  unfold pdb_Residue
  simp only [readField_buffer]

theorem pdb_XYZ_state (env : PdbEnv) (p : PDBfile) : (pdb_XYZ env p).2 = p := by
  unfold pdb_XYZ
  simp only [readField_buffer]

theorem pdb_results_of_buffer (env : PdbEnv) (p q : PDBfile) (h : q.buffer_ = p.buffer_) :
    (pdb_Atom env q).1 = (pdb_Atom env p).1 ∧ (pdb_Residue env q).1 = (pdb_Residue env p).1 ∧
    (pdb_XYZ env q).1 = (pdb_XYZ env p).1 := by
  unfold pdb_Atom pdb_Residue pdb_XYZ
  simp only [h, and_self]

/-- C40: the field parsers `pdb_Atom`, `pdb_Residue` and `pdb_XYZ` leave the
record buffer as it was: every position overwritten with a terminator gets its
character back. So each parser returns the same result whether it is called
first or after any of the three (itself included). -/
theorem pdb_parsers_restore_buffer (env : PdbEnv) (p : PDBfile) :
    (pdb_Atom env p).2.buffer_ = p.buffer_ ∧ (pdb_Residue env p).2.buffer_ = p.buffer_ ∧
    (pdb_XYZ env p).2.buffer_ = p.buffer_ ∧
    (pdb_Atom env (pdb_Atom env p).2).1 = (pdb_Atom env p).1 ∧
    (pdb_Atom env (pdb_Residue env p).2).1 = (pdb_Atom env p).1 ∧
    (pdb_Atom env (pdb_XYZ env p).2).1 = (pdb_Atom env p).1 ∧
    (pdb_Residue env (pdb_Atom env p).2).1 = (pdb_Residue env p).1 ∧
    (pdb_Residue env (pdb_Residue env p).2).1 = (pdb_Residue env p).1 ∧
    (pdb_Residue env (pdb_XYZ env p).2).1 = (pdb_Residue env p).1 ∧
    (pdb_XYZ env (pdb_Atom env p).2).1 = (pdb_XYZ env p).1 ∧
    (pdb_XYZ env (pdb_Residue env p).2).1 = (pdb_XYZ env p).1 ∧
    (pdb_XYZ env (pdb_XYZ env p).2).1 = (pdb_XYZ env p).1 := by
  have hA := pdb_Atom_buffer env p
  have hR := pdb_Residue_state env p
  have hX := pdb_XYZ_state env p
  refine ⟨hA, by rw [hR], by rw [hX], ?_, ?_, ?_, ?_, ?_, ?_, ?_, ?_, ?_⟩
  · exact (pdb_results_of_buffer env p _ hA).1
  · rw [hR]
  · rw [hX]
  · exact (pdb_results_of_buffer env p _ hA).2.1
  · rw [hR]
  · rw [hX]
  · exact (pdb_results_of_buffer env p _ hA).2.2
  · rw [hR]
  · rw [hX]

/-! ### The order of the report rows -/

theorem demoPrintEnv_sortPermutes (c : String → Bool) : sortPermutes (demoPrintEnv c) :=
  fun l => List.perm_insertionSort _ l

theorem hbondSort_nil (env : PrintEnv) (hperm : sortPermutes env) : hbondSort env [] = [] :=
  List.Perm.eq_nil (hperm [])

theorem printSolute_none (env : PrintEnv) (s : Action_Hbond) (fs : Files)
    (h : s.avgout_ ≠ "" ∧ env.canOpen s.avgout_ = false) : printSolute env s fs = none := by
  simp [printSolute, h.1, h.2]

theorem printSolute_some (env : PrintEnv) (s : Action_Hbond) (fs : Files)
    (h : ¬ (s.avgout_ ≠ "" ∧ env.canOpen s.avgout_ = false)) :
    printSolute env s fs = some (afterSolute env s fs) := by
  unfold printSolute afterSolute soluteReport
  by_cases h1 : s.avgout_ ≠ ""
  · have hA : env.canOpen s.avgout_ = true := by
      cases hc : env.canOpen s.avgout_
      · exact absurd ⟨h1, hc⟩ h
      · rfl
    rw [if_pos h1, if_pos hA, if_pos h1]
  · rw [if_neg h1, if_neg h1]

theorem printSolvent_none (env : PrintEnv) (s : Action_Hbond) (fs : Files)
    (h : (s.solvout_ ≠ "" ∧ s.calcSolvent_ = true) ∧ env.canOpen s.solvout_ = false) :
    printSolvent env s fs = none := by
  simp [printSolvent, h.1.1, h.1.2, h.2]

theorem printSolvent_some (env : PrintEnv) (s : Action_Hbond) (fs : Files)
    (h : ¬ ((s.solvout_ ≠ "" ∧ s.calcSolvent_ = true) ∧ env.canOpen s.solvout_ = false)) :
    printSolvent env s fs =
      some (if s.solvout_ ≠ "" ∧ s.calcSolvent_ = true then
          ({ s with SolventMap_ := [] },
            fileWrite (decide (s.solvout_ = s.avgout_)) fs s.solvout_ (solventReport env s))
        else (s, fs)) := by
  unfold printSolvent solventReport
  by_cases h2 : s.solvout_ ≠ "" ∧ s.calcSolvent_ = true
  · have hS : env.canOpen s.solvout_ = true := by
      cases hc : env.canOpen s.solvout_
      · exact absurd ⟨h2, hc⟩ h
      · rfl
    rw [if_pos h2, if_pos hS, if_pos h2]
  · rw [if_neg h2, if_neg h2]

theorem printBridge_none (env : PrintEnv) (s : Action_Hbond) (fs : Files)
    (h : (s.bridgeout_ ≠ "" ∧ s.calcSolvent_ = true) ∧ env.canOpen s.bridgeout_ = false) :
    printBridge env s fs = none := by
  simp [printBridge, h.1.1, h.1.2, h.2]

theorem printBridge_some (env : PrintEnv) (s : Action_Hbond) (fs : Files)
    (h : ¬ ((s.bridgeout_ ≠ "" ∧ s.calcSolvent_ = true) ∧ env.canOpen s.bridgeout_ = false)) :
    printBridge env s fs =
      some (if s.bridgeout_ ≠ "" ∧ s.calcSolvent_ = true then
          (s, fileWrite (decide (s.bridgeout_ = s.avgout_) || decide (s.bridgeout_ = s.solvout_))
            fs s.bridgeout_ (bridgeReport env s))
        else (s, fs)) := by
  unfold printBridge bridgeReport
  by_cases h2 : s.bridgeout_ ≠ "" ∧ s.calcSolvent_ = true
  · have hS : env.canOpen s.bridgeout_ = true := by
      cases hc : env.canOpen s.bridgeout_
      · exact absurd ⟨h2, hc⟩ h
      · rfl
    rw [if_pos h2, if_pos hS, if_pos h2]
  · rw [if_neg h2, if_neg h2]

theorem afterSolute_fst (env : PrintEnv) (s : Action_Hbond) (fs : Files) :
    (afterSolute env s fs).1 =
      { s with HbondMap_ := if s.avgout_ ≠ "" then [] else s.HbondMap_ } := by
  unfold afterSolute
  split_ifs <;> rfl

theorem afterSolvent_fst (env : PrintEnv) (s : Action_Hbond) (fs : Files) :
    (afterSolvent env s fs).1 =
      { s with
        HbondMap_ := if s.avgout_ ≠ "" then [] else s.HbondMap_,
        SolventMap_ :=
          if s.solvout_ ≠ "" ∧ s.calcSolvent_ = true then [] else s.SolventMap_ } := by
  unfold afterSolvent
  by_cases h1 : s.avgout_ ≠ "" <;> by_cases h2 : s.solvout_ ≠ "" ∧ s.calcSolvent_ = true
  · rw [if_pos h2, if_pos h1, if_pos h2, afterSolute_fst, if_pos h1]
  · rw [if_neg h2, if_pos h1, if_neg h2, afterSolute_fst, if_pos h1]
  · rw [if_pos h2, if_neg h1, if_pos h2, afterSolute_fst, if_neg h1]
  · rw [if_neg h2, if_neg h1, if_neg h2, afterSolute_fst, if_neg h1]

theorem afterBridge_fst (env : PrintEnv) (s : Action_Hbond) (fs : Files) :
    (afterBridge env s fs).1 = (afterSolvent env s fs).1 := by
  unfold afterBridge
  split_ifs <;> rfl

theorem printSolvent_like (env : PrintEnv) (s t : Action_Hbond) (gs : Files)
    (e1 : t.solvout_ = s.solvout_) (e2 : t.calcSolvent_ = s.calcSolvent_)
    (e3 : t.avgout_ = s.avgout_) (e4 : solventReport env t = solventReport env s) :
    printSolvent env t gs =
      if (s.solvout_ ≠ "" ∧ s.calcSolvent_ = true) ∧ env.canOpen s.solvout_ = false then none
      else some (if s.solvout_ ≠ "" ∧ s.calcSolvent_ = true then
          ({ t with SolventMap_ := [] },
            fileWrite (decide (s.solvout_ = s.avgout_)) gs s.solvout_ (solventReport env s))
        else (t, gs)) := by
  by_cases c2 : (s.solvout_ ≠ "" ∧ s.calcSolvent_ = true) ∧ env.canOpen s.solvout_ = false
  · rw [if_pos c2]
    exact printSolvent_none env t gs (by rw [e1, e2]; exact c2)
  · rw [if_neg c2, printSolvent_some env t gs (by rw [e1, e2]; exact c2), e4]
    by_cases h : s.solvout_ ≠ "" ∧ s.calcSolvent_ = true
    · rw [if_pos h, if_pos (by rw [e1, e2]; exact h), e1, e3]
    · rw [if_neg h, if_neg (by rw [e1, e2]; exact h)]

theorem printBridge_like (env : PrintEnv) (s t : Action_Hbond) (gs : Files)
    (e1 : t.bridgeout_ = s.bridgeout_) (e2 : t.calcSolvent_ = s.calcSolvent_)
    (e3 : t.avgout_ = s.avgout_) (e4 : t.solvout_ = s.solvout_)
    (e5 : bridgeReport env t = bridgeReport env s) :
    printBridge env t gs =
      if (s.bridgeout_ ≠ "" ∧ s.calcSolvent_ = true) ∧ env.canOpen s.bridgeout_ = false then none
      else some (if s.bridgeout_ ≠ "" ∧ s.calcSolvent_ = true then
          (t, fileWrite (decide (s.bridgeout_ = s.avgout_) || decide (s.bridgeout_ = s.solvout_))
            gs s.bridgeout_ (bridgeReport env s))
        else (t, gs)) := by
  by_cases c2 : (s.bridgeout_ ≠ "" ∧ s.calcSolvent_ = true) ∧ env.canOpen s.bridgeout_ = false
  · rw [if_pos c2]
    exact printBridge_none env t gs (by rw [e1, e2]; exact c2)
  · rw [if_neg c2, printBridge_some env t gs (by rw [e1, e2]; exact c2), e5]
    by_cases h : s.bridgeout_ ≠ "" ∧ s.calcSolvent_ = true
    · rw [if_pos h, if_pos (by rw [e1, e2]; exact h), e1, e3, e4]
    · rw [if_neg h, if_neg (by rw [e1, e2]; exact h)]

theorem printSolvent_afterSolute (env : PrintEnv) (s : Action_Hbond) (fs : Files) :
    printSolvent env (afterSolute env s fs).1 (afterSolute env s fs).2 =
      if (s.solvout_ ≠ "" ∧ s.calcSolvent_ = true) ∧ env.canOpen s.solvout_ = false then none
      else some (afterSolvent env s fs) := by
  have f1 := afterSolute_fst env s fs
  rw [printSolvent_like env s _ _ (by rw [f1]) (by rw [f1]) (by rw [f1]) (by rw [f1]; rfl)]
  unfold afterSolvent
  by_cases h : s.solvout_ ≠ "" ∧ s.calcSolvent_ = true
  · rw [if_pos h]
  · rw [if_neg h]

theorem printBridge_afterSolvent (env : PrintEnv) (s : Action_Hbond) (fs : Files) :
    printBridge env (afterSolvent env s fs).1 (afterSolvent env s fs).2 =
      if (s.bridgeout_ ≠ "" ∧ s.calcSolvent_ = true) ∧ env.canOpen s.bridgeout_ = false then none
      else some (afterBridge env s fs) := by
  have f2 := afterSolvent_fst env s fs
  rw [printBridge_like env s _ _ (by rw [f2]) (by rw [f2]) (by rw [f2]) (by rw [f2])
    (by rw [f2]; rfl)]
  unfold afterBridge
  by_cases h : s.bridgeout_ ≠ "" ∧ s.calcSolvent_ = true
  · rw [if_pos h]
  · rw [if_neg h]

theorem print_ite (env : PrintEnv) (s : Action_Hbond) (fs : Files) :
    print env s fs =
      if s.avgout_ ≠ "" ∧ env.canOpen s.avgout_ = false then (s, fs)
      else if (s.solvout_ ≠ "" ∧ s.calcSolvent_ = true) ∧ env.canOpen s.solvout_ = false then
        afterSolute env s fs
      else if (s.bridgeout_ ≠ "" ∧ s.calcSolvent_ = true) ∧
          env.canOpen s.bridgeout_ = false then
        afterSolvent env s fs
      else afterBridge env s fs := by
  unfold print
  by_cases c1 : s.avgout_ ≠ "" ∧ env.canOpen s.avgout_ = false
  · rw [printSolute_none env s fs c1, if_pos c1]
  · rw [printSolute_some env s fs c1, if_neg c1]
    dsimp only
    rw [printSolvent_afterSolute]
    by_cases c2 : (s.solvout_ ≠ "" ∧ s.calcSolvent_ = true) ∧ env.canOpen s.solvout_ = false
    · rw [if_pos c2, if_pos c2]
    · rw [if_neg c2, if_neg c2]
      dsimp only
      rw [printBridge_afterSolvent]
      by_cases c3 : (s.bridgeout_ ≠ "" ∧ s.calcSolvent_ = true) ∧
          env.canOpen s.bridgeout_ = false
      · rw [if_pos c3, if_pos c3]
      · rw [if_neg c3, if_neg c3]

theorem print_HbondMap (env : PrintEnv) (s : Action_Hbond) (fs : Files) :
    (print env s fs).1.HbondMap_ =
      if s.avgout_ ≠ "" ∧ env.canOpen s.avgout_ = true then [] else s.HbondMap_ := by
  rw [print_ite]
  by_cases h1 : s.avgout_ = "" <;> by_cases hA : env.canOpen s.avgout_ = true <;>
    split_ifs <;>
    simp_all [afterBridge_fst, afterSolvent_fst, afterSolute_fst]

theorem print_SolventMap (env : PrintEnv) (s : Action_Hbond) (fs : Files) :
    (print env s fs).1.SolventMap_ =
      if (s.avgout_ = "" ∨ env.canOpen s.avgout_ = true) ∧
          (s.solvout_ ≠ "" ∧ s.calcSolvent_ = true) ∧ env.canOpen s.solvout_ = true
        then [] else s.SolventMap_ := by
  rw [print_ite]
  by_cases h1 : s.avgout_ = "" <;> by_cases hA : env.canOpen s.avgout_ = true <;>
    by_cases h2 : s.solvout_ = "" <;> by_cases h3 : s.calcSolvent_ = true <;>
    by_cases hS : env.canOpen s.solvout_ = true <;>
    split_ifs <;>
    simp_all [afterBridge_fst, afterSolvent_fst, afterSolute_fst]

theorem soluteReport_no_record (env : PrintEnv) (t : Action_Hbond)
    (hperm : sortPermutes env) (hH : t.HbondMap_ = []) :
    soluteReport env t = [OutLine.soluteHeader] := by
  unfold soluteReport
  rw [hH, List.map_nil, hbondSort_nil env hperm, List.map_nil]

theorem solventReport_no_record (env : PrintEnv) (t : Action_Hbond)
    (hperm : sortPermutes env) (hS : t.SolventMap_ = []) :
    solventReport env t = [OutLine.solventTitle, OutLine.solventHeader] := by
  unfold solventReport
  rw [hS, List.map_nil, hbondSort_nil env hperm, List.map_nil]

theorem bridgeReport_no_record (env : PrintEnv) (t : Action_Hbond) :
    (bridgeReport env t).all (fun l => !l.isRecord) = true := by
  unfold bridgeReport
  rw [List.all_cons, bridge_lines_no_record]
  rfl

theorem afterSolute_file (env : PrintEnv) (t : Action_Hbond) (gs : Files) (n : String) :
    (afterSolute env t gs).2 n =
      if t.avgout_ ≠ "" ∧ n = t.avgout_ then soluteReport env t else gs n := by
  unfold afterSolute
  by_cases h1 : t.avgout_ ≠ "" <;> by_cases hn : n = t.avgout_ <;>
    simp [h1, hn, fileWrite]

theorem afterSolvent_file (env : PrintEnv) (t : Action_Hbond) (gs : Files) (n : String) :
    (afterSolvent env t gs).2 n =
      if (t.solvout_ ≠ "" ∧ t.calcSolvent_ = true) ∧ n = t.solvout_ then
        (if t.solvout_ = t.avgout_ then (afterSolute env t gs).2 n ++ solventReport env t
          else solventReport env t)
      else (afterSolute env t gs).2 n := by
  unfold afterSolvent
  by_cases h2 : t.solvout_ ≠ "" ∧ t.calcSolvent_ = true
  · rw [if_pos h2]
    by_cases hn : n = t.solvout_
    · rw [if_pos ⟨h2, hn⟩]
      show fileWrite _ _ _ _ n = _
      unfold fileWrite
      rw [if_pos hn]
      by_cases he : t.solvout_ = t.avgout_
      · rw [if_pos he, if_pos (decide_eq_true he)]
      · rw [if_neg he, if_neg (by simpa using he)]
    · rw [if_neg (fun h => hn h.2)]
      show fileWrite _ _ _ _ n = _
      unfold fileWrite
      rw [if_neg hn]
  · rw [if_neg h2, if_neg (fun h => h2 h.1)]

theorem afterBridge_file (env : PrintEnv) (t : Action_Hbond) (gs : Files) (n : String) :
    (afterBridge env t gs).2 n =
      if (t.bridgeout_ ≠ "" ∧ t.calcSolvent_ = true) ∧ n = t.bridgeout_ then
        (if t.bridgeout_ = t.avgout_ ∨ t.bridgeout_ = t.solvout_ then
            (afterSolvent env t gs).2 n ++ bridgeReport env t
          else bridgeReport env t)
      else (afterSolvent env t gs).2 n := by
  unfold afterBridge
  by_cases h2 : t.bridgeout_ ≠ "" ∧ t.calcSolvent_ = true
  · rw [if_pos h2]
    by_cases hn : n = t.bridgeout_
    · rw [if_pos ⟨h2, hn⟩]
      show fileWrite _ _ _ _ n = _
      unfold fileWrite
      rw [if_pos hn]
      by_cases he : t.bridgeout_ = t.avgout_ ∨ t.bridgeout_ = t.solvout_
      · rw [if_pos he, if_pos (by simpa using he)]
      · rw [if_neg he, if_neg (by simpa using he)]
    · rw [if_neg (fun h => hn h.2)]
      show fileWrite _ _ _ _ n = _
      unfold fileWrite
      rw [if_neg hn]
  · rw [if_neg h2, if_neg (fun h => h2 h.1)]

theorem second_print_solute (env : PrintEnv) (t : Action_Hbond) (gs : Files)
    (hperm : sortPermutes env)
    (h1 : t.avgout_ ≠ "") (hA : env.canOpen t.avgout_ = true) (hH : t.HbondMap_ = [])
    (hS : t.solvout_ = t.avgout_ → t.calcSolvent_ = true → t.SolventMap_ = []) :
    OutLine.soluteHeader ∈ (print env t gs).2 t.avgout_ ∧
      ((print env t gs).2 t.avgout_).all (fun l => !l.isRecord) = true := by
  have a1 : (afterSolute env t gs).2 t.avgout_ = [OutLine.soluteHeader] := by
    rw [afterSolute_file, if_pos ⟨h1, rfl⟩, soluteReport_no_record env t hperm hH]
  have a2 : OutLine.soluteHeader ∈ (afterSolvent env t gs).2 t.avgout_ ∧
      ((afterSolvent env t gs).2 t.avgout_).all (fun l => !l.isRecord) = true := by
    rw [afterSolvent_file]
    by_cases c : (t.solvout_ ≠ "" ∧ t.calcSolvent_ = true) ∧ t.avgout_ = t.solvout_
    · rw [if_pos c, if_pos c.2.symm, a1, solventReport_no_record env t hperm (hS c.2.symm c.1.2)]
      exact ⟨by simp, rfl⟩
    · rw [if_neg c, a1]
      exact ⟨by simp, rfl⟩
  have a3 : OutLine.soluteHeader ∈ (afterBridge env t gs).2 t.avgout_ ∧
      ((afterBridge env t gs).2 t.avgout_).all (fun l => !l.isRecord) = true := by
    rw [afterBridge_file]
    by_cases c : (t.bridgeout_ ≠ "" ∧ t.calcSolvent_ = true) ∧ t.avgout_ = t.bridgeout_
    · rw [if_pos c, if_pos (Or.inl c.2.symm), List.all_append, a2.2, bridgeReport_no_record]
      exact ⟨List.mem_append_left _ a2.1, rfl⟩
    · rw [if_neg c]
      exact a2
  rw [print_ite, if_neg (fun h => by rw [hA] at h; exact Bool.noConfusion h.2)]
  split_ifs
  · rw [a1]; exact ⟨by simp, rfl⟩
  · exact a2
  · exact a3

theorem second_print_solvent (env : PrintEnv) (t : Action_Hbond) (gs : Files)
    (hperm : sortPermutes env)
    (hA : t.avgout_ = "" ∨ env.canOpen t.avgout_ = true)
    (h2 : t.solvout_ ≠ "") (h3 : t.calcSolvent_ = true)
    (hO : env.canOpen t.solvout_ = true) (hS : t.SolventMap_ = [])
    (hH : t.avgout_ ≠ "" → t.HbondMap_ = []) :
    OutLine.solventTitle ∈ (print env t gs).2 t.solvout_ ∧
      ((print env t gs).2 t.solvout_).all (fun l => !l.isRecord) = true := by
  have a2 : OutLine.solventTitle ∈ (afterSolvent env t gs).2 t.solvout_ ∧
      ((afterSolvent env t gs).2 t.solvout_).all (fun l => !l.isRecord) = true := by
    rw [afterSolvent_file, if_pos ⟨⟨h2, h3⟩, rfl⟩, solventReport_no_record env t hperm hS]
    by_cases he : t.solvout_ = t.avgout_
    · have h1 : t.avgout_ ≠ "" := by rw [← he]; exact h2
      rw [if_pos he, afterSolute_file, if_pos ⟨h1, he⟩,
        soluteReport_no_record env t hperm (hH h1)]
      exact ⟨by simp, rfl⟩
    · rw [if_neg he]
      exact ⟨by simp, rfl⟩
  have a3 : OutLine.solventTitle ∈ (afterBridge env t gs).2 t.solvout_ ∧
      ((afterBridge env t gs).2 t.solvout_).all (fun l => !l.isRecord) = true := by
    rw [afterBridge_file]
    by_cases c : (t.bridgeout_ ≠ "" ∧ t.calcSolvent_ = true) ∧ t.solvout_ = t.bridgeout_
    · rw [if_pos c, if_pos (Or.inr c.2.symm), List.all_append, a2.2, bridgeReport_no_record]
      exact ⟨List.mem_append_left _ a2.1, rfl⟩
    · rw [if_neg c]
      exact a2
  rw [print_ite,
    if_neg (fun h => by
      rcases hA with hA | hA
      · exact h.1 hA
      · rw [hA] at h; exact Bool.noConfusion h.2),
    if_neg (fun h => by rw [hO] at h; exact Bool.noConfusion h.2)]
  split_ifs
  · exact a2
  · exact a3

theorem print_config (env : PrintEnv) (s : Action_Hbond) (fs : Files) :
    (print env s fs).1.avgout_ = s.avgout_ ∧ (print env s fs).1.solvout_ = s.solvout_ ∧
      (print env s fs).1.calcSolvent_ = s.calcSolvent_ := by
  have h := (print_state env s fs).1
  refine ⟨?_, ?_, ?_⟩ <;> rw [h]

/-- C15: `print()` leaves `HbondMap_` empty exactly when it has written the
solute-solute report (the report is configured and its file opens) and
`SolventMap_` empty exactly when it has written the solute-solvent report (the
report is configured, its file opens, and the solute-solute block did not end
`print()` on a failed open); otherwise the registry is as it was. With a `sort`
that returns a rearrangement of its input, a second `print()` on the instance
and files the first one left writes each report that the first one wrote again,
and its file then holds the header lines and no record row. -/
theorem print_drains_registries (env : PrintEnv) (s : Action_Hbond) (fs : Files)
    (hperm : sortPermutes env) :
    (print env s fs).1.HbondMap_ =
      (if s.avgout_ ≠ "" ∧ env.canOpen s.avgout_ = true then [] else s.HbondMap_) ∧
    (print env s fs).1.SolventMap_ =
      (if (s.avgout_ = "" ∨ env.canOpen s.avgout_ = true) ∧
          (s.solvout_ ≠ "" ∧ s.calcSolvent_ = true) ∧ env.canOpen s.solvout_ = true
        then [] else s.SolventMap_) ∧
    (s.avgout_ = "" ∨ env.canOpen s.avgout_ = false ∨
      (OutLine.soluteHeader ∈
          (print env (print env s fs).1 (print env s fs).2).2 s.avgout_ ∧
        ((print env (print env s fs).1 (print env s fs).2).2 s.avgout_).all
          (fun l => !l.isRecord) = true)) ∧
    (s.solvout_ = "" ∨ s.calcSolvent_ = false ∨ env.canOpen s.solvout_ = false ∨
      (s.avgout_ ≠ "" ∧ env.canOpen s.avgout_ = false) ∨
      (OutLine.solventTitle ∈
          (print env (print env s fs).1 (print env s fs).2).2 s.solvout_ ∧
        ((print env (print env s fs).1 (print env s fs).2).2 s.solvout_).all
          (fun l => !l.isRecord) = true)) := by
  obtain ⟨e1, e2, e3⟩ := print_config env s fs
  refine ⟨print_HbondMap env s fs, print_SolventMap env s fs, ?_, ?_⟩
  · by_cases h1 : s.avgout_ = ""
    · exact Or.inl h1
    · by_cases hA : env.canOpen s.avgout_ = true
      · refine Or.inr (Or.inr ?_)
        have key := second_print_solute env (print env s fs).1 (print env s fs).2 hperm
          (by rw [e1]; exact h1) (by rw [e1]; exact hA)
          (by rw [print_HbondMap, if_pos ⟨h1, hA⟩])
          (by
            rw [e1, e2, e3]
            intro he h3
            have h2 : s.solvout_ ≠ "" := by rw [he]; exact h1
            rw [print_SolventMap, if_pos ⟨Or.inr hA, ⟨h2, h3⟩, by rw [he]; exact hA⟩])
        rw [e1] at key
        exact key
      · exact Or.inr (Or.inl (Bool.eq_false_iff.2 hA))
  · by_cases h2 : s.solvout_ = ""
    · exact Or.inl h2
    · by_cases h3 : s.calcSolvent_ = true
      · by_cases hO : env.canOpen s.solvout_ = true
        · by_cases hA : s.avgout_ ≠ "" ∧ env.canOpen s.avgout_ = false
          · exact Or.inr (Or.inr (Or.inr (Or.inl hA)))
          · have hA2 : s.avgout_ = "" ∨ env.canOpen s.avgout_ = true := by
              by_cases h1 : s.avgout_ = ""
              · exact Or.inl h1
              · right
                cases hc : env.canOpen s.avgout_
                · exact absurd ⟨h1, hc⟩ hA
                · rfl
            refine Or.inr (Or.inr (Or.inr (Or.inr ?_)))
            have key := second_print_solvent env (print env s fs).1 (print env s fs).2 hperm
              (by rw [e1]; exact hA2) (by rw [e2]; exact h2) (by rw [e3]; exact h3)
              (by rw [e2]; exact hO)
              (by rw [print_SolventMap, if_pos ⟨hA2, ⟨h2, h3⟩, hO⟩])
              (by
                rw [e1]
                intro h1
                rcases hA2 with h | h
                · exact absurd h h1
                · rw [print_HbondMap, if_pos ⟨h1, h⟩])
            rw [e2] at key
            exact key
        · exact Or.inr (Or.inr (Or.inl (Bool.eq_false_iff.2 hO)))
      · exact Or.inr (Or.inl (Bool.eq_false_iff.2 h3))

theorem print_drains_registries_witness :
    (sortPermutes (demoPrintEnv fun _ => true) ∧ tieState.HbondMap_.length = 3 ∧
      tieState.avgout_ = "avg.dat" ∧ tieState.solvout_ = "") ∧
    (print (demoPrintEnv fun _ => true) tieState noFiles).1.HbondMap_ = [] ∧
    OutLine.soluteHeader ∈
      (print (demoPrintEnv fun _ => true)
        (print (demoPrintEnv fun _ => true) tieState noFiles).1
        (print (demoPrintEnv fun _ => true) tieState noFiles).2).2 "avg.dat" ∧
    ((print (demoPrintEnv fun _ => true)
        (print (demoPrintEnv fun _ => true) tieState noFiles).1
        (print (demoPrintEnv fun _ => true) tieState noFiles).2).2 "avg.dat").all
      (fun l => !l.isRecord) = true ∧
    (((print (demoPrintEnv fun _ => true) tieState noFiles).2 "avg.dat").filter
      fun l => l.isRecord).length = 3 :=
  ⟨⟨demoPrintEnv_sortPermutes _, by decide, by decide, by decide⟩,
    (print_drains_registries (demoPrintEnv fun _ => true) tieState noFiles
      (demoPrintEnv_sortPermutes _)).1.trans (if_pos ⟨by decide, rfl⟩),
    (((print_drains_registries (demoPrintEnv fun _ => true) tieState noFiles
      (demoPrintEnv_sortPermutes _)).2.2.1.resolve_left (by decide)).resolve_left
        (by decide)).1,
    (((print_drains_registries (demoPrintEnv fun _ => true) tieState noFiles
      (demoPrintEnv_sortPermutes _)).2.2.1.resolve_left (by decide)).resolve_left
        (by decide)).2,
    by simp [print, printSolute, printSolvent, printBridge, tieState, freshAction,
      demoPrintEnv, noFiles, fileWrite, hbondSort, demoSort, demoCmp, soluteLine,
      OutLine.isRecord]⟩

/-- C17 (as stated, refuted): a failed open ends `print()` altogether. When
`avg.dat` cannot be opened while `solv.dat` and `bridge.dat` can, `print()`
writes neither the solute-solvent nor the bridging report and leaves the
solute-solvent registry undrained, although the solute-solvent block on its own
would have written its report. -/
theorem print_returns_at_first_failed_open :
    (print (demoPrintEnv fun n => decide (n ≠ "avg.dat")) reportState noFiles).2 "solv.dat"
      = [] ∧
    (print (demoPrintEnv fun n => decide (n ≠ "avg.dat")) reportState noFiles).2 "bridge.dat"
      = [] ∧
    (print (demoPrintEnv fun n => decide (n ≠ "avg.dat")) reportState noFiles).1.SolventMap_
      = reportState.SolventMap_ ∧
    (reportState.solvout_ = "solv.dat" ∧ reportState.bridgeout_ = "bridge.dat" ∧
      reportState.calcSolvent_ = true) ∧
    (demoPrintEnv fun n => decide (n ≠ "avg.dat")).canOpen reportState.solvout_ = true ∧
    (demoPrintEnv fun n => decide (n ≠ "avg.dat")).canOpen reportState.bridgeout_ = true ∧
    ((printSolvent (demoPrintEnv fun n => decide (n ≠ "avg.dat")) reportState noFiles).map
      fun r => (r.2 "solv.dat").length) = some 3 := by
  refine ⟨?_, ?_, ?_, by decide, by decide, by decide, ?_⟩ <;>
    simp [print, printSolute, printSolvent, printBridge, reportState, freshAction,
      demoPrintEnv, noFiles, fileWrite, hbondSort, demoSort]

/-- C17 (amended): a failed open ends `print()` at that point. If the file of
the solute-solute report does not open, `print()` changes nothing; if that
block is through and the file of the solute-solvent report does not open,
`print()` has written the solute-solute report only; if both blocks are through
and the file of the bridging report does not open, `print()` has written the
first two reports only; otherwise all three blocks are through. What the files
hold after the first and after the second block is spelled out for every file
name `n`, and the first block leaves `SolventMap_` as it was. -/
theorem print_stops_at_failed_open (env : PrintEnv) (s : Action_Hbond) (fs : Files)
    (n : String) :
    print env s fs =
      (if s.avgout_ ≠ "" ∧ env.canOpen s.avgout_ = false then (s, fs)
      else if (s.solvout_ ≠ "" ∧ s.calcSolvent_ = true) ∧ env.canOpen s.solvout_ = false then
        afterSolute env s fs
      else if (s.bridgeout_ ≠ "" ∧ s.calcSolvent_ = true) ∧
          env.canOpen s.bridgeout_ = false then
        afterSolvent env s fs
      else afterBridge env s fs) ∧
    (afterSolute env s fs).2 n =
      (if s.avgout_ ≠ "" ∧ n = s.avgout_ then soluteReport env s else fs n) ∧
    (afterSolute env s fs).1.SolventMap_ = s.SolventMap_ ∧
    (afterSolvent env s fs).2 n =
      (if (s.solvout_ ≠ "" ∧ s.calcSolvent_ = true) ∧ n = s.solvout_ then
        (if s.solvout_ = s.avgout_ then (afterSolute env s fs).2 n ++ solventReport env s
          else solventReport env s)
      else (afterSolute env s fs).2 n) :=
  ⟨print_ite env s fs, afterSolute_file env s fs n, by rw [afterSolute_fst],
    afterSolvent_file env s fs n⟩

/-! ### Donor pairs: the degenerate pair and the pairs of a candidate -/

/-- C20: the donor list that `SearchDonor` builds holds the degenerate pair
`(X, X)` exactly when `X` is an atom of the mask, auto-filtering is off, `X` is
not a hydrogen and `X` has no bonds. No pair of the list has a hydrogen as its
heavy atom, a pair of the list is degenerate exactly when auto-filtering is off
and its heavy atom has no bonds, and with auto-filtering on no pair of the list
is degenerate. -/
theorem searchDonor_degenerate_iff (parm : Topology) (Auto : Bool) (dmask : AtomMask)
    (X : Int) :
    ((X, X) ∈ donorPairs (SearchDonor parm [] dmask Auto) ↔
      (X ∈ dmask.Selected_ ∧ Auto = false ∧
        (parm.atom X).Element ≠ AtomicElementType.HYDROGEN ∧ (parm.atom X).Nbonds = 0)) ∧
    (donorPairs (SearchDonor parm [] dmask Auto)).all
      (fun p => decide ((parm.atom p.1).Element ≠ AtomicElementType.HYDROGEN)) = true ∧
    (donorPairs (SearchDonor parm [] dmask Auto)).all
      (fun p => decide (p.2 = p.1 ↔ (Auto = false ∧ (parm.atom p.1).Nbonds = 0))) = true ∧
    (Auto = false ∨
      (donorPairs (SearchDonor parm [] dmask Auto)).all (fun p => decide (p.2 ≠ p.1)) = true) := by
  have hpairs : donorPairs (SearchDonor parm [] dmask Auto) =
      dmask.Selected_.flatMap (atomDonorPairs parm Auto) := by
    rw [searchDonor_eq, List.nil_append, donorPairs_flatDonors]
  rw [hpairs]
  have hall : ∀ p ∈ dmask.Selected_.flatMap (atomDonorPairs parm Auto),
      (parm.atom p.1).Element ≠ AtomicElementType.HYDROGEN ∧
        (p.2 = p.1 ↔ (Auto = false ∧ (parm.atom p.1).Nbonds = 0)) := by
    intro p hp
    obtain ⟨Y, _, hpY⟩ := List.mem_flatMap.1 hp
    obtain ⟨h1, h2, h3⟩ := atomDonorPairs_fst parm Auto Y p hpY
    rw [h1]
    exact ⟨h2, h3⟩
  refine ⟨?_, ?_, ?_, ?_⟩
  · constructor
    · intro hmem
      obtain ⟨Z, hZm, hZ⟩ := List.mem_flatMap.1 hmem
      obtain ⟨g1, g2, g3⟩ := atomDonorPairs_fst parm Auto Z (X, X) hZ
      simp only at g1 g3
      subst g1
      exact ⟨hZm, (g3.1 rfl).1, g2, (g3.1 rfl).2⟩
    · rintro ⟨hX, hA, hH, hN⟩
      refine List.mem_flatMap.2 ⟨X, hX, ?_⟩
      simp [atomDonorPairs, hA, hH, hN]
  · rw [List.all_eq_true]
    intro p hp
    exact decide_eq_true (hall p hp).1
  · rw [List.all_eq_true]
    intro p hp
    exact decide_eq_true (hall p hp).2
  · cases Auto
    · exact Or.inl rfl
    · right
      rw [List.all_eq_true]
      intro p hp
      refine decide_eq_true ?_
      intro hd
      exact Bool.noConfusion ((hall p hp).2.1 hd).1

theorem searchDonor_degenerate_iff_witness :
    ((3 : Int), (3 : Int)) ∈ donorPairs (SearchDonor demoTopology []
        { maskString := "all", Selected_ := [1, 2, 3] } false) ∧
    donorPairs (SearchDonor demoTopology []
        { maskString := "all", Selected_ := [1, 2, 3] } false) = [(1, 2), (3, 3)] ∧
    (donorPairs (SearchDonor demoTopology []
        { maskString := "all", Selected_ := [1, 2, 3] } false)).all
      (fun p => decide (p.2 = p.1 ↔ (false = false ∧ (demoTopology.atom p.1).Nbonds = 0))) = true :=
  ⟨(searchDonor_degenerate_iff demoTopology false
      { maskString := "all", Selected_ := [1, 2, 3] } 3).1.2
      ⟨by decide, rfl, by decide, by decide⟩,
    by decide,
    (searchDonor_degenerate_iff demoTopology false
      { maskString := "all", Selected_ := [1, 2, 3] } 3).2.2.1⟩

/-- C21: the donor list that `SearchDonor` builds is, read as pairs, the
concatenation over the mask atoms, in mask order, of the pairs of each atom.
For an atom `X` that is not a hydrogen, passes the F/O/N filter when
auto-filtering and does not fall under the ion rule, the loop body appends one
pair `(X, h)` per bonded hydrogen `h` of `X`, in bond order, and nothing else.
Every non-degenerate pair `(D, H)` of the donor list has `D` in the mask, `H` a
hydrogen among the atoms bonded to `D`, and `D` an F, O or N atom when
auto-filtering. -/
theorem searchDonor_pairs_of_candidate (parm : Topology) (Auto : Bool) (dmask : AtomMask)
    (dlist : List Int) (X : Int) :
    donorPairs (SearchDonor parm [] dmask Auto) =
      dmask.Selected_.flatMap (fun Y => donorPairs (searchDonorAtom parm Auto [] Y)) ∧
    ((parm.atom X).Element = AtomicElementType.HYDROGEN ∨
      (Auto = true ∧ isFON parm X = false) ∨
      (Auto = false ∧ (parm.atom X).Nbonds = 0) ∨
      (searchDonorAtom parm Auto dlist X =
          dlist ++ flatDonors (((parm.atom X).bonds.filter fun b =>
            decide ((parm.atom b).Element = AtomicElementType.HYDROGEN)).map fun b => (X, b)) ∧
        donorPairs (searchDonorAtom parm Auto [] X) =
          ((parm.atom X).bonds.filter fun b =>
            decide ((parm.atom b).Element = AtomicElementType.HYDROGEN)).map fun b => (X, b))) ∧
    (donorPairs (SearchDonor parm [] dmask Auto)).all
      (fun p => decide (p.1 = p.2 ∨
        (p.1 ∈ dmask.Selected_ ∧
          (parm.atom p.2).Element = AtomicElementType.HYDROGEN ∧
          p.2 ∈ (parm.atom p.1).bonds ∧
          (Auto = false ∨ isFON parm p.1 = true)))) = true := by
  have hpairs : donorPairs (SearchDonor parm [] dmask Auto) =
      dmask.Selected_.flatMap (atomDonorPairs parm Auto) := by
    rw [searchDonor_eq, List.nil_append, donorPairs_flatDonors]
  have hblock : ∀ Y, donorPairs (searchDonorAtom parm Auto [] Y) = atomDonorPairs parm Auto Y := by
    intro Y
    rw [searchDonorAtom_eq, List.nil_append, donorPairs_flatDonors]
  refine ⟨?_, ?_, ?_⟩
  · rw [hpairs]
    congr 1
    funext Y
    exact (hblock Y).symm
  · by_cases hX : (parm.atom X).Element = AtomicElementType.HYDROGEN
    · exact Or.inl hX
    · by_cases hF : Auto = true ∧ isFON parm X = false
      · exact Or.inr (Or.inl hF)
      · by_cases hI : Auto = false ∧ (parm.atom X).Nbonds = 0
        · exact Or.inr (Or.inr (Or.inl hI))
        · refine Or.inr (Or.inr (Or.inr ?_))
          have hatom : atomDonorPairs parm Auto X =
              ((parm.atom X).bonds.filter fun b =>
                decide ((parm.atom b).Element = AtomicElementType.HYDROGEN)).map
                  fun b => (X, b) := by
            unfold atomDonorPairs
            rw [if_neg hX, if_neg hF, if_neg hI]
          exact ⟨by rw [searchDonorAtom_eq, hatom], by rw [hblock, hatom]⟩
  · rw [hpairs, List.all_eq_true]
    intro p hp
    refine decide_eq_true ?_
    by_cases hnd : p.1 = p.2
    · exact Or.inl hnd
    · right
      obtain ⟨Y, hY, hpY⟩ := List.mem_flatMap.1 hp
      obtain ⟨g1, g2, g3, g4⟩ := atomDonorPairs_mem parm Auto Y p hpY hnd
      rw [g1]
      exact ⟨hY, g2, g3, g4⟩

theorem searchDonor_pairs_of_candidate_witness :
    donorPairs (SearchDonor demoTopology []
        { maskString := "all", Selected_ := [1, 2, 3, 4, 5, 6, 7] } true) = [(1, 2), (4, 5)] ∧
    searchDonorAtom demoTopology true [8, 9] 4 =
      [8, 9] ++ flatDonors (((demoTopology.atom 4).bonds.filter fun b =>
        decide ((demoTopology.atom b).Element = AtomicElementType.HYDROGEN)).map
          fun b => ((4 : Int), b)) ∧
    donorPairs (searchDonorAtom demoTopology true [] 4) =
      (((demoTopology.atom 4).bonds.filter fun b =>
        decide ((demoTopology.atom b).Element = AtomicElementType.HYDROGEN)).map
          fun b => ((4 : Int), b)) ∧
    (donorPairs (SearchDonor demoTopology []
        { maskString := "all", Selected_ := [1, 2, 3, 4, 5, 6, 7] } true)).all
      (fun p => decide (p.1 = p.2 ∨
        (p.1 ∈ ({ maskString := "all", Selected_ := [1, 2, 3, 4, 5, 6, 7] } : AtomMask).Selected_ ∧
          (demoTopology.atom p.2).Element = AtomicElementType.HYDROGEN ∧
          p.2 ∈ (demoTopology.atom p.1).bonds ∧
          (true = false ∨ isFON demoTopology p.1 = true)))) = true :=
  ⟨by decide,
    ((((searchDonor_pairs_of_candidate demoTopology true
      { maskString := "all", Selected_ := [1, 2, 3, 4, 5, 6, 7] } [8, 9] 4).2.1.resolve_left
        (by decide)).resolve_left (by decide)).resolve_left (by decide)).1,
    ((((searchDonor_pairs_of_candidate demoTopology true
      { maskString := "all", Selected_ := [1, 2, 3, 4, 5, 6, 7] } [8, 9] 4).2.1.resolve_left
        (by decide)).resolve_left (by decide)).resolve_left (by decide)).2,
    (searchDonor_pairs_of_candidate demoTopology true
      { maskString := "all", Selected_ := [1, 2, 3, 4, 5, 6, 7] } [8, 9] 4).2.2⟩

end Cpptraj
